import Mathlib

/-
Verification development for the rcc compiler middle-end and back-end.

Part 1 embeds src/gen_ir.rs: the IR builder that lowers a typed AST to a
basic-block CFG with block-argument SSA.  The thread-local mutable state of
the Rust code (FN, OUT, NREG and the label counter used by new_bb) becomes an
explicit state record `GenSt` threaded through the generation functions.
Basic blocks are identified by their position in the function's block list
(each Rc<RefCell<BB>> is pushed to fn.bbs exactly once, so the position is a
faithful identity); virtual registers are identified by their `vn` number.

Part 2 embeds src/codegen.rs: the older flat-IR x86-64 emitter.
-/

namespace Rcc

/-- The IR opcode set of gen_ir.rs (enum IRType). -/
inductive IRType where
  | IMM
  | BPREL
  | MOV
  | RETURN
  | CALL
  | LABEL_ADDR
  | EQ
  | NE
  | LE
  | LT
  | AND
  | OR
  | XOR
  | SHL
  | SHR
  | MOD
  | JMP
  | BR
  | LOAD
  | LOAD_SPILL
  | STORE
  | STORE_ARG
  | STORE_SPILL
  | ADD
  | SUB
  | MUL
  | DIV
  | NOP
deriving DecidableEq, Repr

/-- A variable (struct Var of parse.rs, restricted to the fields the IR
builder reads and writes: name, locality, type size, address_taken). -/
structure Var where
  name : String
  is_local : Bool
  size : Int
  address_taken : Bool
deriving DecidableEq, Repr

/-- An IR instruction (struct IR of gen_ir.rs, restricted to the fields the
builder writes; defaults are the alloc_ir() defaults).  Registers are their
vn numbers, block references are positions in the function's block list. -/
structure IRIns where
  op : IRType
  r0 : Option Nat := none
  r1 : Option Nat := none
  r2 : Option Nat := none
  imm : Int := 0
  label : Int := 0
  var : Option Var := none
  bb1 : Option Nat := none
  bb2 : Option Nat := none
  size : Int := 0
  name : String := ""
  nargs : Nat := 0
  args : List Nat := []
  bbarg : Option Nat := none
deriving DecidableEq, Repr

/-- A basic block (struct BB of gen_ir.rs; the liveness sets succ/pred/
def_regs/in_regs/out_regs are populated by the allocator, not the builder,
and stay empty during IR building, so they are omitted). -/
structure BBlk where
  label : Nat
  ir : List IRIns := []
  param : Option Nat := none
deriving DecidableEq, Repr

/-- The builder's mutable state: the current function's block list (FN.bbs),
the current output block OUT (as a position into bbs), the register counter
NREG, and the block-label counter used by new_bb (bump_nlabel of util.rs). -/
structure GenSt where
  bbs : List BBlk
  out : Nat
  nreg : Nat
  nlabel : Nat
deriving DecidableEq, Repr

def dfltBB : BBlk := { label := 0, ir := [], param := none }

def blkAt (s : GenSt) (i : Nat) : BBlk := s.bbs.getD i dfltBB

def setBlk (s : GenSt) (i : Nat) (b : BBlk) : GenSt := { s with bbs := s.bbs.set i b }

/-- out_ir_push: append an instruction to the current output block. -/
def push_ir (i : IRIns) (s : GenSt) : GenSt :=
  setBlk s s.out { blkAt s s.out with ir := (blkAt s s.out).ir ++ [i] }

/-- out_param_set: set the block-parameter register of the output block. -/
def out_param_set (r : Nat) (s : GenSt) : GenSt :=
  setBlk s s.out { blkAt s s.out with param := some r }

/-- bump_nreg / new_reg: allocate a fresh virtual register number.
NREG starts at 1 and is returned before being incremented. -/
def new_reg (s : GenSt) : Nat × GenSt := (s.nreg, { s with nreg := s.nreg + 1 })

/-- new_bb: allocate a fresh basic block, give it the next label
(bump_nlabel) and push it onto the function's block list.  The returned
value is the block's position in the list. -/
def new_bb (s : GenSt) : Nat × GenSt :=
  (s.bbs.length,
   { s with
     bbs := s.bbs ++ [{ label := s.nlabel, ir := [], param := none }],
     nlabel := s.nlabel + 1 })

/-- set_out: make a block the current output block. -/
def set_out (i : Nat) (s : GenSt) : GenSt := { s with out := i }

/-- emit: push an instruction with the three register slots filled. -/
def emitIns (op : IRType) (r0 r1 r2 : Option Nat) (s : GenSt) : GenSt :=
  push_ir { op := op, r0 := r0, r1 := r1, r2 := r2 } s

/-- br: conditional branch on r to then-block t, else-block e. -/
def brIns (r t e : Nat) (s : GenSt) : GenSt :=
  push_ir { op := .BR, r2 := some r, bb1 := some t, bb2 := some e } s

/-- jmp: unconditional jump without a block argument. -/
def jmpIns (b : Nat) (s : GenSt) : GenSt :=
  push_ir { op := .JMP, bb1 := some b } s

/-- jmp_arg: unconditional jump carrying the block argument r. -/
def jmpArgIns (b r : Nat) (s : GenSt) : GenSt :=
  push_ir { op := .JMP, bb1 := some b, bbarg := some r } s

/-- imm: allocate a register and emit IMM loading v into it. -/
def immIns (v : Int) (s : GenSt) : Nat × GenSt :=
  let p := new_reg s
  (p.1, push_ir { op := .IMM, r0 := some p.1, imm := v } p.2)

/-- The binary-operator node kinds that gen_expr lowers through gen_binop. -/
inductive BinK where
  | ADD
  | SUB
  | MUL
  | DIV
  | MOD
  | LT
  | LE
  | EQ
  | NE
  | AND
  | OR
  | XOR
  | SHL
  | SHR
deriving DecidableEq, Repr

def BinK.toIR : BinK → IRType
  | .ADD => .ADD
  | .SUB => .SUB
  | .MUL => .MUL
  | .DIV => .DIV
  | .MOD => .MOD
  | .LT => .LT
  | .LE => .LE
  | .EQ => .EQ
  | .NE => .NE
  | .AND => .AND
  | .OR => .OR
  | .XOR => .XOR
  | .SHL => .SHL
  | .SHR => .SHR

/-- The typed AST consumed by the builder (enum NodeType of parse.rs,
restricted to the node kinds gen_ir.rs matches on).  Type information is
inlined where the builder reads it: `size` is node.ty.size (load/store
width), `off` is node.ty.offset (struct field offset), `toBool` is whether a
CAST's target type kind is BOOL.  A missing else/init/cond/inc is an
explicit Option, matching the is_some() tests in gen_stmt.  A SWITCH node
carries its case values; the CASE nodes inside its body carry their index
into that list, mirroring how the parser threads the same Rc'd case nodes
through node.cases and the body, and how break/continue resolve through
node.target to the nearest enclosing construct's freshly assigned
break_/continue_ blocks. -/
inductive Node where
  | num (val : Int)
  | varref (v : Var) (size : Int)
  | dot (e : Node) (off : Int) (size : Int)
  | addr (e : Node)
  | deref (e : Node) (size : Int)
  | cast (e : Node) (toBool : Bool)
  | call (name : String) (args : List Node)
  | stmtExpr (stmts : List Node) (e : Node)
  | bin (k : BinK) (lhs rhs : Node)
  | eql (lhs rhs : Node) (size : Int)
  | logand (lhs rhs : Node)
  | logor (lhs rhs : Node)
  | bnot (e : Node)
  | exclam (e : Node)
  | comma (lhs rhs : Node)
  | quest (cond thn els : Node)
  | nullStmt
  | ifs (cond : Node) (thn : Node) (els : Option Node)
  | fors (ini : Option Node) (cond : Option Node) (inc : Option Node) (body : Node)
  | doWhile (body : Node) (cond : Node)
  | switch (cond : Node) (caseVals : List Int) (body : Node)
  | cas (idx : Nat) (body : Node)
  | brkStmt
  | contStmt
  | ret (e : Node)
  | exprStmt (e : Node)
  | compStmt (stmts : List Node)

/-- The break/continue/case targets visible to a statement: in the Rust code
these live on the AST nodes (node.break_, node.continue_, case.bb, reached
through node.target); here they are passed down explicitly. -/
structure Ctx where
  brk : Option Nat
  cont : Option Nat
  cases : List Nat
deriving DecidableEq, Repr

/-- The case-dispatch loop of gen_stmt's SWITCH arm: for each case value
allocate the case's block and a fall-through block, emit EQ of the switch
value against the case value and BR to the case block, and continue in the
fall-through block.  Returns the case blocks in order. -/
def gen_cases : List Int → Nat → GenSt → (List Nat × GenSt)
  | [], _, s => ([], s)
  | v :: vs, r, s =>
    let p1 := new_bb s
    let p2 := new_bb p1.2
    let p3 := new_reg p2.2
    let p4 := immIns v p3.2
    let s5 := emitIns .EQ (some p3.1) (some r) (some p4.1) p4.2
    let s6 := brIns p3.1 p1.1 p2.1 s5
    let s7 := set_out p2.1 s6
    let rest := gen_cases vs r s7
    (p1.1 :: rest.1, rest.2)

mutual

/-- gen_lval of gen_ir.rs: a register holding the address of an lvalue.
DEREF defers to gen_expr; DOT adds the constant field offset (IMM + ADD) to
the address of the base; VARREF emits BPREL for a local and LABEL_ADDR for a
global; every other node kind fails the assert (a builder panic, `none`). -/
def gen_lval : Nat → Node → Ctx → GenSt → Option (Nat × GenSt)
  | 0, _, _, _ => none
  | fuel + 1, n, c, s =>
    match n with
    | .deref e _ => gen_expr fuel e c s
    | .dot e off _ =>
      let p1 := new_reg s
      match gen_lval fuel e c p1.2 with
      | none => none
      | some (r2, s2) =>
        let p3 := immIns off s2
        some (p1.1, emitIns .ADD (some p1.1) (some r2) (some p3.1) p3.2)
    | .varref v _ =>
      if v.is_local then
        let p := new_reg s
        some (p.1, push_ir { op := .BPREL, r0 := some p.1, var := some v } p.2)
      else
        let p := new_reg s
        some (p.1, push_ir { op := .LABEL_ADDR, r0 := some p.1, name := v.name } p.2)
    | _ => none

/-- gen_binop of gen_ir.rs: fresh destination register first, then the lhs,
then the rhs, then the operation. -/
def gen_binop : Nat → IRType → Node → Node → Ctx → GenSt → Option (Nat × GenSt)
  | 0, _, _, _, _, _ => none
  | fuel + 1, op, lhs, rhs, c, s =>
    let p1 := new_reg s
    match gen_expr fuel lhs c p1.2 with
    | none => none
    | some (r2, s2) =>
      match gen_expr fuel rhs c s2 with
      | none => none
      | some (r3, s3) =>
        some (p1.1, emitIns op (some p1.1) (some r2) (some r3) s3)

/-- gen_expr of gen_ir.rs: a register holding the node's value. -/
def gen_expr : Nat → Node → Ctx → GenSt → Option (Nat × GenSt)
  | 0, _, _, _ => none
  | fuel + 1, n, c, s =>
    match n with
    | .num v => some (immIns v s)
    | .bin k lhs rhs => gen_binop fuel k.toIR lhs rhs c s
    | .logand lhs rhs =>
      let pb := new_bb s
      let p0 := new_bb pb.2
      let p1 := new_bb p0.2
      let pl := new_bb p1.2
      match gen_expr fuel lhs c pl.2 with
      | none => none
      | some (rl, s1) =>
        let s2 := set_out pb.1 (brIns rl pb.1 p0.1 s1)
        match gen_expr fuel rhs c s2 with
        | none => none
        | some (rr, s3) =>
          let s4 := set_out p0.1 (brIns rr p1.1 p0.1 s3)
          let pz := immIns 0 s4
          let s5 := set_out p1.1 (jmpArgIns pl.1 pz.1 pz.2)
          let po := immIns 1 s5
          let s6 := set_out pl.1 (jmpArgIns pl.1 po.1 po.2)
          let pr := new_reg s6
          some (pr.1, out_param_set pr.1 pr.2)
    | .logor lhs rhs =>
      let pb := new_bb s
      let p0 := new_bb pb.2
      let p1 := new_bb p0.2
      let pl := new_bb p1.2
      match gen_expr fuel lhs c pl.2 with
      | none => none
      | some (rl, s1) =>
        let s2 := set_out pb.1 (brIns rl p1.1 pb.1 s1)
        match gen_expr fuel rhs c s2 with
        | none => none
        | some (rr, s3) =>
          let s4 := set_out p0.1 (brIns rr p1.1 p0.1 s3)
          let pz := immIns 0 s4
          let s5 := set_out p1.1 (jmpArgIns pl.1 pz.1 pz.2)
          let po := immIns 1 s5
          let s6 := set_out pl.1 (jmpArgIns pl.1 po.1 po.2)
          let pr := new_reg s6
          some (pr.1, out_param_set pr.1 pr.2)
    | .varref _ size =>
      let p := new_reg s
      match gen_lval fuel n c p.2 with
      | none => none
      | some (a, s2) =>
        some (p.1, push_ir { op := .LOAD, r0 := some p.1, r2 := some a, size := size } s2)
    | .dot _ _ size =>
      let p := new_reg s
      match gen_lval fuel n c p.2 with
      | none => none
      | some (a, s2) =>
        some (p.1, push_ir { op := .LOAD, r0 := some p.1, r2 := some a, size := size } s2)
    | .call name args =>
      match gen_expr_list fuel args c s with
      | none => none
      | some (rs, s1) =>
        let p := new_reg s1
        some (p.1, push_ir
          { op := .CALL, r0 := some p.1, name := name, nargs := rs.length, args := rs } p.2)
    | .addr e => gen_lval fuel e c s
    | .deref e size =>
      let p := new_reg s
      match gen_expr fuel e c p.2 with
      | none => none
      | some (a, s2) =>
        some (p.1, push_ir { op := .LOAD, r0 := some p.1, r2 := some a, size := size } s2)
    | .cast e toBool =>
      match gen_expr fuel e c s with
      | none => none
      | some (r1, s1) =>
        if toBool then
          let p2 := new_reg s1
          let p3 := immIns 0 p2.2
          some (p2.1, emitIns .NE (some p2.1) (some r1) (some p3.1) p3.2)
        else
          some (r1, s1)
    | .stmtExpr stmts e =>
      match gen_stmt_list fuel stmts c s with
      | none => none
      | some s1 => gen_expr fuel e c s1
    | .eql lhs rhs size =>
      match gen_expr fuel rhs c s with
      | none => none
      | some (r1, s1) =>
        match gen_lval fuel lhs c s1 with
        | none => none
        | some (r2, s2) =>
          some (r1, push_ir { op := .STORE, r1 := some r2, r2 := some r1, size := size } s2)
    | .bnot e =>
      let p1 := new_reg s
      match gen_expr fuel e c p1.2 with
      | none => none
      | some (r2, s2) =>
        let p3 := immIns (-1) s2
        some (p1.1, emitIns .XOR (some p1.1) (some r2) (some p3.1) p3.2)
    | .comma lhs rhs =>
      match gen_expr fuel lhs c s with
      | none => none
      | some (_, s1) => gen_expr fuel rhs c s1
    | .quest cond thn els =>
      let pt := new_bb s
      let pe := new_bb pt.2
      let pl := new_bb pe.2
      match gen_expr fuel cond c pl.2 with
      | none => none
      | some (rc, s1) =>
        let s2 := set_out pt.1 (brIns rc pt.1 pe.1 s1)
        match gen_expr fuel thn c s2 with
        | none => none
        | some (rt, s3) =>
          let s4 := set_out pe.1 (jmpArgIns pl.1 rt s3)
          match gen_expr fuel els c s4 with
          | none => none
          | some (re, s5) =>
            let s6 := set_out pl.1 (jmpArgIns pl.1 re s5)
            let pr := new_reg s6
            some (pr.1, out_param_set pr.1 pr.2)
    | .exclam e =>
      let p1 := new_reg s
      match gen_expr fuel e c p1.2 with
      | none => none
      | some (r2, s2) =>
        let p3 := immIns 0 s2
        some (p1.1, emitIns .EQ (some p1.1) (some r2) (some p3.1) p3.2)
    | _ => none

/-- gen_expr over the argument list of a CALL, left to right. -/
def gen_expr_list : Nat → List Node → Ctx → GenSt → Option (List Nat × GenSt)
  | 0, _, _, _ => none
  | _ + 1, [], _, s => some ([], s)
  | fuel + 1, n :: ns, c, s =>
    match gen_expr fuel n c s with
    | none => none
    | some (r, s1) =>
      match gen_expr_list fuel ns c s1 with
      | none => none
      | some (rs, s2) => some (r :: rs, s2)

/-- gen_stmt of gen_ir.rs: emit instructions and CFG edges for a statement. -/
def gen_stmt : Nat → Node → Ctx → GenSt → Option GenSt
  | 0, _, _, _ => none
  | fuel + 1, n, c, s =>
    match n with
    | .nullStmt => some s
    | .ifs cond thn els =>
      let pt := new_bb s
      let pe := new_bb pt.2
      let pl := new_bb pe.2
      match gen_expr fuel cond c pl.2 with
      | none => none
      | some (rc, s1) =>
        let s2 := set_out pt.1 (brIns rc pt.1 pe.1 s1)
        match gen_stmt fuel thn c s2 with
        | none => none
        | some s3 =>
          let s4 := set_out pe.1 (jmpIns pl.1 s3)
          match
            match els with
            | some e => gen_stmt fuel e c s4
            | none => some s4
          with
          | none => none
          | some s5 => some (set_out pl.1 (jmpIns pl.1 s5))
    | .fors ini cond inc body =>
      let pc := new_bb s
      let pk := new_bb pc.2
      let pb := new_bb pk.2
      let pz := new_bb pb.2
      let c1 : Ctx := { brk := some pz.1, cont := some pk.1, cases := c.cases }
      match
        match ini with
        | some i => gen_stmt fuel i c1 pz.2
        | none => some pz.2
      with
      | none => none
      | some s1 =>
        let s2 := set_out pc.1 (jmpIns pc.1 s1)
        match
          match cond with
          | some ce =>
            match gen_expr fuel ce c1 s2 with
            | none => none
            | some (rc, s3) => some (brIns rc pb.1 pz.1 s3)
          | none => some (jmpIns pb.1 s2)
        with
        | none => none
        | some s4 =>
          let s5 := set_out pb.1 s4
          match gen_stmt fuel body c1 s5 with
          | none => none
          | some s6 =>
            let s7 := set_out pk.1 (jmpIns pk.1 s6)
            match
              match inc with
              | some i =>
                match gen_expr fuel i c1 s7 with
                | none => none
                | some (_, s8) => some s8
              | none => some s7
            with
            | none => none
            | some s9 => some (set_out pz.1 (jmpIns pc.1 s9))
    | .doWhile body cond =>
      let pk := new_bb s
      let pb := new_bb pk.2
      let pz := new_bb pb.2
      let c1 : Ctx := { brk := some pz.1, cont := some pk.1, cases := c.cases }
      let s1 := set_out pb.1 (jmpIns pb.1 pz.2)
      match gen_stmt fuel body c1 s1 with
      | none => none
      | some s2 =>
        let s3 := set_out pk.1 (jmpIns pk.1 s2)
        match gen_expr fuel cond c1 s3 with
        | none => none
        | some (rc, s4) => some (set_out pz.1 (brIns rc pb.1 pz.1 s4))
    | .switch cond caseVals body =>
      let pz := new_bb s
      let pk := new_bb pz.2
      match gen_expr fuel cond c pk.2 with
      | none => none
      | some (rc, s1) =>
        let cb := gen_cases caseVals rc s1
        let s2 := jmpIns pz.1 cb.2
        let c1 : Ctx := { brk := some pz.1, cont := some pk.1, cases := cb.1 }
        match gen_stmt fuel body c1 s2 with
        | none => none
        | some s3 => some (set_out pz.1 (jmpIns pz.1 s3))
    | .cas idx body =>
      match c.cases[idx]? with
      | none => none
      | some bb =>
        let s1 := set_out bb (jmpIns bb s)
        gen_stmt fuel body c s1
    | .brkStmt =>
      match c.brk with
      | none => none
      | some b =>
        let p := new_bb (jmpIns b s)
        some (set_out p.1 p.2)
    | .contStmt =>
      match c.cont with
      | none => none
      | some b =>
        let p := new_bb (jmpIns b s)
        some (set_out p.1 p.2)
    | .ret e =>
      match gen_expr fuel e c s with
      | none => none
      | some (r, s1) =>
        let s2 := push_ir { op := .RETURN, r2 := some r } s1
        let p := new_bb s2
        some (set_out p.1 p.2)
    | .exprStmt e =>
      match gen_expr fuel e c s with
      | none => none
      | some (_, s1) => some s1
    | .compStmt stmts => gen_stmt_list fuel stmts c s
    | _ => none

/-- gen_stmt over a statement list (COMP_STMT, STMT_EXPR bodies). -/
def gen_stmt_list : Nat → List Node → Ctx → GenSt → Option GenSt
  | 0, _, _, _ => none
  | _ + 1, [], _, s => some s
  | fuel + 1, n :: ns, c, s =>
    match gen_stmt fuel n c s with
    | none => none
    | some s1 => gen_stmt_list fuel ns c s1

end

/-- gen_param of gen_ir.rs: STORE_ARG of parameter i into its stack slot;
the shared Var is marked address_taken, so the instruction's var reference
carries address_taken = true as well. -/
def gen_param (v : Var) (i : Nat) (s : GenSt) : Var × GenSt :=
  let v1 : Var := { v with address_taken := true }
  (v1, push_ir { op := .STORE_ARG, var := some v1, imm := (i : Int), size := v.size } s)

def gen_params : List Var → Nat → GenSt → (List Var × GenSt)
  | [], _, s => ([], s)
  | v :: vs, i, s =>
    let p := gen_param v i s
    let rest := gen_params vs (i + 1) p.2
    (p.1 :: rest.1, rest.2)

/-- A function of the input AST: name, parameter variables in source order,
and the FUNC node's body. -/
structure FnAst where
  name : String
  params : List Var
  body : Node

/-- A function after IR building: its block list (Function.bbs). -/
structure CompiledFn where
  name : String
  params : List Var
  bbs : List BBlk
deriving DecidableEq, Repr

instance : Inhabited CompiledFn := ⟨{ name := "", params := [], bbs := [] }⟩

/-- The per-function part of gen_ir: two entry blocks with the first
jumping to the second, STORE_ARG per parameter, the body, and the
synthesized trailing return.  The Rust code runs
`new_ir(RETURN)` first and only then evaluates `imm(0)` for its operand, so
the RETURN instruction is pushed before the IMM that materializes the 0 and
its r2 field is the register that IMM will define. -/
def gen_fn (fuel : Nat) (f : FnAst) (nreg nlabel : Nat) :
    Option (CompiledFn × Nat × Nat) :=
  let s0 : GenSt := { bbs := [], out := 0, nreg := nreg, nlabel := nlabel }
  let pe := new_bb s0
  let s1 := set_out pe.1 pe.2
  let pb := new_bb s1
  let s2 := set_out pb.1 (jmpIns pb.1 pb.2)
  let pp := gen_params f.params 0 s2
  match gen_stmt fuel f.body { brk := none, cont := none, cases := [] } pp.2 with
  | none => none
  | some s3 =>
    let s4 := push_ir { op := .RETURN, r2 := some s3.nreg } s3
    let pz := immIns 0 s4
    some ({ name := f.name, params := pp.1, bbs := pz.2.bbs }, pz.2.nreg, pz.2.nlabel)

/-- gen_ir over a whole program, threading the NREG and label counters
across functions (the thread-local counters are never reset). -/
def gen_ir_core (fuel : Nat) : List FnAst → Nat → Nat → Option (List CompiledFn × Nat × Nat)
  | [], nr, nl => some ([], nr, nl)
  | f :: fs, nr, nl =>
    match gen_fn fuel f nr nl with
    | none => none
    | some (cf, nr1, nl1) =>
      match gen_ir_core fuel fs nr1 nl1 with
      | none => none
      | some (cfs, nr2, nl2) => some (cf :: cfs, nr2, nl2)

/-- gen_ir: NREG starts at 1 (its thread_local initializer).  The label
counter of util.rs is not in the sources; modelled from the spec ("a stable
integer label, monotonically assigned per compilation unit") with initial
value 1. -/
def gen_ir (fuel : Nat) (prog : List FnAst) : Option (List CompiledFn) :=
  (gen_ir_core fuel prog 1 1).map (fun x => x.1)

/-- The straight-line evaluator used to state functional correctness of a
single arithmetic block: a register file, IMM/ADD/MUL updates, and the value
carried by RETURN. -/
def updEnv (env : Nat → Int) (r : Option Nat) (v : Int) : Nat → Int :=
  match r with
  | none => env
  | some n => fun m => if m = n then v else env m

def evalStraight : List IRIns → (Nat → Int) → Option Int
  | [], _ => none
  | i :: rest, env =>
    match i.op with
    | .IMM => evalStraight rest (updEnv env i.r0 i.imm)
    | .ADD =>
      match i.r1, i.r2 with
      | some a, some b => evalStraight rest (updEnv env i.r0 (env a + env b))
      | _, _ => none
    | .SUB =>
      match i.r1, i.r2 with
      | some a, some b => evalStraight rest (updEnv env i.r0 (env a - env b))
      | _, _ => none
    | .MUL =>
      match i.r1, i.r2 with
      | some a, some b => evalStraight rest (updEnv env i.r0 (env a * env b))
      | _, _ => none
    | .RETURN =>
      match i.r2 with
      | some r => some (env r)
      | none => none
    | _ => none

/-- The terminator opcodes (JMP, BR, RETURN). -/
def isTerm (op : IRType) : Bool :=
  match op with
  | .JMP => true
  | .BR => true
  | .RETURN => true
  | _ => false

/-- The node kinds gen_lval accepts as lvalues. -/
def isLvalKind (n : Node) : Bool :=
  match n with
  | .varref _ _ => true
  | .dot _ _ _ => true
  | .deref _ _ => true
  | _ => false

/- State-operation lemmas: how blkAt interacts with the primitive steps. -/

theorem setBlk_len (s : GenSt) (i : Nat) (b : BBlk) :
    (setBlk s i b).bbs.length = s.bbs.length := by
  simp [setBlk]

theorem getElem?_setBlk (s : GenSt) (i : Nat) (b : BBlk) (j : Nat) :
    (setBlk s i b).bbs[j]? = if i = j ∧ i < s.bbs.length then some b else s.bbs[j]? := by
  by_cases h : i = j
  · subst h
    by_cases hl : i < s.bbs.length
    · simp [setBlk, List.getElem?_set_eq_of_lt, hl]
    · rw [if_neg (by omega)]
      show (s.bbs.set i b)[i]? = s.bbs[i]?
      rw [List.set_eq_of_length_le (by omega)]
  · rw [if_neg (by tauto)]
    simp [setBlk, List.getElem?_set_ne h]

theorem blkAt_def (s : GenSt) (i : Nat) : blkAt s i = (s.bbs[i]?).getD dfltBB := by
  simp [blkAt, List.getD_eq_getElem?_getD]

theorem blkAt_setBlk_self (s : GenSt) (i : Nat) (b : BBlk) (h : i < s.bbs.length) :
    blkAt (setBlk s i b) i = b := by
  rw [blkAt_def, getElem?_setBlk, if_pos ⟨rfl, h⟩]
  rfl

theorem blkAt_setBlk_ne (s : GenSt) (i : Nat) (b : BBlk) (j : Nat) (h : i ≠ j) :
    blkAt (setBlk s i b) j = blkAt s j := by
  rw [blkAt_def, getElem?_setBlk, if_neg (by tauto), blkAt_def]

theorem push_ir_len (i : IRIns) (s : GenSt) : (push_ir i s).bbs.length = s.bbs.length := by
  simp [push_ir, setBlk_len]

theorem push_ir_out (i : IRIns) (s : GenSt) : (push_ir i s).out = s.out := rfl

theorem push_ir_nreg (i : IRIns) (s : GenSt) : (push_ir i s).nreg = s.nreg := rfl

theorem push_ir_nlabel (i : IRIns) (s : GenSt) : (push_ir i s).nlabel = s.nlabel := rfl

theorem blkAt_push_ir_self (i : IRIns) (s : GenSt) (h : s.out < s.bbs.length) :
    blkAt (push_ir i s) s.out =
      { blkAt s s.out with ir := (blkAt s s.out).ir ++ [i] } := by
  simp [push_ir, blkAt_setBlk_self _ _ _ h]

theorem blkAt_push_ir_ne (i : IRIns) (s : GenSt) (j : Nat) (h : j ≠ s.out) :
    blkAt (push_ir i s) j = blkAt s j := by
  simp [push_ir, blkAt_setBlk_ne _ _ _ _ (Ne.symm h)]

theorem push_ir_oob (i : IRIns) (s : GenSt) (hl : ¬s.out < s.bbs.length) :
    push_ir i s = s := by
  show setBlk s s.out _ = s
  unfold setBlk
  rw [List.set_eq_of_length_le (by omega)]

theorem blkAt_push_ir_param (i : IRIns) (s : GenSt) (j : Nat) :
    (blkAt (push_ir i s) j).param = (blkAt s j).param := by
  by_cases h : j = s.out
  · subst h
    by_cases hl : s.out < s.bbs.length
    · rw [blkAt_push_ir_self _ _ hl]
    · rw [push_ir_oob _ _ hl]
  · rw [blkAt_push_ir_ne _ _ _ h]

theorem blkAt_push_ir_label (i : IRIns) (s : GenSt) (j : Nat) :
    (blkAt (push_ir i s) j).label = (blkAt s j).label := by
  by_cases h : j = s.out
  · subst h
    by_cases hl : s.out < s.bbs.length
    · rw [blkAt_push_ir_self _ _ hl]
    · rw [push_ir_oob _ _ hl]
  · rw [blkAt_push_ir_ne _ _ _ h]

theorem blkAt_push_ir_ir (i : IRIns) (s : GenSt) (j : Nat) :
    ∃ tl, (blkAt (push_ir i s) j).ir = (blkAt s j).ir ++ tl := by
  by_cases h : j = s.out
  · subst h
    by_cases hl : s.out < s.bbs.length
    · exact ⟨[i], by rw [blkAt_push_ir_self _ _ hl]⟩
    · exact ⟨[], by rw [push_ir_oob _ _ hl]; simp⟩
  · exact ⟨[], by rw [blkAt_push_ir_ne _ _ _ h]; simp⟩

theorem new_bb_fst (s : GenSt) : (new_bb s).1 = s.bbs.length := rfl

theorem new_bb_len (s : GenSt) : (new_bb s).2.bbs.length = s.bbs.length + 1 := by
  simp [new_bb]

theorem new_bb_out (s : GenSt) : (new_bb s).2.out = s.out := rfl

theorem new_bb_nreg (s : GenSt) : (new_bb s).2.nreg = s.nreg := rfl

theorem blkAt_new_bb_old (s : GenSt) (j : Nat) (h : j < s.bbs.length) :
    blkAt (new_bb s).2 j = blkAt s j := by
  rw [blkAt_def, blkAt_def]
  simp [new_bb, List.getElem?_append_left h]

theorem blkAt_new_bb_new (s : GenSt) :
    blkAt (new_bb s).2 s.bbs.length = { label := s.nlabel, ir := [], param := none } := by
  rw [blkAt_def]
  simp [new_bb]

theorem set_out_bbs (i : Nat) (s : GenSt) : (set_out i s).bbs = s.bbs := rfl

theorem set_out_out (i : Nat) (s : GenSt) : (set_out i s).out = i := rfl

theorem blkAt_set_out (i : Nat) (s : GenSt) (j : Nat) : blkAt (set_out i s) j = blkAt s j := rfl

theorem new_reg_bbs (s : GenSt) : (new_reg s).2.bbs = s.bbs := rfl

theorem new_reg_out (s : GenSt) : (new_reg s).2.out = s.out := rfl

theorem blkAt_new_reg (s : GenSt) (j : Nat) : blkAt (new_reg s).2 j = blkAt s j := rfl

theorem out_param_set_len (r : Nat) (s : GenSt) :
    (out_param_set r s).bbs.length = s.bbs.length := by
  simp [out_param_set, setBlk_len]

theorem out_param_set_out (r : Nat) (s : GenSt) : (out_param_set r s).out = s.out := rfl

theorem blkAt_out_param_set_self (r : Nat) (s : GenSt) (h : s.out < s.bbs.length) :
    blkAt (out_param_set r s) s.out = { blkAt s s.out with param := some r } := by
  simp [out_param_set, blkAt_setBlk_self _ _ _ h]

theorem blkAt_out_param_set_ne (r : Nat) (s : GenSt) (j : Nat) (h : j ≠ s.out) :
    blkAt (out_param_set r s) j = blkAt s j := by
  simp [out_param_set, blkAt_setBlk_ne _ _ _ _ (Ne.symm h)]

end Rcc

namespace RccCG

/-
Embedding of src/codegen.rs, the flat-IR x86-64 emitter.  Its IR type (with
lhs/rhs operand fields) is declared in regalloc.rs, which is not among the
sources; the variants below are the ones codegen.rs matches on, plus the
comparison opcodes EQ/NE/LT/LE.  Modelled from the spec: the opcode set of
section 4.1 includes the comparisons EQ/NE/LT/LE, and codegen.rs's final
match arm panics on every opcode it does not handle.  Output is the list of
printed assembly lines; a Rust panic (unknown opcode, out-of-bounds index)
is `none`.
-/

/-- The flat IR opcode set consumed by codegen.rs. -/
inductive FIRType where
  | IMM
  | ADD_IMM
  | MOV
  | RETURN
  | CALL
  | LABEL
  | JMP
  | UNLESS
  | LOAD
  | STORE
  | ADD
  | SUB
  | MUL
  | DIV
  | NOP
  | EQ
  | NE
  | LT
  | LE
deriving DecidableEq, Repr

/-- A flat IR instruction: lhs/rhs operand slots (physical register indices,
immediates or label numbers depending on the opcode), callee name and
argument register list for CALL. -/
structure FIns where
  op : FIRType
  lhs : Int := 0
  rhs : Int := 0
  name : String := ""
  args : List Int := []
deriving DecidableEq, Repr

/-- The physical register name table REGS of regalloc.rs (not among the
sources).  Modelled from the spec: "seven callee-saved, caller-preserved
general-purpose registers ... a typical choice is r10, r11, rbx, r12, r13,
r14, r15". -/
def REGS : List String := ["r10", "r11", "rbx", "r12", "r13", "r14", "r15"]

/-- regs[i as usize]: a negative i32 cast to usize is a huge index, so any
negative or out-of-range index is an out-of-bounds panic (`none`). -/
def regsGet (i : Int) : Option String :=
  if i < 0 then none else REGS[i.toNat]?

/-- The CALL argument-move loop: `for i in 0..arg.len()` over the six System
V argument registers rdi,rsi,rdx,rcx,r8,r9, reading ir.args[i] for every i
in 0..6 regardless of how many arguments the call actually has (unrolled
here).  Fewer than six argument entries is an out-of-bounds panic. -/
def callMoves (args : List Int) : Option (List String) :=
  match args with
  | a0 :: a1 :: a2 :: a3 :: a4 :: a5 :: _ =>
    match regsGet a0, regsGet a1, regsGet a2, regsGet a3, regsGet a4, regsGet a5 with
    | some r0, some r1, some r2, some r3, some r4, some r5 =>
      some ["  mov rdi, " ++ r0, "  mov rsi, " ++ r1, "  mov rdx, " ++ r2,
            "  mov rcx, " ++ r3, "  mov r8, " ++ r4, "  mov r9, " ++ r5]
    | _, _, _, _, _, _ => none
  | _ => none

/-- One iteration of the instruction loop in codegen.rs's gen: the assembly
lines printed for one flat IR instruction.  retLabel is the function's
.LendN label.  The final catch-all arm is the "unknown operator" panic. -/
def cgInstr (retLabel : String) (ir : FIns) : Option (List String) :=
  match ir.op with
  | .IMM =>
    match regsGet ir.lhs with
    | some r => some ["  mov " ++ r ++ ", " ++ toString ir.rhs]
    | none => none
  | .ADD_IMM =>
    match regsGet ir.lhs with
    | some r => some ["  add " ++ r ++ ", " ++ toString ir.rhs]
    | none => none
  | .MOV =>
    match regsGet ir.lhs, regsGet ir.rhs with
    | some rl, some rr => some ["  mov " ++ rl ++ ", " ++ rr]
    | _, _ => none
  | .RETURN =>
    match regsGet ir.lhs with
    | some r => some ["  mov rax, " ++ r, "  jmp " ++ retLabel]
    | none => none
  | .CALL =>
    match callMoves ir.args, regsGet ir.lhs with
    | some mv, some d =>
      some (["  push rbx", "  push rbp", "  push rsp",
             "  push r12", "  push r13", "  push r14", "  push r15"]
            ++ mv
            ++ ["  push r10", "  push r11", "  mov rax, 0",
                "  call " ++ ir.name, "  pop r11", "  pop r10",
                "  mov " ++ d ++ ", rax"])
    | _, _ => none
  | .LABEL => some [".L" ++ toString ir.lhs ++ ":"]
  | .JMP => some ["  jmp .L" ++ toString ir.lhs]
  | .UNLESS =>
    match regsGet ir.lhs with
    | some r => some ["  cmp " ++ r ++ ", 0", "  je .L" ++ toString ir.rhs]
    | none => none
  | .LOAD =>
    match regsGet ir.lhs, regsGet ir.rhs with
    | some rl, some rr => some ["  mov " ++ rl ++ ", [" ++ rr ++ "]"]
    | _, _ => none
  | .STORE =>
    match regsGet ir.lhs, regsGet ir.rhs with
    | some rl, some rr => some ["  mov [" ++ rl ++ "], " ++ rr]
    | _, _ => none
  | .ADD =>
    match regsGet ir.lhs, regsGet ir.rhs with
    | some rl, some rr => some ["  add " ++ rl ++ ", " ++ rr]
    | _, _ => none
  | .SUB =>
    match regsGet ir.lhs, regsGet ir.rhs with
    | some rl, some rr => some ["  sub " ++ rl ++ ", " ++ rr]
    | _, _ => none
  | .MUL =>
    match regsGet ir.lhs, regsGet ir.rhs with
    | some rl, some rr =>
      some ["  mov rax, " ++ rr, "  mul " ++ rl, "  mov " ++ rl ++ ", rax"]
    | _, _ => none
  | .DIV =>
    match regsGet ir.lhs, regsGet ir.rhs with
    | some rl, some rr =>
      some [" mov rax, " ++ rl, " cqo", " div " ++ rr, " mov " ++ rl ++ ", rax"]
    | _, _ => none
  | .NOP => some []
  | _ => none

/-- A function in the flat pipeline (the flat IR struct doubling as a
function container: name, stacksize and the instruction list). -/
structure FFn where
  name : String
  stacksize : Int := 0
  ir : List FIns := []
deriving DecidableEq, Repr

def cgBody (retLabel : String) : List FIns → Option (List String)
  | [] => some []
  | i :: rest =>
    match cgInstr retLabel i with
    | none => none
    | some l =>
      match cgBody retLabel rest with
      | none => none
      | some ls => some (l ++ ls)

/-- gen of codegen.rs for one function: prologue, instruction loop,
epilogue at the .LendN label (n is the global LABEL counter's value). -/
def cgFun (n : Nat) (f : FFn) : Option (List String) :=
  let retLabel := ".Lend" ++ toString n
  match cgBody retLabel f.ir with
  | none => none
  | some body =>
    some ([".global " ++ f.name, f.name ++ ":",
           "  push rbp", "  mov rbp, rsp",
           "  sub rsp, " ++ toString f.stacksize,
           "  push r12", "  push r13", "  push r14", "  push r15"]
          ++ body
          ++ [retLabel ++ ":",
              "  pop r15", "  pop r14", "  pop r13", "  pop r12",
              "  mov rsp, rbp", "  pop rbp", "  ret"])

end RccCG

namespace Rcc

/-- The program `int main(){ return 1+2*3; }` of scenario 1. -/
def c4Ast : FnAst :=
  { name := "main", params := [],
    body := .compStmt [.ret (.bin .ADD (.num 1) (.bin .MUL (.num 2) (.num 3)))] }

/-- The program `int main(){ switch(0){ case 0: ; } }`. -/
def switchAst : FnAst :=
  { name := "main", params := [],
    body := .compStmt [.switch (.num 0) [0] (.compStmt [.cas 0 .nullStmt])] }

/-- The program `int f(){ return 0; }`. -/
def retZeroFn : FnAst :=
  { name := "f", params := [], body := .compStmt [.ret (.num 0)] }

end Rcc

/-- C1, evaluation at the failing input `int main(){ switch(0){ case 0: ; } }`:
the built IR violates the terminator invariant in three ways.  Block 5 (the
fall-through block of the case-dispatch chain) holds two JMPs: the switch
arm emits `jmp(break)` and then the CASE arm emits `jmp(case.bb)` into the
same block.  Block 3 (the switch's `continue_` block) is empty, ending in no
terminator.  Block 2 (the epilogue) holds RETURN followed by the IMM that
materializes its operand, so its terminator is not last. -/
theorem c1_violation_eval :
    (Rcc.gen_ir 30 [Rcc.switchAst]).map (fun l => l.map (fun cf =>
        cf.bbs.map (fun b => b.ir.map (fun i => i.op)))) =
      some [[[.JMP], [.IMM, .IMM, .EQ, .BR], [.RETURN, .IMM], [], [.JMP], [.JMP, .JMP]]] ∧
    (Rcc.gen_ir 30 [Rcc.switchAst]).map (fun l => l.map (fun cf =>
        cf.bbs.map (fun b => (b.ir.filter (fun i => Rcc.isTerm i.op)).length))) =
      some [[1, 1, 1, 0, 1, 2]] ∧
    (Rcc.gen_ir 30 [Rcc.switchAst]).map (fun l => l.map (fun cf =>
        cf.bbs.map (fun b =>
          match b.ir.getLast? with
          | some i => Rcc.isTerm i.op
          | none => false))) =
      some [[true, true, false, false, true, true]] := by
  refine ⟨by decide, by decide, by decide⟩

/-- C2, counterexample: compiling `int f(){return 0;}` twice in one program
gives the second copy different block labels and virtual register numbers
than compiling it alone (the NREG and label counters are not reset at
function boundaries). -/
theorem c2_counterexample :
    (Rcc.gen_ir 30 [Rcc.retZeroFn, Rcc.retZeroFn]).isSome = true ∧
    (Rcc.gen_ir 30 [Rcc.retZeroFn]).isSome = true ∧
    (Rcc.gen_ir 30 [Rcc.retZeroFn, Rcc.retZeroFn]).map (fun l => (l.getD 1 default).bbs) ≠
      (Rcc.gen_ir 30 [Rcc.retZeroFn]).map (fun l => (l.getD 0 default).bbs) := by
  refine ⟨by decide, by decide, by decide⟩

/-- C2, amended: the block-label and virtual-register counters are global
monotonic state threaded across the whole translation unit, not reset at
function boundaries: a function appended to a program is compiled starting
from the counter values left by the functions before it, and compiling
`int f(){return 0;}` advances the register counter by 2 and the label
counter by 3 from whatever values they had, so the labels and register
numbers a function receives depend on what was compiled before it. -/
theorem c2_amended :
    (∀ (fuel : Nat) (fs : List Rcc.FnAst) (f : Rcc.FnAst) (nr nl : Nat),
      Rcc.gen_ir_core fuel (fs ++ [f]) nr nl =
        (Rcc.gen_ir_core fuel fs nr nl).bind (fun x =>
          (Rcc.gen_fn fuel f x.2.1 x.2.2).map (fun y => (x.1 ++ [y.1], y.2.1, y.2.2)))) ∧
    (∀ nr nl : Nat,
      (Rcc.gen_fn 30 Rcc.retZeroFn nr nl).map (fun x => x.2) = some (nr + 2, nl + 3)) := by
  constructor
  · intro fuel fs f nr nl
    induction fs generalizing nr nl with
    | nil =>
      cases h : Rcc.gen_fn fuel f nr nl with
      | none => simp [Rcc.gen_ir_core, h]
      | some y => simp [Rcc.gen_ir_core, h]
    | cons g gs ih =>
      cases h : Rcc.gen_fn fuel g nr nl with
      | none => simp [Rcc.gen_ir_core, h]
      | some y =>
        simp only [List.cons_append, Rcc.gen_ir_core, h, List.append_eq]
        rw [ih y.2.1 y.2.2]
        cases h2 : Rcc.gen_ir_core fuel gs y.2.1 y.2.2 with
        | none => simp
        | some z =>
          cases h3 : Rcc.gen_fn fuel f z.2.1 z.2.2 with
          | none => simp [h3]
          | some w => simp [h3]
  · intro nr nl
    rfl

/-- C4, counterexample: for `int main(){ return 1+2*3; }` the built IR for
main has three blocks, not one, and the arithmetic block's sequence is
IMM 1; IMM 2; IMM 3; MUL; ADD; RETURN (gen_binop evaluates the lhs before
the rhs), not IMM 2; IMM 3; MUL; IMM 1; ADD; RETURN. -/
theorem c4_counterexample :
    (Rcc.gen_ir 30 [Rcc.c4Ast]).map (fun l => l.map (fun cf => cf.bbs.length)) = some [3] ∧
    (Rcc.gen_ir 30 [Rcc.c4Ast]).map (fun l => l.map (fun cf =>
        (cf.bbs.getD 1 Rcc.dfltBB).ir.map (fun i => (i.op, i.imm)))) =
      some [[(.IMM, 1), (.IMM, 2), (.IMM, 3), (.MUL, 0), (.ADD, 0), (.RETURN, 0)]] := by
  refine ⟨by decide, by decide⟩

/-- C4, amended: for `int main(){ return 1+2*3; }` the IR built for main
consists of three blocks: the empty-entry jump block, one block containing
IMM 1; IMM 2; IMM 3; MUL; ADD; RETURN, and the synthesized epilogue block
(RETURN followed by the IMM 0 materializing its operand); evaluating the
arithmetic block yields the return value 7. -/
theorem c4_amended :
    (Rcc.gen_ir 30 [Rcc.c4Ast]).map (fun l => l.map (fun cf =>
        cf.bbs.map (fun b => b.ir.map (fun i => (i.op, i.imm, i.bb1))))) =
      some [[[(.JMP, 0, some 1)],
             [(.IMM, 1, none), (.IMM, 2, none), (.IMM, 3, none),
              (.MUL, 0, none), (.ADD, 0, none), (.RETURN, 0, none)],
             [(.RETURN, 0, none), (.IMM, 0, none)]]] ∧
    (Rcc.gen_ir 30 [Rcc.c4Ast]).map (fun l => l.map (fun cf =>
        Rcc.evalStraight (cf.bbs.getD 1 Rcc.dfltBB).ir (fun _ => 0))) = some [some 7] := by
  refine ⟨by rfl, by rfl⟩

/-- C3, counterexample: a CALL instruction carrying two argument registers
makes the emitter read args[2] out of bounds (a panic, here `none`): no
assembly at all is emitted, in particular not the claimed two argument
moves, `mov rax, 0`, and `call`. -/
theorem c3_counterexample :
    RccCG.cgInstr ".Lend0" { op := .CALL, lhs := 0, name := "foo", args := [0, 1] } = none := by
  decide

/-- C3, amended: for a CALL instruction carrying at least six argument
register entries (all of them and the destination in range), the emitter
moves the first six entries into rdi, rsi, rdx, rcx, r8, r9 in that order
(regardless of the call's actual argument count), after pushing rbx, rbp,
rsp, r12, r13, r14, r15 (which are never popped back); it saves r10 and r11
around the call, emits `mov rax, 0` before `call name`, restores r11 and
r10, and moves rax into the destination register.  For fewer than six
entries, emission reads args out of bounds. -/
theorem c3_amended (d a0 a1 a2 a3 a4 a5 : Int) (rest : List Int) (nm ret : String)
    (r0 r1 r2 r3 r4 r5 rd : String)
    (h0 : RccCG.regsGet a0 = some r0) (h1 : RccCG.regsGet a1 = some r1)
    (h2 : RccCG.regsGet a2 = some r2) (h3 : RccCG.regsGet a3 = some r3)
    (h4 : RccCG.regsGet a4 = some r4) (h5 : RccCG.regsGet a5 = some r5)
    (hd : RccCG.regsGet d = some rd) :
    RccCG.cgInstr ret
        { op := .CALL, lhs := d, name := nm,
          args := a0 :: a1 :: a2 :: a3 :: a4 :: a5 :: rest } =
      some ["  push rbx", "  push rbp", "  push rsp",
            "  push r12", "  push r13", "  push r14", "  push r15",
            "  mov rdi, " ++ r0, "  mov rsi, " ++ r1, "  mov rdx, " ++ r2,
            "  mov rcx, " ++ r3, "  mov r8, " ++ r4, "  mov r9, " ++ r5,
            "  push r10", "  push r11", "  mov rax, 0", "  call " ++ nm,
            "  pop r11", "  pop r10", "  mov " ++ rd ++ ", rax"] := by
  simp [RccCG.cgInstr, RccCG.callMoves, h0, h1, h2, h3, h4, h5, hd]

/-- Witness for c3_amended at a concrete six-argument CALL. -/
theorem c3_amended_witness :
    RccCG.cgInstr ".Lend0"
        { op := .CALL, lhs := 2, name := "foo", args := [0, 1, 2, 3, 4, 5] } =
      some ["  push rbx", "  push rbp", "  push rsp",
            "  push r12", "  push r13", "  push r14", "  push r15",
            "  mov rdi, r10", "  mov rsi, r11", "  mov rdx, rbx",
            "  mov rcx, r12", "  mov r8, r13", "  mov r9, r14",
            "  push r10", "  push r11", "  mov rax, 0", "  call foo",
            "  pop r11", "  pop r10", "  mov rbx, rax"] :=
  c3_amended 2 0 1 2 3 4 5 [] "foo" ".Lend0" "r10" "r11" "rbx" "r12" "r13" "r14" "rbx"
    rfl rfl rfl rfl rfl rfl rfl

/-- C10: the emitter's CALL argument-move loop iterates over all six System
V argument registers, indexing ir.args[i] for every i in 0..6 regardless of
the call's recorded argument count, so a CALL carrying fewer than six
argument register entries is an out-of-bounds index (a panic, `none`). -/
theorem c10_call_short_oob (ret : String) (ir : RccCG.FIns) (hop : ir.op = .CALL)
    (hlen : ir.args.length < 6) : RccCG.cgInstr ret ir = none := by
  have hm : RccCG.callMoves ir.args = none := by
    match hargs : ir.args with
    | [] => rfl
    | [_] => rfl
    | [_, _] => rfl
    | [_, _, _] => rfl
    | [_, _, _, _] => rfl
    | [_, _, _, _, _] => rfl
    | _ :: _ :: _ :: _ :: _ :: _ :: _ =>
      rw [hargs] at hlen
      simp at hlen
      omega
  simp [RccCG.cgInstr, hop, hm]

/-- Witness for c10_call_short_oob at a concrete two-argument CALL. -/
theorem c10_witness :
    RccCG.cgInstr ".Lend1" { op := .CALL, lhs := 1, name := "g", args := [3, 4] } = none :=
  c10_call_short_oob ".Lend1" _ rfl (by decide)

/-- C5, evaluation at the failing inputs: a comparison opcode EQ, NE, LT or
LE reaching the emitter falls into the unknown-operator arm, a fatal panic
(`none`): no cmp/sete/setne/setl/setle/movzx sequence is emitted. -/
theorem c5_compare_panics (ret : String) (ir : RccCG.FIns)
    (h : ir.op = .EQ ∨ ir.op = .NE ∨ ir.op = .LT ∨ ir.op = .LE) :
    RccCG.cgInstr ret ir = none := by
  rcases h with h | h | h | h <;> simp [RccCG.cgInstr, h]

/-- Witness for c5_compare_panics at a concrete EQ instruction. -/
theorem c5_witness :
    RccCG.cgInstr ".Lend0" { op := RccCG.FIRType.EQ, lhs := 0, rhs := 1 } = none :=
  c5_compare_panics ".Lend0" _ (Or.inl rfl)

/-- C9: gen_lval returns a register holding the address of its lvalue node:
for a variable reference it emits BPREL when the variable is local and
LABEL_ADDR when it is global; for a dereference it defers to gen_expr of the
operand; for a field access it is gen_lval of the base plus the constant
field offset materialized via IMM and ADD; and for every other node kind it
is a fatal builder error (none). -/
theorem c9_gen_lval (fuel : Nat) (c : Rcc.Ctx) (s : Rcc.GenSt)
    (hout : s.out < s.bbs.length) :
    (∀ (v : Rcc.Var) (sz : Int), v.is_local = true →
      ∃ r s', Rcc.gen_lval (fuel + 1) (.varref v sz) c s = some (r, s') ∧
        s'.out = s.out ∧
        (Rcc.blkAt s' s.out).ir = (Rcc.blkAt s s.out).ir ++
          [{ op := .BPREL, r0 := some r, var := some v }]) ∧
    (∀ (v : Rcc.Var) (sz : Int), v.is_local = false →
      ∃ r s', Rcc.gen_lval (fuel + 1) (.varref v sz) c s = some (r, s') ∧
        s'.out = s.out ∧
        (Rcc.blkAt s' s.out).ir = (Rcc.blkAt s s.out).ir ++
          [{ op := .LABEL_ADDR, r0 := some r, name := v.name }]) ∧
    (∀ (e : Rcc.Node) (sz : Int),
      Rcc.gen_lval (fuel + 1) (.deref e sz) c s = Rcc.gen_expr fuel e c s) ∧
    (∀ (e : Rcc.Node) (off sz : Int) (r2 : Nat) (s2 : Rcc.GenSt),
      Rcc.gen_lval fuel e c (Rcc.new_reg s).2 = some (r2, s2) →
      s2.out < s2.bbs.length →
      ∃ r3 s', Rcc.gen_lval (fuel + 1) (.dot e off sz) c s = some (s.nreg, s') ∧
        s'.out = s2.out ∧
        (Rcc.blkAt s' s2.out).ir = (Rcc.blkAt s2 s2.out).ir ++
          [{ op := .IMM, r0 := some r3, imm := off },
           { op := .ADD, r0 := some s.nreg, r1 := some r2, r2 := some r3 }]) ∧
    (∀ n : Rcc.Node, Rcc.isLvalKind n = false → Rcc.gen_lval (fuel + 1) n c s = none) := by
  refine ⟨?_, ?_, ?_, ?_, ?_⟩
  · intro v sz hl
    refine ⟨s.nreg,
      Rcc.push_ir { op := .BPREL, r0 := some s.nreg, var := some v } (Rcc.new_reg s).2,
      ?_, rfl, ?_⟩
    · simp [Rcc.gen_lval, hl, Rcc.new_reg]
    · exact (Rcc.blkAt_push_ir_self _ (Rcc.new_reg s).2 hout).symm ▸ rfl
  · intro v sz hl
    refine ⟨s.nreg,
      Rcc.push_ir { op := .LABEL_ADDR, r0 := some s.nreg, name := v.name } (Rcc.new_reg s).2,
      ?_, rfl, ?_⟩
    · simp [Rcc.gen_lval, hl, Rcc.new_reg]
    · exact (Rcc.blkAt_push_ir_self _ (Rcc.new_reg s).2 hout).symm ▸ rfl
  · intro e sz
    rfl
  · intro e off sz r2 s2 hrec hout2
    refine ⟨s2.nreg,
      Rcc.push_ir { op := .ADD, r0 := some s.nreg, r1 := some r2, r2 := some s2.nreg }
        (Rcc.push_ir { op := .IMM, r0 := some s2.nreg, imm := off } (Rcc.new_reg s2).2),
      ?_, rfl, ?_⟩
    · simp only [Rcc.gen_lval]
      rw [hrec]
      simp [Rcc.immIns, Rcc.emitIns, Rcc.new_reg]
    · have ha := Rcc.blkAt_push_ir_self
        { op := .IMM, r0 := some s2.nreg, imm := off } (Rcc.new_reg s2).2 hout2
      have hb := Rcc.blkAt_push_ir_self
        { op := .ADD, r0 := some s.nreg, r1 := some r2, r2 := some s2.nreg }
        (Rcc.push_ir { op := .IMM, r0 := some s2.nreg, imm := off } (Rcc.new_reg s2).2)
        (by rw [Rcc.push_ir_len]; exact hout2)
      rw [show (Rcc.push_ir { op := Rcc.IRType.IMM, r0 := some s2.nreg, imm := off }
          (Rcc.new_reg s2).2).out = s2.out from rfl] at hb
      rw [show ((Rcc.new_reg s2).2).out = s2.out from rfl] at ha
      rw [Rcc.blkAt_new_reg] at ha
      rw [hb, ha]
      simp
  · intro n hn
    cases n <;> first | rfl | simp [Rcc.isLvalKind] at hn

/-- Witness for c9_gen_lval: the deref arm defers to gen_expr and a
non-lvalue node (an addition) is rejected, at a concrete one-block state. -/
theorem c9_witness :
    Rcc.gen_lval 2 (.deref (.num 7) 4) ⟨none, none, []⟩
        { bbs := [Rcc.dfltBB], out := 0, nreg := 1, nlabel := 1 } =
      Rcc.gen_expr 1 (.num 7) ⟨none, none, []⟩
        { bbs := [Rcc.dfltBB], out := 0, nreg := 1, nlabel := 1 } ∧
    Rcc.gen_lval 2 (.bin .ADD (.num 1) (.num 2)) ⟨none, none, []⟩
        { bbs := [Rcc.dfltBB], out := 0, nreg := 1, nlabel := 1 } = none := by
  constructor
  · exact (c9_gen_lval 1 ⟨none, none, []⟩ _ (by decide)).2.2.1 (.num 7) 4
  · exact (c9_gen_lval 1 ⟨none, none, []⟩ _ (by decide)).2.2.2.2 _ rfl

namespace Rcc

/-- The block indices reachable through a statement context (the break,
continue and case-bb annotations of the enclosing constructs). -/
def ctxSet (c : Ctx) : List Nat := c.brk.toList ++ c.cont.toList ++ c.cases

/-- The block targets of an instruction (bb1 and bb2). -/
def insTargs (i : IRIns) : List Nat := i.bb1.toList ++ i.bb2.toList

/-- Every instruction target in the state satisfies P. -/
def TargP (s : GenSt) (P : Nat → Prop) : Prop :=
  ∀ j, j < s.bbs.length → ∀ i ∈ (blkAt s j).ir, ∀ t ∈ insTargs i, P t

/-- The JMP/block-parameter coherence invariant: every JMP carries a valid
target; a JMP with a bbarg targets a block whose param is set (or a pending
join block whose param will be set before the current arm returns), and a
JMP without a bbarg targets a non-pending block without a param. -/
def JmpOk (s : GenSt) (pend : List Nat) : Prop :=
  ∀ j, j < s.bbs.length → ∀ i ∈ (blkAt s j).ir, i.op = .JMP →
    ∃ t, i.bb1 = some t ∧ t < s.bbs.length ∧
      ((i.bbarg ≠ none ∧ ((blkAt s t).param ≠ none ∨ t ∈ pend)) ∨
       (i.bbarg = none ∧ (blkAt s t).param = none ∧ t ∉ pend))

/-- The well-formedness invariant carried by every reachable builder state. -/
structure Inv (c : Ctx) (pend : List Nat) (s : GenSt) : Prop where
  out_lt : s.out < s.bbs.length
  ctx_lt : ∀ j ∈ ctxSet c, j < s.bbs.length
  ctx_param : ∀ j ∈ ctxSet c, (blkAt s j).param = none
  pend_lt : ∀ j ∈ pend, j < s.bbs.length
  pend_ctx : ∀ j ∈ pend, j ∉ ctxSet c
  targ_lt : TargP s (fun t => t < s.bbs.length)
  jmp_ok : JmpOk s pend

/-- The frame relation between the state at entry to a generation call and
any later state: blocks below lo other than the entry output block and the
context blocks are untouched, parameters and labels below lo never change,
instruction lists below lo only grow, and every added instruction targets a
context block or a block allocated at index lo or above. -/
structure Post (lo : Nat) (c : Ctx) (s s' : GenSt) : Prop where
  len_le : s.bbs.length ≤ s'.bbs.length
  out_lt : s'.out < s'.bbs.length
  untouched : ∀ j, j < lo → j ∉ ctxSet c → j ≠ s.out → blkAt s' j = blkAt s j
  param_eq : ∀ j, j < lo → (blkAt s' j).param = (blkAt s j).param
  ir_pfx : ∀ j, j < lo → ∃ tl, (blkAt s' j).ir = (blkAt s j).ir ++ tl
  targ : ∀ P : Nat → Prop, TargP s P → (∀ j ∈ ctxSet c, P j) →
      (∀ t, lo ≤ t → t < s'.bbs.length → P t) → TargP s' P

theorem post_refl (lo : Nat) (c : Ctx) (s : GenSt) (hout : s.out < s.bbs.length) :
    Post lo c s s :=
  ⟨le_refl _, hout, fun _ _ _ _ => rfl, fun _ _ => rfl, fun _ _ => ⟨[], by simp⟩,
   fun _ hP _ _ => hP⟩

theorem post_mono (lo lo' : Nat) (c : Ctx) (s s' : GenSt) (h : lo ≤ lo')
    (hp : Post lo' c s s') : Post lo c s s' :=
  ⟨hp.len_le, hp.out_lt,
   fun j hj => hp.untouched j (lt_of_lt_of_le hj h),
   fun j hj => hp.param_eq j (lt_of_lt_of_le hj h),
   fun j hj => hp.ir_pfx j (lt_of_lt_of_le hj h),
   fun P hP hc hf => hp.targ P hP hc (fun t ht => hf t (le_trans h ht))⟩

theorem post_trans (lo : Nat) (c c' : Ctx) (s s1 s2 : GenSt)
    (h1 : Post lo c s s1) (h2 : Post lo c' s1 s2)
    (hctx : ∀ j ∈ ctxSet c', j ∈ ctxSet c ∨ lo ≤ j)
    (hctx_lt : ∀ j ∈ ctxSet c', j < s1.bbs.length)
    (hout : s1.out = s.out ∨ lo ≤ s1.out ∨ s1.out ∈ ctxSet c) :
    Post lo c s s2 := by
  refine ⟨le_trans h1.len_le h2.len_le, h2.out_lt, ?_, ?_, ?_, ?_⟩
  · intro j hj hjc hjo
    have hjc' : j ∉ ctxSet c' := by
      intro hmem
      rcases hctx j hmem with h | h
      · exact hjc h
      · omega
    have hjo' : j ≠ s1.out := by
      rcases hout with h | h | h
      · rw [h]; exact hjo
      · omega
      · intro he; rw [he] at hjc; exact hjc h
    rw [h2.untouched j hj hjc' hjo', h1.untouched j hj hjc hjo]
  · intro j hj
    rw [h2.param_eq j hj, h1.param_eq j hj]
  · intro j hj
    obtain ⟨t1, e1⟩ := h1.ir_pfx j hj
    obtain ⟨t2, e2⟩ := h2.ir_pfx j hj
    exact ⟨t1 ++ t2, by rw [e2, e1, List.append_assoc]⟩
  · intro P hP hc hf
    have hs1 : TargP s1 P :=
      h1.targ P hP hc (fun t ht hlt => hf t ht (lt_of_lt_of_le hlt h2.len_le))
    refine h2.targ P hs1 ?_ (fun t ht hlt => hf t ht hlt)
    intro j hj
    rcases hctx j hj with h | h
    · exact hc j h
    · exact hf j h (lt_of_lt_of_le (hctx_lt j hj) h2.len_le)

/-- A push of a non-terminating-to-anywhere instruction, or one whose
targets are in the context or in the fresh region. -/
theorem post_push (lo : Nat) (c : Ctx) (s : GenSt) (i : IRIns)
    (hout : s.out < s.bbs.length)
    (htarg : ∀ t ∈ insTargs i, t ∈ ctxSet c ∨ (lo ≤ t ∧ t < s.bbs.length)) :
    Post lo c s (push_ir i s) := by
  refine ⟨le_of_eq (push_ir_len i s).symm, ?_, ?_, ?_, ?_, ?_⟩
  · rw [push_ir_len]; exact hout
  · intro j _ _ hjo
    exact blkAt_push_ir_ne i s j hjo
  · intro j _
    exact blkAt_push_ir_param i s j
  · intro j _
    exact blkAt_push_ir_ir i s j
  · intro P hP hc hf
    intro j hj ins hins t ht
    rw [push_ir_len] at hj
    by_cases hjo : j = s.out
    · subst hjo
      rw [blkAt_push_ir_self i s hout] at hins
      simp only [List.mem_append, List.mem_singleton] at hins
      rcases hins with hins | hins
      · exact hP s.out hout ins hins t ht
      · subst hins
        rcases htarg t ht with h | h
        · exact hc t h
        · exact hf t h.1 (by rw [push_ir_len]; exact h.2)
    · rw [blkAt_push_ir_ne i s j hjo] at hins
      exact hP j hj ins hins t ht

theorem jmpok_push_nonjmp (s : GenSt) (pend : List Nat) (i : IRIns)
    (hjk : JmpOk s pend) (hnj : i.op ≠ .JMP) : JmpOk (push_ir i s) pend := by
  intro j hj ins hins hop
  rw [push_ir_len] at hj
  have key : ∃ t, ins.bb1 = some t ∧ t < s.bbs.length ∧
      ((ins.bbarg ≠ none ∧ ((blkAt s t).param ≠ none ∨ t ∈ pend)) ∨
       (ins.bbarg = none ∧ (blkAt s t).param = none ∧ t ∉ pend)) := by
    by_cases hjo : j = s.out
    · subst hjo
      by_cases hl : s.out < s.bbs.length
      · rw [blkAt_push_ir_self i s hl] at hins
        simp only [List.mem_append, List.mem_singleton] at hins
        rcases hins with hins | hins
        · exact hjk s.out hl ins hins hop
        · subst hins; exact absurd hop hnj
      · rw [push_ir_oob i s hl] at hins
        exact hjk s.out hj ins hins hop
    · rw [blkAt_push_ir_ne i s j hjo] at hins
      exact hjk j hj ins hins hop
  obtain ⟨t, h1, h2, h3⟩ := key
  refine ⟨t, h1, by rw [push_ir_len]; exact h2, ?_⟩
  rw [blkAt_push_ir_param i s t]
  exact h3

/-- Pushing a JMP whose target satisfies the coherence conditions. -/
theorem jmpok_push_jmp (s : GenSt) (pend : List Nat) (i : IRIns)
    (hjk : JmpOk s pend)
    (hok : ∃ t, i.bb1 = some t ∧ t < s.bbs.length ∧
      ((i.bbarg ≠ none ∧ ((blkAt s t).param ≠ none ∨ t ∈ pend)) ∨
       (i.bbarg = none ∧ (blkAt s t).param = none ∧ t ∉ pend))) :
    JmpOk (push_ir i s) pend := by
  intro j hj ins hins hop
  rw [push_ir_len] at hj
  have key : ∃ t, ins.bb1 = some t ∧ t < s.bbs.length ∧
      ((ins.bbarg ≠ none ∧ ((blkAt s t).param ≠ none ∨ t ∈ pend)) ∨
       (ins.bbarg = none ∧ (blkAt s t).param = none ∧ t ∉ pend)) := by
    by_cases hjo : j = s.out
    · subst hjo
      by_cases hl : s.out < s.bbs.length
      · rw [blkAt_push_ir_self i s hl] at hins
        simp only [List.mem_append, List.mem_singleton] at hins
        rcases hins with hins | hins
        · exact hjk s.out hl ins hins hop
        · subst hins; exact hok
      · rw [push_ir_oob i s hl] at hins
        exact hjk s.out hj ins hins hop
    · rw [blkAt_push_ir_ne i s j hjo] at hins
      exact hjk j hj ins hins hop
  obtain ⟨t, h1, h2, h3⟩ := key
  refine ⟨t, h1, by rw [push_ir_len]; exact h2, ?_⟩
  rw [blkAt_push_ir_param i s t]
  exact h3

theorem post_new_bb (lo : Nat) (c : Ctx) (s : GenSt)
    (hout : s.out < s.bbs.length) (hlo : lo ≤ s.bbs.length) :
    Post lo c s (new_bb s).2 := by
  refine ⟨by rw [new_bb_len]; omega, ?_, ?_, ?_, ?_, ?_⟩
  · rw [new_bb_len, new_bb_out]; omega
  · intro j hj _ _
    exact blkAt_new_bb_old s j (by omega)
  · intro j hj
    rw [blkAt_new_bb_old s j (by omega)]
  · intro j hj
    rw [blkAt_new_bb_old s j (by omega)]
    exact ⟨[], by simp⟩
  · intro P hP _ _
    intro j hj ins hins t ht
    rw [new_bb_len] at hj
    by_cases hl : j < s.bbs.length
    · rw [blkAt_new_bb_old s j hl] at hins
      exact hP j hl ins hins t ht
    · have : j = s.bbs.length := by omega
      subst this
      rw [blkAt_new_bb_new s] at hins
      simp at hins

theorem jmpok_new_bb (s : GenSt) (pend : List Nat) (hjk : JmpOk s pend) :
    JmpOk (new_bb s).2 pend := by
  intro j hj ins hins hop
  rw [new_bb_len] at hj
  by_cases hl : j < s.bbs.length
  · rw [blkAt_new_bb_old s j hl] at hins
    obtain ⟨t, h1, h2, h3⟩ := hjk j hl ins hins hop
    refine ⟨t, h1, by rw [new_bb_len]; omega, ?_⟩
    rw [blkAt_new_bb_old s t h2]
    exact h3
  · have : j = s.bbs.length := by omega
    subst this
    rw [blkAt_new_bb_new s] at hins
    simp at hins

theorem post_set_out (lo : Nat) (c : Ctx) (s : GenSt) (x : Nat)
    (hx : x < s.bbs.length) : Post lo c s (set_out x s) :=
  ⟨le_refl _, hx, fun j _ _ _ => rfl, fun j _ => rfl,
   fun j _ => ⟨[], (List.append_nil _).symm⟩, fun P hP _ _ => hP⟩

theorem jmpok_set_out (s : GenSt) (pend : List Nat) (x : Nat) (hjk : JmpOk s pend) :
    JmpOk (set_out x s) pend := hjk

theorem post_new_reg (lo : Nat) (c : Ctx) (s : GenSt) (hout : s.out < s.bbs.length) :
    Post lo c s (new_reg s).2 :=
  ⟨le_refl _, hout, fun j _ _ _ => rfl, fun j _ => rfl,
   fun j _ => ⟨[], (List.append_nil _).symm⟩, fun P hP _ _ => hP⟩

theorem jmpok_new_reg (s : GenSt) (pend : List Nat) (hjk : JmpOk s pend) :
    JmpOk (new_reg s).2 pend := hjk

/-- out_param_set on a fresh join block: discharges the block from the
pending set. -/
theorem blkAt_out_param_set_ir (r : Nat) (s : GenSt) (j : Nat) :
    (blkAt (out_param_set r s) j).ir = (blkAt s j).ir := by
  by_cases h : j = s.out
  · subst h
    by_cases hl : s.out < s.bbs.length
    · rw [blkAt_out_param_set_self r s hl]
    · show (blkAt (setBlk s s.out _) s.out).ir = _
      unfold setBlk
      rw [List.set_eq_of_length_le (by omega)]
  · rw [blkAt_out_param_set_ne r s j h]

theorem out_param_set_len_eq (r : Nat) (s : GenSt) :
    (out_param_set r s).bbs.length = s.bbs.length := out_param_set_len r s

theorem post_param_set (lo : Nat) (c : Ctx) (s : GenSt) (r : Nat)
    (hout : s.out < s.bbs.length) (hlo : lo ≤ s.out) :
    Post lo c s (out_param_set r s) := by
  refine ⟨le_of_eq (out_param_set_len r s).symm, ?_, ?_, ?_, ?_, ?_⟩
  · rw [out_param_set_len, out_param_set_out]; exact hout
  · intro j hj _ _
    exact blkAt_out_param_set_ne r s j (by omega)
  · intro j hj
    rw [blkAt_out_param_set_ne r s j (by omega)]
  · intro j hj
    rw [blkAt_out_param_set_ne r s j (by omega)]
    exact ⟨[], by simp⟩
  · intro P hP _ _
    intro j hj ins hins t ht
    rw [out_param_set_len] at hj
    rw [blkAt_out_param_set_ir r s j] at hins
    exact hP j hj ins hins t ht

theorem jmpok_param_set (s : GenSt) (pend : List Nat) (r : Nat)
    (hjk : JmpOk s (s.out :: pend)) : JmpOk (out_param_set r s) pend := by
  intro j hj ins hins hop
  rw [out_param_set_len] at hj
  rw [blkAt_out_param_set_ir r s j] at hins
  obtain ⟨t, h1, h2, h3⟩ := hjk j hj ins hins hop
  refine ⟨t, h1, by rw [out_param_set_len]; exact h2, ?_⟩
  rcases h3 with ⟨hb, hd⟩ | ⟨hb, hp, hnp⟩
  · refine Or.inl ⟨hb, ?_⟩
    by_cases he : t = s.out
    · subst he
      by_cases hl : s.out < s.bbs.length
      · left; rw [blkAt_out_param_set_self r s hl]; simp
      · omega
    · rw [blkAt_out_param_set_ne r s t he]
      rcases hd with hd | hd
      · exact Or.inl hd
      · simp only [List.mem_cons] at hd
        rcases hd with hd | hd
        · exact absurd hd he
        · exact Or.inr hd
  · have he : t ≠ s.out := by
      intro he; rw [he] at hnp; exact hnp (List.mem_cons_self _ _)
    refine Or.inr ⟨hb, ?_, ?_⟩
    · rw [blkAt_out_param_set_ne r s t he]; exact hp
    · intro hmem; exact hnp (List.mem_cons_of_mem _ hmem)

/-- A pending block at or above the current block count can be added to the
pending set: no jump can target it yet. -/
theorem jmpok_extend (s : GenSt) (pend : List Nat) (x : Nat)
    (hx : s.bbs.length ≤ x) (hjk : JmpOk s pend) : JmpOk s (x :: pend) := by
  intro j hj ins hins hop
  obtain ⟨t, h1, h2, h3⟩ := hjk j hj ins hins hop
  refine ⟨t, h1, h2, ?_⟩
  rcases h3 with ⟨hb, hd⟩ | ⟨hb, hp, hnp⟩
  · exact Or.inl ⟨hb, hd.imp id (List.mem_cons_of_mem _)⟩
  · refine Or.inr ⟨hb, hp, ?_⟩
    simp only [List.mem_cons]
    rintro (he | hmem)
    · omega
    · exact hnp hmem

end Rcc

namespace Rcc

/-- Where a generation call can leave the output block: unchanged, in the
fresh region, or on a context block (a case block). -/
def OutOk (s : GenSt) (c : Ctx) (s' : GenSt) : Prop :=
  s'.out = s.out ∨ s.bbs.length ≤ s'.out ∨ s'.out ∈ ctxSet c

def LvalMeta (fuel : Nat) : Prop :=
  ∀ n c pend s r s', Inv c pend s → gen_lval fuel n c s = some (r, s') →
    Post s.bbs.length c s s' ∧ JmpOk s' pend ∧ OutOk s c s'

def BinopMeta (fuel : Nat) : Prop :=
  ∀ op lhs rhs c pend s r s', op ≠ IRType.JMP → Inv c pend s →
    gen_binop fuel op lhs rhs c s = some (r, s') →
    Post s.bbs.length c s s' ∧ JmpOk s' pend ∧ OutOk s c s'

def ExprMeta (fuel : Nat) : Prop :=
  ∀ n c pend s r s', Inv c pend s → gen_expr fuel n c s = some (r, s') →
    Post s.bbs.length c s s' ∧ JmpOk s' pend ∧ OutOk s c s'

def ExprListMeta (fuel : Nat) : Prop :=
  ∀ ns c pend s rs s', Inv c pend s → gen_expr_list fuel ns c s = some (rs, s') →
    Post s.bbs.length c s s' ∧ JmpOk s' pend ∧ OutOk s c s'

def StmtMeta (fuel : Nat) : Prop :=
  ∀ n c pend s s', Inv c pend s → gen_stmt fuel n c s = some s' →
    Post s.bbs.length c s s' ∧ JmpOk s' pend ∧ OutOk s c s'

def StmtListMeta (fuel : Nat) : Prop :=
  ∀ ns c pend s s', Inv c pend s → gen_stmt_list fuel ns c s = some s' →
    Post s.bbs.length c s s' ∧ JmpOk s' pend ∧ OutOk s c s'

def AllMeta (fuel : Nat) : Prop :=
  LvalMeta fuel ∧ BinopMeta fuel ∧ ExprMeta fuel ∧ ExprListMeta fuel ∧
    StmtMeta fuel ∧ StmtListMeta fuel

/-- Re-establish the invariant after a frame-respecting step. -/
theorem inv_of_post (c : Ctx) (pend : List Nat) (s s1 : GenSt)
    (hi : Inv c pend s) (hp : Post s.bbs.length c s s1) (hjk : JmpOk s1 pend) :
    Inv c pend s1 := by
  refine ⟨hp.out_lt, ?_, ?_, ?_, hi.pend_ctx, ?_, hjk⟩
  · intro j hm
    exact lt_of_lt_of_le (hi.ctx_lt j hm) hp.len_le
  · intro j hm
    rw [hp.param_eq j (hi.ctx_lt j hm)]
    exact hi.ctx_param j hm
  · intro j hm
    exact lt_of_lt_of_le (hi.pend_lt j hm) hp.len_le
  · exact hp.targ (fun t => t < s1.bbs.length)
      (fun j hj ins hins t ht =>
        lt_of_lt_of_le (hi.targ_lt j hj ins hins t ht) hp.len_le)
      (fun j hm => lt_of_lt_of_le (hi.ctx_lt j hm) hp.len_le)
      (fun t _ hlt => hlt)

/-- The invariant is insensitive to the register counter. -/
theorem inv_new_reg (c : Ctx) (pend : List Nat) (s : GenSt) (hi : Inv c pend s) :
    Inv c pend (new_reg s).2 :=
  ⟨hi.out_lt, hi.ctx_lt, hi.ctx_param, hi.pend_lt, hi.pend_ctx, hi.targ_lt, hi.jmp_ok⟩

theorem post_trans_same (lo : Nat) (c : Ctx) {s s1 s2 : GenSt}
    (h1 : Post lo c s s1) (h2 : Post lo c s1 s2)
    (hctx_lt : ∀ j ∈ ctxSet c, j < s1.bbs.length)
    (hout : s1.out = s.out ∨ lo ≤ s1.out ∨ s1.out ∈ ctxSet c) :
    Post lo c s s2 :=
  post_trans lo c c s s1 s2 h1 h2 (fun j hj => Or.inl hj) hctx_lt hout

/-- An instruction with no block targets. -/
theorem targs_nil (lo : Nat) (c : Ctx) (s : GenSt) (i : IRIns)
    (h : i.bb1 = none) (h2 : i.bb2 = none) :
    ∀ t ∈ insTargs i, t ∈ ctxSet c ∨ (lo ≤ t ∧ t < s.bbs.length) := by
  intro t ht
  simp [insTargs, h, h2] at ht

theorem outok_refl (s : GenSt) (c : Ctx) : OutOk s c s := Or.inl rfl

/-- Composing OutOk across a junction whose context extends the outer one
only with fresh blocks. -/
theorem outok_comp (s s1 s2 : GenSt) (c c' : Ctx)
    (h1 : OutOk s c s1) (h2 : OutOk s1 c' s2)
    (hlen : s.bbs.length ≤ s1.bbs.length)
    (hctx : ∀ j ∈ ctxSet c', j ∈ ctxSet c ∨ s.bbs.length ≤ j) :
    OutOk s c s2 := by
  rcases h2 with h2 | h2 | h2
  · rcases h1 with h1 | h1 | h1
    · exact Or.inl (by rw [h2, h1])
    · exact Or.inr (Or.inl (by rw [h2]; exact h1))
    · exact Or.inr (Or.inr (by rw [h2]; exact h1))
  · exact Or.inr (Or.inl (le_trans hlen h2))
  · rcases hctx s2.out h2 with h | h
    · exact Or.inr (Or.inr h)
    · exact Or.inr (Or.inl h)

theorem outok_comp_same (s s1 s2 : GenSt) (c : Ctx)
    (h1 : OutOk s c s1) (h2 : OutOk s1 c s2)
    (hlen : s.bbs.length ≤ s1.bbs.length) : OutOk s c s2 :=
  outok_comp s s1 s2 c c h1 h2 hlen (fun j hj => Or.inl hj)

/-- gen_lval at fuel+1 preserves the frame and jump invariants. -/
theorem step_lval (fuel : Nat) (IH : AllMeta fuel) : LvalMeta (fuel + 1) := by
  obtain ⟨ihL, ihB, ihE, ihEL, ihS, ihSL⟩ := IH
  intro n c pend s r s' hi hgen
  match n with
  | .deref e sz =>
    exact ihE e c pend s r s' hi hgen
  | .dot e off sz =>
    rw [show gen_lval (fuel + 1) (.dot e off sz) c s =
      (match gen_lval fuel e c (new_reg s).2 with
       | none => none
       | some (r2, s2) =>
         let p3 := immIns off s2
         some ((new_reg s).1,
           emitIns .ADD (some (new_reg s).1) (some r2) (some p3.1) p3.2)) from rfl] at hgen
    cases hrec : gen_lval fuel e c (new_reg s).2 with
    | none => rw [hrec] at hgen; cases hgen
    | some p =>
      rw [hrec] at hgen
      obtain ⟨r2, s2⟩ := p
      simp only [Option.some.injEq, Prod.mk.injEq] at hgen
      obtain ⟨hr, hs'⟩ := hgen
      obtain ⟨hp1, hj1, ho1⟩ := ihL e c pend (new_reg s).2 r2 s2 (inv_new_reg c pend s hi) hrec
      have hp0 : Post s.bbs.length c s (new_reg s).2 := post_new_reg _ c s hi.out_lt
      have hpA : Post s.bbs.length c s s2 :=
        post_trans_same _ c hp0 hp1 (fun j hj => hi.ctx_lt j hj) (Or.inl rfl)
      have hout2 : s2.out < s2.bbs.length := hp1.out_lt
      have hpB : Post s.bbs.length c s2 ((immIns off s2).2) := by
        refine post_trans_same _ c (post_new_reg _ c s2 hout2) (post_push _ c _ _ hout2 ?_)
          (fun j hj => lt_of_lt_of_le (hi.ctx_lt j hj) hpA.len_le) (Or.inl rfl)
        exact targs_nil _ c _ _ rfl rfl
      have hpB' : Post s.bbs.length c s ((immIns off s2).2) :=
        post_trans_same _ c hpA hpB
          (fun j hj => lt_of_lt_of_le (hi.ctx_lt j hj) hpA.len_le) ho1
      have houtB : ((immIns off s2).2).out < ((immIns off s2).2).bbs.length := by
        rw [show ((immIns off s2).2).out = s2.out from rfl]
        rw [show ((immIns off s2).2).bbs.length = s2.bbs.length from push_ir_len _ _]
        exact hout2
      have hpC : Post s.bbs.length c ((immIns off s2).2)
          (emitIns .ADD (some (new_reg s).1) (some r2) (some (immIns off s2).1)
            ((immIns off s2).2)) := by
        refine post_push _ c _ _ houtB ?_
        exact targs_nil _ c _ _ rfl rfl
      have hpD : Post s.bbs.length c s s' := by
        rw [← hs']
        refine post_trans_same _ c hpB' hpC
          (fun j hj => lt_of_lt_of_le (hi.ctx_lt j hj) hpB'.len_le) ?_
        rcases ho1 with h | h | h
        · exact Or.inl (by rw [show ((immIns off s2).2).out = s2.out from rfl, h]; exact rfl)
        · exact Or.inr (Or.inl h)
        · exact Or.inr (Or.inr h)
      refine ⟨hpD, ?_, ?_⟩
      · rw [← hs']
        refine jmpok_push_nonjmp _ pend _ (jmpok_push_nonjmp _ pend _ ?_ (by intro hx; cases hx)) (by intro hx; cases hx)
        exact hj1
      · rw [← hs']
        rcases ho1 with h | h | h
        · exact Or.inl h
        · exact Or.inr (Or.inl h)
        · exact Or.inr (Or.inr h)
  | .varref v sz =>
    by_cases hl : v.is_local
    · rw [show gen_lval (fuel + 1) (.varref v sz) c s =
        some ((new_reg s).1,
          push_ir { op := .BPREL, r0 := some (new_reg s).1, var := some v }
            (new_reg s).2) from by simp [gen_lval, hl]] at hgen
      simp only [Option.some.injEq, Prod.mk.injEq] at hgen
      obtain ⟨hr, hs'⟩ := hgen
      refine ⟨?_, ?_, ?_⟩
      · rw [← hs']
        exact post_trans_same _ c (post_new_reg _ c s hi.out_lt)
          (post_push _ c _ _ hi.out_lt (targs_nil _ c _ _ rfl rfl))
          (fun j hj => hi.ctx_lt j hj) (Or.inl rfl)
      · rw [← hs']
        exact jmpok_push_nonjmp _ pend _ hi.jmp_ok (by intro hx; cases hx)
      · rw [← hs']
        exact Or.inl rfl
    · rw [show gen_lval (fuel + 1) (.varref v sz) c s =
        some ((new_reg s).1,
          push_ir { op := .LABEL_ADDR, r0 := some (new_reg s).1, name := v.name }
            (new_reg s).2) from by simp [gen_lval, hl]] at hgen
      simp only [Option.some.injEq, Prod.mk.injEq] at hgen
      obtain ⟨hr, hs'⟩ := hgen
      refine ⟨?_, ?_, ?_⟩
      · rw [← hs']
        exact post_trans_same _ c (post_new_reg _ c s hi.out_lt)
          (post_push _ c _ _ hi.out_lt (targs_nil _ c _ _ rfl rfl))
          (fun j hj => hi.ctx_lt j hj) (Or.inl rfl)
      · rw [← hs']
        exact jmpok_push_nonjmp _ pend _ hi.jmp_ok (by intro hx; cases hx)
      · rw [← hs']
        exact Or.inl rfl
  | .num v => cases hgen
  | .addr e => cases hgen
  | .cast e b => cases hgen
  | .call nm args => cases hgen
  | .stmtExpr stmts e => cases hgen
  | .bin k l rr => cases hgen
  | .eql l rr sz => cases hgen
  | .logand l rr => cases hgen
  | .logor l rr => cases hgen
  | .bnot e => cases hgen
  | .exclam e => cases hgen
  | .comma l rr => cases hgen
  | .quest a b d => cases hgen
  | .nullStmt => cases hgen
  | .ifs a b d => cases hgen
  | .fors a b d e => cases hgen
  | .doWhile a b => cases hgen
  | .switch a b d => cases hgen
  | .cas a b => cases hgen
  | .brkStmt => cases hgen
  | .contStmt => cases hgen
  | .ret e => cases hgen
  | .exprStmt e => cases hgen
  | .compStmt l => cases hgen

end Rcc

namespace Rcc

/-- The accumulated frame facts from an arm's entry state s0 to the current
state s: the frame relation, jump coherence, and the location of the output
block. -/
def Acc (c : Ctx) (pend : List Nat) (s0 s : GenSt) : Prop :=
  Post s0.bbs.length c s0 s ∧ JmpOk s pend ∧ OutOk s0 c s

theorem Acc.post {c pend s0 s} (h : Acc c pend s0 s) : Post s0.bbs.length c s0 s := h.1

theorem Acc.jmp {c pend s0 s} (h : Acc c pend s0 s) : JmpOk s pend := h.2.1

theorem Acc.outok {c pend s0 s} (h : Acc c pend s0 s) : OutOk s0 c s := h.2.2

theorem acc_start (c : Ctx) (pend : List Nat) (s0 : GenSt)
    (hout : s0.out < s0.bbs.length) (hjk : JmpOk s0 pend) : Acc c pend s0 s0 :=
  ⟨post_refl _ c s0 hout, hjk, Or.inl rfl⟩

/-- The output-location fact rearranged into the junction form of
post_trans. -/
theorem outok_junction {c : Ctx} {s0 s : GenSt} (h : OutOk s0 c s) :
    s.out = s0.out ∨ s0.bbs.length ≤ s.out ∨ s.out ∈ ctxSet c := h

theorem acc_step (c : Ctx) (pend : List Nat) (s0 s s' : GenSt)
    (hctx0 : ∀ j ∈ ctxSet c, j < s0.bbs.length)
    (ha : Acc c pend s0 s) (hp : Post s0.bbs.length c s s')
    (hjk : JmpOk s' pend) (ho : OutOk s c s') : Acc c pend s0 s' := by
  refine ⟨?_, hjk, ?_⟩
  · exact post_trans_same _ c ha.post hp
      (fun j hj => lt_of_lt_of_le (hctx0 j hj) ha.post.len_le)
      (outok_junction ha.outok)
  · exact outok_comp_same s0 s s' c ha.outok ho ha.post.len_le

/-- Push of an instruction with no block targets and a non-JMP opcode. -/
theorem acc_push_nt (c : Ctx) (pend : List Nat) (s0 s : GenSt) (i : IRIns)
    (hctx0 : ∀ j ∈ ctxSet c, j < s0.bbs.length)
    (ha : Acc c pend s0 s)
    (hb1 : i.bb1 = none) (hb2 : i.bb2 = none) (hnj : i.op ≠ .JMP) :
    Acc c pend s0 (push_ir i s) := by
  refine acc_step c pend s0 s _ hctx0 ha
    (post_push _ c s i ha.post.out_lt (targs_nil _ c s i hb1 hb2))
    (jmpok_push_nonjmp s pend i ha.jmp hnj) (Or.inl rfl)

/-- Push of a BR whose two targets are fresh relative to the arm entry. -/
theorem acc_push_br (c : Ctx) (pend : List Nat) (s0 s : GenSt) (r t e : Nat)
    (hctx0 : ∀ j ∈ ctxSet c, j < s0.bbs.length)
    (ha : Acc c pend s0 s)
    (ht : s0.bbs.length ≤ t ∧ t < s.bbs.length ∨ t ∈ ctxSet c)
    (he : s0.bbs.length ≤ e ∧ e < s.bbs.length ∨ e ∈ ctxSet c) :
    Acc c pend s0 (brIns r t e s) := by
  refine acc_step c pend s0 s _ hctx0 ha
    (post_push _ c s _ ha.post.out_lt ?_)
    (jmpok_push_nonjmp s pend _ ha.jmp (by intro hx; cases hx)) (Or.inl rfl)
  intro x hx
  simp only [insTargs, Option.toList_some, List.mem_append, List.mem_singleton] at hx
  rcases hx with hx | hx
  · subst hx
    exact ht.symm.imp id id
  · subst hx
    exact he.symm.imp id id

/-- Push of a plain JMP: the target carries no parameter and is not
pending. -/
theorem acc_push_jmp (c : Ctx) (pend : List Nat) (s0 s : GenSt) (t : Nat)
    (hctx0 : ∀ j ∈ ctxSet c, j < s0.bbs.length)
    (ha : Acc c pend s0 s)
    (ht : s0.bbs.length ≤ t ∧ t < s.bbs.length ∨ t ∈ ctxSet c)
    (htl : t < s.bbs.length)
    (hp : (blkAt s t).param = none) (hnp : t ∉ pend) :
    Acc c pend s0 (jmpIns t s) := by
  refine acc_step c pend s0 s _ hctx0 ha
    (post_push _ c s _ ha.post.out_lt ?_)
    (jmpok_push_jmp s pend _ ha.jmp ⟨t, rfl, htl, Or.inr ⟨rfl, hp, hnp⟩⟩) (Or.inl rfl)
  intro x hx
  simp only [insTargs, Option.toList_some, Option.toList_none, List.mem_append,
    List.mem_singleton, List.not_mem_nil, or_false] at hx
  subst hx
  exact ht.symm.imp id id

/-- Push of a JMP with a block argument: the target's parameter is set or
the target is pending. -/
theorem acc_push_jmp_arg (c : Ctx) (pend : List Nat) (s0 s : GenSt) (t r : Nat)
    (hctx0 : ∀ j ∈ ctxSet c, j < s0.bbs.length)
    (ha : Acc c pend s0 s)
    (ht : s0.bbs.length ≤ t ∧ t < s.bbs.length ∨ t ∈ ctxSet c)
    (htl : t < s.bbs.length)
    (hd : (blkAt s t).param ≠ none ∨ t ∈ pend) :
    Acc c pend s0 (jmpArgIns t r s) := by
  refine acc_step c pend s0 s _ hctx0 ha
    (post_push _ c s _ ha.post.out_lt ?_)
    (jmpok_push_jmp s pend _ ha.jmp ⟨t, rfl, htl, Or.inl ⟨by simp, hd⟩⟩) (Or.inl rfl)
  intro x hx
  simp only [insTargs, Option.toList_some, Option.toList_none, List.mem_append,
    List.mem_singleton, List.not_mem_nil, or_false] at hx
  subst hx
  exact ht.symm.imp id id

theorem acc_new_bb (c : Ctx) (pend : List Nat) (s0 s : GenSt)
    (hctx0 : ∀ j ∈ ctxSet c, j < s0.bbs.length)
    (hlo : s0.bbs.length ≤ s.bbs.length)
    (ha : Acc c pend s0 s) : Acc c pend s0 (new_bb s).2 :=
  acc_step c pend s0 s _ hctx0 ha
    (post_new_bb _ c s ha.post.out_lt hlo)
    (jmpok_new_bb s pend ha.jmp) (Or.inl rfl)

theorem acc_set_out (c : Ctx) (pend : List Nat) (s0 s : GenSt) (x : Nat)
    (hctx0 : ∀ j ∈ ctxSet c, j < s0.bbs.length)
    (ha : Acc c pend s0 s) (hx : x < s.bbs.length)
    (hox : x = s0.out ∨ s0.bbs.length ≤ x ∨ x ∈ ctxSet c) :
    Acc c pend s0 (set_out x s) := by
  refine ⟨?_, jmpok_set_out s pend x ha.jmp, ?_⟩
  · exact post_trans_same _ c ha.post (post_set_out _ c s x hx)
      (fun j hj => lt_of_lt_of_le (hctx0 j hj) ha.post.len_le)
      (outok_junction ha.outok)
  · rcases hox with h | h | h
    · exact Or.inl h
    · exact Or.inr (Or.inl h)
    · exact Or.inr (Or.inr h)

theorem acc_new_reg (c : Ctx) (pend : List Nat) (s0 s : GenSt)
    (hctx0 : ∀ j ∈ ctxSet c, j < s0.bbs.length)
    (ha : Acc c pend s0 s) : Acc c pend s0 (new_reg s).2 :=
  acc_step c pend s0 s _ hctx0 ha (post_new_reg _ c s ha.post.out_lt)
    (jmpok_new_reg s pend ha.jmp) (Or.inl rfl)

theorem acc_param_set (c : Ctx) (pend : List Nat) (s0 s : GenSt) (r : Nat)
    (hctx0 : ∀ j ∈ ctxSet c, j < s0.bbs.length)
    (ha : Acc c (s.out :: pend) s0 s)
    (hlo : s0.bbs.length ≤ s.out) :
    Acc c pend s0 (out_param_set r s) := by
  refine ⟨?_, jmpok_param_set s pend r ha.jmp, ?_⟩
  · exact post_trans_same _ c ha.post
      (post_param_set _ c s r ha.post.out_lt hlo)
      (fun j hj => lt_of_lt_of_le (hctx0 j hj) ha.post.len_le)
      (outok_junction ha.outok)
  · exact Or.inr (Or.inl (by rw [show (out_param_set r s).out = s.out from rfl]; exact hlo))

theorem acc_extend_pend (c : Ctx) (pend : List Nat) (s0 s : GenSt) (x : Nat)
    (hx : s.bbs.length ≤ x) (ha : Acc c pend s0 s) : Acc c (x :: pend) s0 s :=
  ⟨ha.post, jmpok_extend s pend x hx ha.jmp, ha.outok⟩

/-- Rebuild the invariant at an intermediate state (possibly with a
different pending set than the entry one). -/
theorem inv_mid (c : Ctx) (pend0 pend : List Nat) (s0 s : GenSt)
    (hinv : Inv c pend0 s0) (ha : Acc c pend s0 s)
    (hpl : ∀ j ∈ pend, j < s.bbs.length)
    (hpc : ∀ j ∈ pend, j ∉ ctxSet c) : Inv c pend s := by
  refine ⟨ha.post.out_lt, ?_, ?_, hpl, hpc, ?_, ha.jmp⟩
  · intro j hm
    exact lt_of_lt_of_le (hinv.ctx_lt j hm) ha.post.len_le
  · intro j hm
    rw [ha.post.param_eq j (hinv.ctx_lt j hm)]
    exact hinv.ctx_param j hm
  · exact ha.post.targ (fun t => t < s.bbs.length)
      (fun j hj ins hins t ht =>
        lt_of_lt_of_le (hinv.targ_lt j hj ins hins t ht) ha.post.len_le)
      (fun j hm => lt_of_lt_of_le (hinv.ctx_lt j hm) ha.post.len_le)
      (fun t _ hlt => hlt)

/-- Chain a recursive generation call (same context) onto the accumulated
frame; also returns the call's own frame for fine-grained tracking. -/
theorem acc_sub (c : Ctx) (pend : List Nat) (s0 s s' : GenSt)
    (hctx0 : ∀ j ∈ ctxSet c, j < s0.bbs.length)
    (ha : Acc c pend s0 s)
    (hsub : Post s.bbs.length c s s' ∧ JmpOk s' pend ∧ OutOk s c s') :
    Acc c pend s0 s' := by
  refine acc_step c pend s0 s s' hctx0 ha
    (post_mono _ _ c s s' ha.post.len_le hsub.1) hsub.2.1 hsub.2.2

/-- Chain a recursive statement call under an extended context (break,
continue and case-block annotations pointing at arm-fresh blocks). -/
theorem acc_sub_ctx (c c1 : Ctx) (pend : List Nat) (s0 s s' : GenSt)
    (hctx0 : ∀ j ∈ ctxSet c, j < s0.bbs.length)
    (hc1 : ∀ j ∈ ctxSet c1, j ∈ ctxSet c ∨ s0.bbs.length ≤ j)
    (hc1_lt : ∀ j ∈ ctxSet c1, j < s.bbs.length)
    (ha : Acc c pend s0 s)
    (hsub : Post s.bbs.length c1 s s' ∧ JmpOk s' pend ∧ OutOk s c1 s') :
    Acc c pend s0 s' := by
  refine ⟨?_, hsub.2.1, ?_⟩
  · exact post_trans _ c c1 s0 s s' ha.post
      (post_mono _ _ c1 s s' ha.post.len_le hsub.1) hc1 hc1_lt
      (outok_junction ha.outok)
  · exact outok_comp s0 s s' c c1 ha.outok hsub.2.2 ha.post.len_le hc1

/-- A block parameter below the arm entry count never changes. -/
theorem param_track (c : Ctx) (pend : List Nat) (s0 s : GenSt) (t : Nat)
    (ha : Acc c pend s0 s) (ht : t < s0.bbs.length) :
    (blkAt s t).param = (blkAt s0 t).param := ha.post.param_eq t ht

end Rcc

namespace Rcc

theorem binK_toIR_ne_jmp (k : BinK) : k.toIR ≠ IRType.JMP := by
  cases k <;> simp [BinK.toIR]

/-- Rebuild the invariant at an intermediate state with the entry pending
set. -/
theorem inv_mid_same (c : Ctx) (pend : List Nat) (s0 s : GenSt)
    (hinv : Inv c pend s0) (ha : Acc c pend s0 s) : Inv c pend s :=
  inv_mid c pend pend s0 s hinv ha
    (fun j hj => lt_of_lt_of_le (hinv.pend_lt j hj) ha.post.len_le)
    hinv.pend_ctx

theorem step_binop (fuel : Nat) (IH : AllMeta fuel) : BinopMeta (fuel + 1) := by
  obtain ⟨ihL, ihB, ihE, ihEL, ihS, ihSL⟩ := IH
  intro op lhs rhs c pend s r s' hop hi hgen
  simp only [gen_binop] at hgen
  cases h1 : gen_expr fuel lhs c (new_reg s).2 with
  | none => rw [h1] at hgen; cases hgen
  | some p1 =>
    obtain ⟨r2, s2⟩ := p1
    simp only [h1] at hgen
    cases h2 : gen_expr fuel rhs c s2 with
    | none => rw [h2] at hgen; cases hgen
    | some p2 =>
      obtain ⟨r3, s3⟩ := p2
      simp only [h2] at hgen
      simp only [Option.some.injEq, Prod.mk.injEq] at hgen
      obtain ⟨hr, hs'⟩ := hgen
      have hctx0 : ∀ j ∈ ctxSet c, j < s.bbs.length := hi.ctx_lt
      have a0 : Acc c pend s s := acc_start c pend s hi.out_lt hi.jmp_ok
      have a1 : Acc c pend s (new_reg s).2 := acc_new_reg c pend s s hctx0 a0
      have a2 : Acc c pend s s2 :=
        acc_sub c pend s _ s2 hctx0 a1 (ihE lhs c pend _ r2 s2 (inv_new_reg c pend s hi) h1)
      have a3 : Acc c pend s s3 :=
        acc_sub c pend s s2 s3 hctx0 a2 (ihE rhs c pend s2 r3 s3 (inv_mid_same c pend s s2 hi a2) h2)
      have a4 : Acc c pend s (emitIns op (some (new_reg s).1) (some r2) (some r3) s3) :=
        acc_push_nt c pend s s3 _ hctx0 a3 rfl rfl hop
      rw [← hs']
      exact a4


theorem immIns_len (v : Int) (s : GenSt) :
    ((immIns v s).2).bbs.length = s.bbs.length := push_ir_len _ _

theorem brIns_len (r t e : Nat) (s : GenSt) :
    (brIns r t e s).bbs.length = s.bbs.length := push_ir_len _ _

theorem jmpIns_len (b : Nat) (s : GenSt) :
    (jmpIns b s).bbs.length = s.bbs.length := push_ir_len _ _

theorem jmpArgIns_len (b r : Nat) (s : GenSt) :
    (jmpArgIns b r s).bbs.length = s.bbs.length := push_ir_len _ _

theorem set_out_len (i : Nat) (s : GenSt) :
    (set_out i s).bbs.length = s.bbs.length := rfl

theorem logand_case (fuel : Nat) (ihE : ExprMeta fuel) (lhs rhs : Node) (c : Ctx)
    (pend : List Nat) (s : GenSt) (r : Nat) (s' : GenSt) (hi : Inv c pend s)
    (hgen : gen_expr (fuel + 1) (.logand lhs rhs) c s = some (r, s')) :
    Post s.bbs.length c s s' ∧ JmpOk s' pend ∧ OutOk s c s' := by
  have hctx0 : ∀ j ∈ ctxSet c, j < s.bbs.length := hi.ctx_lt
  simp only [gen_expr] at hgen
  rw [new_bb_fst s] at hgen
  set sA : GenSt := (new_bb s).2 with hsA
  rw [new_bb_fst sA] at hgen
  set sB : GenSt := (new_bb sA).2 with hsB
  rw [new_bb_fst sB] at hgen
  set sC : GenSt := (new_bb sB).2 with hsC
  rw [new_bb_fst sC] at hgen
  set sD : GenSt := (new_bb sC).2 with hsD
  have hlA : sA.bbs.length = s.bbs.length + 1 := by rw [hsA]; exact new_bb_len s
  have hlB : sB.bbs.length = s.bbs.length + 2 := by rw [hsB, new_bb_len, hlA]
  have hlC : sC.bbs.length = s.bbs.length + 3 := by rw [hsC, new_bb_len, hlB]
  have hlD : sD.bbs.length = s.bbs.length + 4 := by rw [hsD, new_bb_len, hlC]
  cases h1 : gen_expr fuel lhs c sD with
  | none => rw [h1] at hgen; cases hgen
  | some p1 =>
  obtain ⟨rl, t1⟩ := p1
  simp only [h1] at hgen
  set w1 : GenSt := set_out s.bbs.length (brIns rl s.bbs.length sA.bbs.length t1) with hw1
  cases h2 : gen_expr fuel rhs c w1 with
  | none => rw [h2] at hgen; cases hgen
  | some p2 =>
  obtain ⟨rr, t2⟩ := p2
  simp only [h2, Option.some.injEq, Prod.mk.injEq] at hgen
  obtain ⟨hr, hs'⟩ := hgen
  have aP : Acc c (sC.bbs.length :: pend) s s :=
    acc_extend_pend c pend s s (sC.bbs.length) (by omega)
      (acc_start c pend s hi.out_lt hi.jmp_ok)
  have a1 : Acc c (sC.bbs.length :: pend) s sA := by
    rw [hsA]
    exact acc_new_bb c _ s s hctx0 (le_refl _) aP
  have a2 : Acc c (sC.bbs.length :: pend) s sB := by
    rw [hsB]
    exact acc_new_bb c _ s sA hctx0 (by omega) a1
  have a3 : Acc c (sC.bbs.length :: pend) s sC := by
    rw [hsC]
    exact acc_new_bb c _ s sB hctx0 (by omega) a2
  have a4 : Acc c (sC.bbs.length :: pend) s sD := by
    rw [hsD]
    exact acc_new_bb c _ s sC hctx0 (by omega) a3
  have hpl' : ∀ j ∈ sC.bbs.length :: pend, j < sD.bbs.length := by
    intro j hj
    rcases List.mem_cons.mp hj with h | h
    · omega
    · have := hi.pend_lt j h; omega
  have hpc' : ∀ j ∈ sC.bbs.length :: pend, j ∉ ctxSet c := by
    intro j hj
    rcases List.mem_cons.mp hj with h | h
    · subst h; intro hm; have := hctx0 _ hm; omega
    · exact hi.pend_ctx j h
  have i4 : Inv c (sC.bbs.length :: pend) sD := inv_mid c pend _ s sD hi a4 hpl' hpc'
  have hsub1 := ihE lhs c _ sD rl t1 i4 h1
  have a5 : Acc c (sC.bbs.length :: pend) s t1 := acc_sub c _ s sD t1 hctx0 a4 hsub1
  have hlt1 : s.bbs.length + 4 ≤ t1.bbs.length := by
    have := hsub1.1.len_le; omega
  have a6 : Acc c (sC.bbs.length :: pend) s (brIns rl s.bbs.length sA.bbs.length t1) :=
    acc_push_br c _ s t1 rl _ _ hctx0 a5 (Or.inl ⟨le_refl _, by omega⟩)
      (Or.inl ⟨by omega, by omega⟩)
  have a7 : Acc c (sC.bbs.length :: pend) s w1 := by
    rw [hw1]
    exact acc_set_out c _ s _ (s.bbs.length) hctx0 a6
      (by rw [brIns_len]; omega) (Or.inr (Or.inl (le_refl _)))
  have hw1len : w1.bbs.length = t1.bbs.length := by rw [hw1, set_out_len, brIns_len]
  have i7 : Inv c (sC.bbs.length :: pend) w1 :=
    inv_mid c pend _ s w1 hi a7
      (fun j hj => by have := hpl' j hj; omega)
      hpc'
  have hsub2 := ihE rhs c _ w1 rr t2 i7 h2
  have a8 : Acc c (sC.bbs.length :: pend) s t2 := acc_sub c _ s w1 t2 hctx0 a7 hsub2
  have hlt2 : s.bbs.length + 4 ≤ t2.bbs.length := by
    have := hsub2.1.len_le; omega
  have a9 : Acc c (sC.bbs.length :: pend) s (brIns rr sB.bbs.length sA.bbs.length t2) :=
    acc_push_br c _ s t2 rr _ _ hctx0 a8 (Or.inl ⟨by omega, by omega⟩)
      (Or.inl ⟨by omega, by omega⟩)
  set u1 : GenSt := set_out sA.bbs.length (brIns rr sB.bbs.length sA.bbs.length t2) with hu1
  have a10 : Acc c (sC.bbs.length :: pend) s u1 := by
    rw [hu1]
    exact acc_set_out c _ s _ (sA.bbs.length) hctx0 a9
      (by rw [brIns_len]; omega) (Or.inr (Or.inl (by omega)))
  have hu1len : u1.bbs.length = t2.bbs.length := by rw [hu1, set_out_len, brIns_len]
  have a11 : Acc c (sC.bbs.length :: pend) s ((immIns 0 u1).2) :=
    acc_push_nt c _ s _ _ hctx0 (acc_new_reg c _ s u1 hctx0 a10) rfl rfl
      (by intro hx; cases hx)
  have a12 : Acc c (sC.bbs.length :: pend) s
      (jmpArgIns sC.bbs.length (immIns 0 u1).1 ((immIns 0 u1).2)) := by
    refine acc_push_jmp_arg c _ s _ (sC.bbs.length) _ hctx0 a11 (Or.inl ⟨by omega, ?_⟩) ?_
      (Or.inr (List.mem_cons_self _ _))
    · rw [immIns_len]; omega
    · rw [immIns_len]; omega
  set u2 : GenSt := set_out sB.bbs.length
    (jmpArgIns sC.bbs.length (immIns 0 u1).1 ((immIns 0 u1).2)) with hu2
  have a13 : Acc c (sC.bbs.length :: pend) s u2 := by
    rw [hu2]
    exact acc_set_out c _ s _ (sB.bbs.length) hctx0 a12
      (by rw [jmpArgIns_len, immIns_len]; omega) (Or.inr (Or.inl (by omega)))
  have hu2len : u2.bbs.length = t2.bbs.length := by
    rw [hu2, set_out_len, jmpArgIns_len, immIns_len, hu1len]
  have a14 : Acc c (sC.bbs.length :: pend) s ((immIns 1 u2).2) :=
    acc_push_nt c _ s _ _ hctx0 (acc_new_reg c _ s u2 hctx0 a13) rfl rfl
      (by intro hx; cases hx)
  have a15 : Acc c (sC.bbs.length :: pend) s
      (jmpArgIns sC.bbs.length (immIns 1 u2).1 ((immIns 1 u2).2)) := by
    refine acc_push_jmp_arg c _ s _ (sC.bbs.length) _ hctx0 a14 (Or.inl ⟨by omega, ?_⟩) ?_
      (Or.inr (List.mem_cons_self _ _))
    · rw [immIns_len]; omega
    · rw [immIns_len]; omega
  set u3 : GenSt := set_out sC.bbs.length
    (jmpArgIns sC.bbs.length (immIns 1 u2).1 ((immIns 1 u2).2)) with hu3
  have a16 : Acc c (sC.bbs.length :: pend) s u3 := by
    rw [hu3]
    exact acc_set_out c _ s _ (sC.bbs.length) hctx0 a15
      (by rw [jmpArgIns_len, immIns_len]; omega) (Or.inr (Or.inl (by omega)))
  have a17 : Acc c (sC.bbs.length :: pend) s ((new_reg u3).2) :=
    acc_new_reg c _ s u3 hctx0 a16
  have a18 : Acc c pend s (out_param_set (new_reg u3).1 ((new_reg u3).2)) := by
    refine acc_param_set c pend s _ _ hctx0 ?_ ?_
    · exact a17
    · show s.bbs.length ≤ u3.out
      rw [hu3, set_out_out]
      omega
  rw [← hs']
  exact a18

theorem logor_case (fuel : Nat) (ihE : ExprMeta fuel) (lhs rhs : Node) (c : Ctx)
    (pend : List Nat) (s : GenSt) (r : Nat) (s' : GenSt) (hi : Inv c pend s)
    (hgen : gen_expr (fuel + 1) (.logor lhs rhs) c s = some (r, s')) :
    Post s.bbs.length c s s' ∧ JmpOk s' pend ∧ OutOk s c s' := by
  have hctx0 : ∀ j ∈ ctxSet c, j < s.bbs.length := hi.ctx_lt
  simp only [gen_expr] at hgen
  rw [new_bb_fst s] at hgen
  set sA : GenSt := (new_bb s).2 with hsA
  rw [new_bb_fst sA] at hgen
  set sB : GenSt := (new_bb sA).2 with hsB
  rw [new_bb_fst sB] at hgen
  set sC : GenSt := (new_bb sB).2 with hsC
  rw [new_bb_fst sC] at hgen
  set sD : GenSt := (new_bb sC).2 with hsD
  have hlA : sA.bbs.length = s.bbs.length + 1 := by rw [hsA]; exact new_bb_len s
  have hlB : sB.bbs.length = s.bbs.length + 2 := by rw [hsB, new_bb_len, hlA]
  have hlC : sC.bbs.length = s.bbs.length + 3 := by rw [hsC, new_bb_len, hlB]
  have hlD : sD.bbs.length = s.bbs.length + 4 := by rw [hsD, new_bb_len, hlC]
  cases h1 : gen_expr fuel lhs c sD with
  | none => rw [h1] at hgen; cases hgen
  | some p1 =>
  obtain ⟨rl, t1⟩ := p1
  simp only [h1] at hgen
  set w1 : GenSt := set_out s.bbs.length (brIns rl sB.bbs.length s.bbs.length t1) with hw1
  cases h2 : gen_expr fuel rhs c w1 with
  | none => rw [h2] at hgen; cases hgen
  | some p2 =>
  obtain ⟨rr, t2⟩ := p2
  simp only [h2, Option.some.injEq, Prod.mk.injEq] at hgen
  obtain ⟨hr, hs'⟩ := hgen
  have aP : Acc c (sC.bbs.length :: pend) s s :=
    acc_extend_pend c pend s s (sC.bbs.length) (by omega)
      (acc_start c pend s hi.out_lt hi.jmp_ok)
  have a1 : Acc c (sC.bbs.length :: pend) s sA := by
    rw [hsA]
    exact acc_new_bb c _ s s hctx0 (le_refl _) aP
  have a2 : Acc c (sC.bbs.length :: pend) s sB := by
    rw [hsB]
    exact acc_new_bb c _ s sA hctx0 (by omega) a1
  have a3 : Acc c (sC.bbs.length :: pend) s sC := by
    rw [hsC]
    exact acc_new_bb c _ s sB hctx0 (by omega) a2
  have a4 : Acc c (sC.bbs.length :: pend) s sD := by
    rw [hsD]
    exact acc_new_bb c _ s sC hctx0 (by omega) a3
  have hpl' : ∀ j ∈ sC.bbs.length :: pend, j < sD.bbs.length := by
    intro j hj
    rcases List.mem_cons.mp hj with h | h
    · omega
    · have := hi.pend_lt j h; omega
  have hpc' : ∀ j ∈ sC.bbs.length :: pend, j ∉ ctxSet c := by
    intro j hj
    rcases List.mem_cons.mp hj with h | h
    · subst h; intro hm; have := hctx0 _ hm; omega
    · exact hi.pend_ctx j h
  have i4 : Inv c (sC.bbs.length :: pend) sD := inv_mid c pend _ s sD hi a4 hpl' hpc'
  have hsub1 := ihE lhs c _ sD rl t1 i4 h1
  have a5 : Acc c (sC.bbs.length :: pend) s t1 := acc_sub c _ s sD t1 hctx0 a4 hsub1
  have hlt1 : s.bbs.length + 4 ≤ t1.bbs.length := by
    have := hsub1.1.len_le; omega
  have a6 : Acc c (sC.bbs.length :: pend) s (brIns rl sB.bbs.length s.bbs.length t1) :=
    acc_push_br c _ s t1 rl _ _ hctx0 a5 (Or.inl ⟨by omega, by omega⟩)
      (Or.inl ⟨le_refl _, by omega⟩)
  have a7 : Acc c (sC.bbs.length :: pend) s w1 := by
    rw [hw1]
    exact acc_set_out c _ s _ (s.bbs.length) hctx0 a6
      (by rw [brIns_len]; omega) (Or.inr (Or.inl (le_refl _)))
  have hw1len : w1.bbs.length = t1.bbs.length := by rw [hw1, set_out_len, brIns_len]
  have i7 : Inv c (sC.bbs.length :: pend) w1 :=
    inv_mid c pend _ s w1 hi a7
      (fun j hj => by have := hpl' j hj; omega)
      hpc'
  have hsub2 := ihE rhs c _ w1 rr t2 i7 h2
  have a8 : Acc c (sC.bbs.length :: pend) s t2 := acc_sub c _ s w1 t2 hctx0 a7 hsub2
  have hlt2 : s.bbs.length + 4 ≤ t2.bbs.length := by
    have := hsub2.1.len_le; omega
  have a9 : Acc c (sC.bbs.length :: pend) s (brIns rr sB.bbs.length sA.bbs.length t2) :=
    acc_push_br c _ s t2 rr _ _ hctx0 a8 (Or.inl ⟨by omega, by omega⟩)
      (Or.inl ⟨by omega, by omega⟩)
  set u1 : GenSt := set_out sA.bbs.length (brIns rr sB.bbs.length sA.bbs.length t2) with hu1
  have a10 : Acc c (sC.bbs.length :: pend) s u1 := by
    rw [hu1]
    exact acc_set_out c _ s _ (sA.bbs.length) hctx0 a9
      (by rw [brIns_len]; omega) (Or.inr (Or.inl (by omega)))
  have hu1len : u1.bbs.length = t2.bbs.length := by rw [hu1, set_out_len, brIns_len]
  have a11 : Acc c (sC.bbs.length :: pend) s ((immIns 0 u1).2) :=
    acc_push_nt c _ s _ _ hctx0 (acc_new_reg c _ s u1 hctx0 a10) rfl rfl
      (by intro hx; cases hx)
  have a12 : Acc c (sC.bbs.length :: pend) s
      (jmpArgIns sC.bbs.length (immIns 0 u1).1 ((immIns 0 u1).2)) := by
    refine acc_push_jmp_arg c _ s _ (sC.bbs.length) _ hctx0 a11 (Or.inl ⟨by omega, ?_⟩) ?_
      (Or.inr (List.mem_cons_self _ _))
    · rw [immIns_len]; omega
    · rw [immIns_len]; omega
  set u2 : GenSt := set_out sB.bbs.length
    (jmpArgIns sC.bbs.length (immIns 0 u1).1 ((immIns 0 u1).2)) with hu2
  have a13 : Acc c (sC.bbs.length :: pend) s u2 := by
    rw [hu2]
    exact acc_set_out c _ s _ (sB.bbs.length) hctx0 a12
      (by rw [jmpArgIns_len, immIns_len]; omega) (Or.inr (Or.inl (by omega)))
  have hu2len : u2.bbs.length = t2.bbs.length := by
    rw [hu2, set_out_len, jmpArgIns_len, immIns_len, hu1len]
  have a14 : Acc c (sC.bbs.length :: pend) s ((immIns 1 u2).2) :=
    acc_push_nt c _ s _ _ hctx0 (acc_new_reg c _ s u2 hctx0 a13) rfl rfl
      (by intro hx; cases hx)
  have a15 : Acc c (sC.bbs.length :: pend) s
      (jmpArgIns sC.bbs.length (immIns 1 u2).1 ((immIns 1 u2).2)) := by
    refine acc_push_jmp_arg c _ s _ (sC.bbs.length) _ hctx0 a14 (Or.inl ⟨by omega, ?_⟩) ?_
      (Or.inr (List.mem_cons_self _ _))
    · rw [immIns_len]; omega
    · rw [immIns_len]; omega
  set u3 : GenSt := set_out sC.bbs.length
    (jmpArgIns sC.bbs.length (immIns 1 u2).1 ((immIns 1 u2).2)) with hu3
  have a16 : Acc c (sC.bbs.length :: pend) s u3 := by
    rw [hu3]
    exact acc_set_out c _ s _ (sC.bbs.length) hctx0 a15
      (by rw [jmpArgIns_len, immIns_len]; omega) (Or.inr (Or.inl (by omega)))
  have a17 : Acc c (sC.bbs.length :: pend) s ((new_reg u3).2) :=
    acc_new_reg c _ s u3 hctx0 a16
  have a18 : Acc c pend s (out_param_set (new_reg u3).1 ((new_reg u3).2)) := by
    refine acc_param_set c pend s _ _ hctx0 ?_ ?_
    · exact a17
    · show s.bbs.length ≤ u3.out
      rw [hu3, set_out_out]
      omega
  rw [← hs']
  exact a18

theorem quest_case (fuel : Nat) (ihE : ExprMeta fuel) (cond thn els : Node) (c : Ctx)
    (pend : List Nat) (s : GenSt) (r : Nat) (s' : GenSt) (hi : Inv c pend s)
    (hgen : gen_expr (fuel + 1) (.quest cond thn els) c s = some (r, s')) :
    Post s.bbs.length c s s' ∧ JmpOk s' pend ∧ OutOk s c s' := by
  have hctx0 : ∀ j ∈ ctxSet c, j < s.bbs.length := hi.ctx_lt
  simp only [gen_expr] at hgen
  rw [new_bb_fst s] at hgen
  set sA : GenSt := (new_bb s).2 with hsA
  rw [new_bb_fst sA] at hgen
  set sB : GenSt := (new_bb sA).2 with hsB
  rw [new_bb_fst sB] at hgen
  set sC : GenSt := (new_bb sB).2 with hsC
  have hlA : sA.bbs.length = s.bbs.length + 1 := by rw [hsA]; exact new_bb_len s
  have hlB : sB.bbs.length = s.bbs.length + 2 := by rw [hsB, new_bb_len, hlA]
  have hlC : sC.bbs.length = s.bbs.length + 3 := by rw [hsC, new_bb_len, hlB]
  cases h1 : gen_expr fuel cond c sC with
  | none => rw [h1] at hgen; cases hgen
  | some p1 =>
  obtain ⟨rc, t1⟩ := p1
  simp only [h1] at hgen
  set w1 : GenSt := set_out s.bbs.length (brIns rc s.bbs.length sA.bbs.length t1) with hw1
  cases h2 : gen_expr fuel thn c w1 with
  | none => rw [h2] at hgen; cases hgen
  | some p2 =>
  obtain ⟨rt, t2⟩ := p2
  simp only [h2] at hgen
  set u1 : GenSt := set_out sA.bbs.length (jmpArgIns sB.bbs.length rt t2) with hu1
  cases h3 : gen_expr fuel els c u1 with
  | none => rw [h3] at hgen; cases hgen
  | some p3 =>
  obtain ⟨re, t3⟩ := p3
  simp only [h3, Option.some.injEq, Prod.mk.injEq] at hgen
  obtain ⟨hr, hs'⟩ := hgen
  have aP : Acc c (sB.bbs.length :: pend) s s :=
    acc_extend_pend c pend s s (sB.bbs.length) (by omega)
      (acc_start c pend s hi.out_lt hi.jmp_ok)
  have a1 : Acc c (sB.bbs.length :: pend) s sA := by
    rw [hsA]
    exact acc_new_bb c _ s s hctx0 (le_refl _) aP
  have a2 : Acc c (sB.bbs.length :: pend) s sB := by
    rw [hsB]
    exact acc_new_bb c _ s sA hctx0 (by omega) a1
  have a3 : Acc c (sB.bbs.length :: pend) s sC := by
    rw [hsC]
    exact acc_new_bb c _ s sB hctx0 (by omega) a2
  have hpl' : ∀ j ∈ sB.bbs.length :: pend, j < sC.bbs.length := by
    intro j hj
    rcases List.mem_cons.mp hj with h | h
    · omega
    · have := hi.pend_lt j h; omega
  have hpc' : ∀ j ∈ sB.bbs.length :: pend, j ∉ ctxSet c := by
    intro j hj
    rcases List.mem_cons.mp hj with h | h
    · subst h; intro hm; have := hctx0 _ hm; omega
    · exact hi.pend_ctx j h
  have i3 : Inv c (sB.bbs.length :: pend) sC := inv_mid c pend _ s sC hi a3 hpl' hpc'
  have hsub1 := ihE cond c _ sC rc t1 i3 h1
  have a4 : Acc c (sB.bbs.length :: pend) s t1 := acc_sub c _ s sC t1 hctx0 a3 hsub1
  have hlt1 : s.bbs.length + 3 ≤ t1.bbs.length := by
    have := hsub1.1.len_le; omega
  have a5 : Acc c (sB.bbs.length :: pend) s (brIns rc s.bbs.length sA.bbs.length t1) :=
    acc_push_br c _ s t1 rc _ _ hctx0 a4 (Or.inl ⟨le_refl _, by omega⟩)
      (Or.inl ⟨by omega, by omega⟩)
  have a6 : Acc c (sB.bbs.length :: pend) s w1 := by
    rw [hw1]
    exact acc_set_out c _ s _ (s.bbs.length) hctx0 a5
      (by rw [brIns_len]; omega) (Or.inr (Or.inl (le_refl _)))
  have hw1len : w1.bbs.length = t1.bbs.length := by rw [hw1, set_out_len, brIns_len]
  have i6 : Inv c (sB.bbs.length :: pend) w1 :=
    inv_mid c pend _ s w1 hi a6
      (fun j hj => by have := hpl' j hj; omega)
      hpc'
  have hsub2 := ihE thn c _ w1 rt t2 i6 h2
  have a7 : Acc c (sB.bbs.length :: pend) s t2 := acc_sub c _ s w1 t2 hctx0 a6 hsub2
  have hlt2 : s.bbs.length + 3 ≤ t2.bbs.length := by
    have := hsub2.1.len_le; omega
  have a8 : Acc c (sB.bbs.length :: pend) s (jmpArgIns sB.bbs.length rt t2) := by
    refine acc_push_jmp_arg c _ s t2 (sB.bbs.length) rt hctx0 a7
      (Or.inl ⟨by omega, by omega⟩) (by omega) (Or.inr (List.mem_cons_self _ _))
  have a9 : Acc c (sB.bbs.length :: pend) s u1 := by
    rw [hu1]
    exact acc_set_out c _ s _ (sA.bbs.length) hctx0 a8
      (by rw [jmpArgIns_len]; omega) (Or.inr (Or.inl (by omega)))
  have hu1len : u1.bbs.length = t2.bbs.length := by rw [hu1, set_out_len, jmpArgIns_len]
  have i9 : Inv c (sB.bbs.length :: pend) u1 :=
    inv_mid c pend _ s u1 hi a9
      (fun j hj => by have := hpl' j hj; omega)
      hpc'
  have hsub3 := ihE els c _ u1 re t3 i9 h3
  have a10 : Acc c (sB.bbs.length :: pend) s t3 := acc_sub c _ s u1 t3 hctx0 a9 hsub3
  have hlt3 : s.bbs.length + 3 ≤ t3.bbs.length := by
    have := hsub3.1.len_le; omega
  have a11 : Acc c (sB.bbs.length :: pend) s (jmpArgIns sB.bbs.length re t3) := by
    refine acc_push_jmp_arg c _ s t3 (sB.bbs.length) re hctx0 a10
      (Or.inl ⟨by omega, by omega⟩) (by omega) (Or.inr (List.mem_cons_self _ _))
  set u2 : GenSt := set_out sB.bbs.length (jmpArgIns sB.bbs.length re t3) with hu2
  have a12 : Acc c (sB.bbs.length :: pend) s u2 := by
    rw [hu2]
    exact acc_set_out c _ s _ (sB.bbs.length) hctx0 a11
      (by rw [jmpArgIns_len]; omega) (Or.inr (Or.inl (by omega)))
  have a13 : Acc c (sB.bbs.length :: pend) s ((new_reg u2).2) :=
    acc_new_reg c _ s u2 hctx0 a12
  have a14 : Acc c pend s (out_param_set (new_reg u2).1 ((new_reg u2).2)) := by
    refine acc_param_set c pend s _ _ hctx0 ?_ ?_
    · exact a13
    · show s.bbs.length ≤ u2.out
      rw [hu2, set_out_out]
      omega
  rw [← hs']
  exact a14

theorem step_expr (fuel : Nat) (IH : AllMeta fuel) : ExprMeta (fuel + 1) := by
  obtain ⟨ihL, ihB, ihE, ihEL, ihS, ihSL⟩ := IH
  intro n c pend s r s' hi hgen
  have hctx0 : ∀ j ∈ ctxSet c, j < s.bbs.length := hi.ctx_lt
  have a0 : Acc c pend s s := acc_start c pend s hi.out_lt hi.jmp_ok
  match n with
  | .num v =>
    simp only [gen_expr, Option.some.injEq] at hgen
    have hs' : (immIns v s).2 = s' := by rw [hgen]
    rw [← hs']
    exact acc_push_nt c pend s _ _ hctx0 (acc_new_reg c pend s s hctx0 a0) rfl rfl
      (by intro hx; cases hx)
  | .bin k lhs rhs =>
    simp only [gen_expr] at hgen
    exact ihB k.toIR lhs rhs c pend s r s' (binK_toIR_ne_jmp k) hi hgen
  | .varref v sz =>
    simp only [gen_expr] at hgen
    cases hrec : gen_lval fuel (.varref v sz) c (new_reg s).2 with
    | none => rw [hrec] at hgen; cases hgen
    | some p =>
      obtain ⟨a, s2⟩ := p
      simp only [hrec, Option.some.injEq, Prod.mk.injEq] at hgen
      obtain ⟨hr, hs'⟩ := hgen
      rw [← hs']
      refine acc_push_nt c pend s s2 _ hctx0 ?_ rfl rfl (by intro hx; cases hx)
      exact acc_sub c pend s _ s2 hctx0 (acc_new_reg c pend s s hctx0 a0)
        (ihL (.varref v sz) c pend _ a s2 (inv_new_reg c pend s hi) hrec)
  | .dot e off sz =>
    simp only [gen_expr] at hgen
    cases hrec : gen_lval fuel (.dot e off sz) c (new_reg s).2 with
    | none => rw [hrec] at hgen; cases hgen
    | some p =>
      obtain ⟨a, s2⟩ := p
      simp only [hrec, Option.some.injEq, Prod.mk.injEq] at hgen
      obtain ⟨hr, hs'⟩ := hgen
      rw [← hs']
      refine acc_push_nt c pend s s2 _ hctx0 ?_ rfl rfl (by intro hx; cases hx)
      exact acc_sub c pend s _ s2 hctx0 (acc_new_reg c pend s s hctx0 a0)
        (ihL (.dot e off sz) c pend _ a s2 (inv_new_reg c pend s hi) hrec)
  | .call nm args =>
    simp only [gen_expr] at hgen
    cases hrec : gen_expr_list fuel args c s with
    | none => rw [hrec] at hgen; cases hgen
    | some p =>
      obtain ⟨rs, s1⟩ := p
      simp only [hrec, Option.some.injEq, Prod.mk.injEq] at hgen
      obtain ⟨hr, hs'⟩ := hgen
      rw [← hs']
      refine acc_push_nt c pend s _ _ hctx0 ?_ rfl rfl (by intro hx; cases hx)
      exact acc_new_reg c pend s s1 hctx0
        (acc_sub c pend s s s1 hctx0 a0 (ihEL args c pend s rs s1 hi hrec))
  | .addr e =>
    simp only [gen_expr] at hgen
    exact ihL e c pend s r s' hi hgen
  | .deref e sz =>
    simp only [gen_expr] at hgen
    cases hrec : gen_expr fuel e c (new_reg s).2 with
    | none => rw [hrec] at hgen; cases hgen
    | some p =>
      obtain ⟨a, s2⟩ := p
      simp only [hrec, Option.some.injEq, Prod.mk.injEq] at hgen
      obtain ⟨hr, hs'⟩ := hgen
      rw [← hs']
      refine acc_push_nt c pend s s2 _ hctx0 ?_ rfl rfl (by intro hx; cases hx)
      exact acc_sub c pend s _ s2 hctx0 (acc_new_reg c pend s s hctx0 a0)
        (ihE e c pend _ a s2 (inv_new_reg c pend s hi) hrec)
  | .cast e tb =>
    simp only [gen_expr] at hgen
    cases hrec : gen_expr fuel e c s with
    | none => rw [hrec] at hgen; cases hgen
    | some p =>
      obtain ⟨r1, s1⟩ := p
      simp only [hrec] at hgen
      have a1 : Acc c pend s s1 :=
        acc_sub c pend s s s1 hctx0 a0 (ihE e c pend s r1 s1 hi hrec)
      cases tb with
      | false =>
        simp only [Bool.false_eq_true, if_false, Option.some.injEq, Prod.mk.injEq] at hgen
        obtain ⟨hr, hs'⟩ := hgen
        rw [← hs']
        exact a1
      | true =>
        simp only [if_true, Option.some.injEq, Prod.mk.injEq] at hgen
        obtain ⟨hr, hs'⟩ := hgen
        rw [← hs']
        refine acc_push_nt c pend s _ _ hctx0 ?_ rfl rfl (by intro hx; cases hx)
        refine acc_push_nt c pend s _ _ hctx0 ?_ rfl rfl (by intro hx; cases hx)
        exact acc_new_reg c pend s _ hctx0 (acc_new_reg c pend s s1 hctx0 a1)
  | .stmtExpr stmts e =>
    simp only [gen_expr] at hgen
    cases hrec : gen_stmt_list fuel stmts c s with
    | none => rw [hrec] at hgen; cases hgen
    | some s1 =>
      simp only [hrec] at hgen
      have a1 : Acc c pend s s1 :=
        acc_sub c pend s s s1 hctx0 a0 (ihSL stmts c pend s s1 hi hrec)
      exact acc_sub c pend s s1 s' hctx0 a1
        (ihE e c pend s1 r s' (inv_mid_same c pend s s1 hi a1) hgen)
  | .eql lhs rhs sz =>
    simp only [gen_expr] at hgen
    cases h1 : gen_expr fuel rhs c s with
    | none => rw [h1] at hgen; cases hgen
    | some p1 =>
      obtain ⟨r1, s1⟩ := p1
      simp only [h1] at hgen
      cases h2 : gen_lval fuel lhs c s1 with
      | none => rw [h2] at hgen; cases hgen
      | some p2 =>
        obtain ⟨r2, s2⟩ := p2
        simp only [h2, Option.some.injEq, Prod.mk.injEq] at hgen
        obtain ⟨hr, hs'⟩ := hgen
        have a1 : Acc c pend s s1 :=
          acc_sub c pend s s s1 hctx0 a0 (ihE rhs c pend s r1 s1 hi h1)
        have a2 : Acc c pend s s2 :=
          acc_sub c pend s s1 s2 hctx0 a1
            (ihL lhs c pend s1 r2 s2 (inv_mid_same c pend s s1 hi a1) h2)
        rw [← hs']
        exact acc_push_nt c pend s s2 _ hctx0 a2 rfl rfl (by intro hx; cases hx)
  | .bnot e =>
    simp only [gen_expr] at hgen
    cases hrec : gen_expr fuel e c (new_reg s).2 with
    | none => rw [hrec] at hgen; cases hgen
    | some p =>
      obtain ⟨r2, s2⟩ := p
      simp only [hrec, Option.some.injEq, Prod.mk.injEq] at hgen
      obtain ⟨hr, hs'⟩ := hgen
      have a2 : Acc c pend s s2 :=
        acc_sub c pend s _ s2 hctx0 (acc_new_reg c pend s s hctx0 a0)
          (ihE e c pend _ r2 s2 (inv_new_reg c pend s hi) hrec)
      rw [← hs']
      refine acc_push_nt c pend s _ _ hctx0 ?_ rfl rfl (by intro hx; cases hx)
      refine acc_push_nt c pend s _ _ hctx0 ?_ rfl rfl (by intro hx; cases hx)
      exact acc_new_reg c pend s s2 hctx0 a2
  | .exclam e =>
    simp only [gen_expr] at hgen
    cases hrec : gen_expr fuel e c (new_reg s).2 with
    | none => rw [hrec] at hgen; cases hgen
    | some p =>
      obtain ⟨r2, s2⟩ := p
      simp only [hrec, Option.some.injEq, Prod.mk.injEq] at hgen
      obtain ⟨hr, hs'⟩ := hgen
      have a2 : Acc c pend s s2 :=
        acc_sub c pend s _ s2 hctx0 (acc_new_reg c pend s s hctx0 a0)
          (ihE e c pend _ r2 s2 (inv_new_reg c pend s hi) hrec)
      rw [← hs']
      refine acc_push_nt c pend s _ _ hctx0 ?_ rfl rfl (by intro hx; cases hx)
      refine acc_push_nt c pend s _ _ hctx0 ?_ rfl rfl (by intro hx; cases hx)
      exact acc_new_reg c pend s s2 hctx0 a2
  | .comma lhs rhs =>
    simp only [gen_expr] at hgen
    cases h1 : gen_expr fuel lhs c s with
    | none => rw [h1] at hgen; cases hgen
    | some p1 =>
      obtain ⟨r1, s1⟩ := p1
      simp only [h1] at hgen
      have a1 : Acc c pend s s1 :=
        acc_sub c pend s s s1 hctx0 a0 (ihE lhs c pend s r1 s1 hi h1)
      exact acc_sub c pend s s1 s' hctx0 a1
        (ihE rhs c pend s1 r s' (inv_mid_same c pend s s1 hi a1) hgen)
  | .logand lhs rhs => exact logand_case fuel ihE lhs rhs c pend s r s' hi hgen
  | .logor lhs rhs => exact logor_case fuel ihE lhs rhs c pend s r s' hi hgen
  | .quest cond thn els => exact quest_case fuel ihE cond thn els c pend s r s' hi hgen
  | .nullStmt => cases hgen
  | .ifs a b d => cases hgen
  | .fors a b d e => cases hgen
  | .doWhile a b => cases hgen
  | .switch a b d => cases hgen
  | .cas a b => cases hgen
  | .brkStmt => cases hgen
  | .contStmt => cases hgen
  | .ret e => cases hgen
  | .exprStmt e => cases hgen
  | .compStmt l => cases hgen

theorem step_expr_list (fuel : Nat) (IH : AllMeta fuel) : ExprListMeta (fuel + 1) := by
  obtain ⟨ihL, ihB, ihE, ihEL, ihS, ihSL⟩ := IH
  intro ns c pend s rs s' hi hgen
  have hctx0 : ∀ j ∈ ctxSet c, j < s.bbs.length := hi.ctx_lt
  have a0 : Acc c pend s s := acc_start c pend s hi.out_lt hi.jmp_ok
  match ns with
  | [] =>
    simp only [gen_expr_list, Option.some.injEq, Prod.mk.injEq] at hgen
    rw [← hgen.2]
    exact a0
  | n :: rest =>
    simp only [gen_expr_list] at hgen
    cases h1 : gen_expr fuel n c s with
    | none => rw [h1] at hgen; cases hgen
    | some p1 =>
      obtain ⟨r1, s1⟩ := p1
      simp only [h1] at hgen
      cases h2 : gen_expr_list fuel rest c s1 with
      | none => rw [h2] at hgen; cases hgen
      | some p2 =>
        obtain ⟨rs2, s2⟩ := p2
        simp only [h2, Option.some.injEq, Prod.mk.injEq] at hgen
        obtain ⟨hr, hs'⟩ := hgen
        have a1 : Acc c pend s s1 :=
          acc_sub c pend s s s1 hctx0 a0 (ihE n c pend s r1 s1 hi h1)
        rw [← hs']
        exact acc_sub c pend s s1 s2 hctx0 a1
          (ihEL rest c pend s1 rs2 s2 (inv_mid_same c pend s s1 hi a1) h2)

theorem step_stmt_list (fuel : Nat) (IH : AllMeta fuel) : StmtListMeta (fuel + 1) := by
  obtain ⟨ihL, ihB, ihE, ihEL, ihS, ihSL⟩ := IH
  intro ns c pend s s' hi hgen
  have hctx0 : ∀ j ∈ ctxSet c, j < s.bbs.length := hi.ctx_lt
  have a0 : Acc c pend s s := acc_start c pend s hi.out_lt hi.jmp_ok
  match ns with
  | [] =>
    simp only [gen_stmt_list, Option.some.injEq] at hgen
    rw [← hgen]
    exact a0
  | n :: rest =>
    simp only [gen_stmt_list] at hgen
    cases h1 : gen_stmt fuel n c s with
    | none => rw [h1] at hgen; cases hgen
    | some s1 =>
      simp only [h1] at hgen
      have a1 : Acc c pend s s1 :=
        acc_sub c pend s s s1 hctx0 a0 (ihS n c pend s s1 hi h1)
      exact acc_sub c pend s s1 s' hctx0 a1
        (ihSL rest c pend s1 s' (inv_mid_same c pend s s1 hi a1) hgen)

theorem blkAt_brIns_param (r t e : Nat) (s : GenSt) (j : Nat) :
    (blkAt (brIns r t e s) j).param = (blkAt s j).param := blkAt_push_ir_param _ _ _

theorem blkAt_jmpIns_param (b : Nat) (s : GenSt) (j : Nat) :
    (blkAt (jmpIns b s) j).param = (blkAt s j).param := blkAt_push_ir_param _ _ _

theorem blkAt_jmpArgIns_param (b r : Nat) (s : GenSt) (j : Nat) :
    (blkAt (jmpArgIns b r s) j).param = (blkAt s j).param := blkAt_push_ir_param _ _ _

theorem blkAt_immIns_param (v : Int) (s : GenSt) (j : Nat) :
    (blkAt ((immIns v s).2) j).param = (blkAt s j).param := blkAt_push_ir_param _ _ _

theorem blkAt_emitIns_param (op : IRType) (r0 r1 r2 : Option Nat) (s : GenSt) (j : Nat) :
    (blkAt (emitIns op r0 r1 r2 s) j).param = (blkAt s j).param := blkAt_push_ir_param _ _ _

theorem mem_cases_ctxSet (c : Ctx) (j : Nat) (hj : j ∈ c.cases) : j ∈ ctxSet c := by
  simp only [ctxSet, List.mem_append]
  exact Or.inr hj

/-- Build the invariant for an extended statement context whose entries are
either outer-context blocks or arm-fresh parameterless blocks. -/
theorem inv_ctx1 (c c1 : Ctx) (pend : List Nat) (s0 st : GenSt)
    (hi : Inv c pend s0) (ha : Acc c pend s0 st)
    (hc1 : ∀ j ∈ ctxSet c1, (j ∈ ctxSet c ∧ j < s0.bbs.length) ∨
      (s0.bbs.length ≤ j ∧ j < st.bbs.length ∧ (blkAt st j).param = none)) :
    Inv c1 pend st := by
  refine ⟨ha.post.out_lt, ?_, ?_, ?_, ?_, ?_, ha.jmp⟩
  · intro j hm
    rcases hc1 j hm with ⟨_, h⟩ | ⟨_, h, _⟩
    · exact lt_of_lt_of_le h ha.post.len_le
    · exact h
  · intro j hm
    rcases hc1 j hm with ⟨hc, hlt⟩ | ⟨_, _, hp⟩
    · rw [ha.post.param_eq j hlt]
      exact hi.ctx_param j hc
    · exact hp
  · intro j hm
    exact lt_of_lt_of_le (hi.pend_lt j hm) ha.post.len_le
  · intro j hm hmem
    rcases hc1 j hmem with ⟨hc, _⟩ | ⟨hge, _, _⟩
    · exact hi.pend_ctx j hm hc
    · exact absurd (hi.pend_lt j hm) (by omega)
  · exact ha.post.targ (fun t => t < st.bbs.length)
      (fun j hj ins hins t ht =>
        lt_of_lt_of_le (hi.targ_lt j hj ins hins t ht) ha.post.len_le)
      (fun j hm => lt_of_lt_of_le (hi.ctx_lt j hm) ha.post.len_le)
      (fun t _ hlt => hlt)

/-- The case-dispatch loop: frame facts plus the returned case blocks are
fresh, in range and parameterless, and no pre-existing parameter changes. -/
theorem gen_cases_acc (c : Ctx) (pend : List Nat) (s0 : GenSt)
    (hctx0 : ∀ j ∈ ctxSet c, j < s0.bbs.length) :
    ∀ (vals : List Int) (rg : Nat) (sIn : GenSt), Acc c pend s0 sIn →
      Acc c pend s0 (gen_cases vals rg sIn).2 ∧
      sIn.bbs.length ≤ (gen_cases vals rg sIn).2.bbs.length ∧
      (∀ b ∈ (gen_cases vals rg sIn).1,
        sIn.bbs.length ≤ b ∧ b < (gen_cases vals rg sIn).2.bbs.length ∧
        (blkAt (gen_cases vals rg sIn).2 b).param = none) ∧
      (∀ t, t < sIn.bbs.length →
        (blkAt (gen_cases vals rg sIn).2 t).param = (blkAt sIn t).param) := by
  intro vals
  induction vals with
  | nil =>
    intro rg sIn ha
    refine ⟨ha, le_refl _, ?_, ?_⟩
    · intro b hb
      simp only [gen_cases] at hb
      cases hb
    · intro t _
      rfl
  | cons v vs ih =>
    intro rg sIn ha
    have hle0 : s0.bbs.length ≤ sIn.bbs.length := ha.post.len_le
    have a1 : Acc c pend s0 (new_bb sIn).2 :=
      acc_new_bb c pend s0 sIn hctx0 hle0 ha
    have a2 : Acc c pend s0 (new_bb (new_bb sIn).2).2 :=
      acc_new_bb c pend s0 _ hctx0 (by rw [new_bb_len]; omega) a1
    have a3 : Acc c pend s0 (new_reg (new_bb (new_bb sIn).2).2).2 :=
      acc_new_reg c pend s0 _ hctx0 a2
    have a4 : Acc c pend s0 ((immIns v (new_reg (new_bb (new_bb sIn).2).2).2).2) :=
      acc_push_nt c pend s0 _ _ hctx0 (acc_new_reg c pend s0 _ hctx0 a3) rfl rfl
        (by intro hx; cases hx)
    have a5 : Acc c pend s0 (emitIns .EQ (some (new_reg (new_bb (new_bb sIn).2).2).1)
        (some rg) (some ((immIns v (new_reg (new_bb (new_bb sIn).2).2).2)).1)
        ((immIns v (new_reg (new_bb (new_bb sIn).2).2).2).2)) :=
      acc_push_nt c pend s0 _ _ hctx0 a4 rfl rfl (by intro hx; cases hx)
    have hlen5 : (emitIns .EQ (some (new_reg (new_bb (new_bb sIn).2).2).1)
        (some rg) (some ((immIns v (new_reg (new_bb (new_bb sIn).2).2).2)).1)
        ((immIns v (new_reg (new_bb (new_bb sIn).2).2).2).2)).bbs.length
        = sIn.bbs.length + 2 := by
      rw [show (emitIns .EQ _ _ _ _).bbs.length = _ from push_ir_len _ _,
        immIns_len, show (new_reg (new_bb (new_bb sIn).2).2).2.bbs = (new_bb (new_bb sIn).2).2.bbs
          from rfl, new_bb_len, new_bb_len]
    have a6 : Acc c pend s0 (brIns (new_reg (new_bb (new_bb sIn).2).2).1
        (new_bb sIn).1 (new_bb (new_bb sIn).2).1 _) :=
      acc_push_br c pend s0 _ _ _ _ hctx0 a5
        (Or.inl ⟨by rw [new_bb_fst]; omega, by rw [new_bb_fst]; omega⟩)
        (Or.inl ⟨by rw [new_bb_fst, new_bb_len]; omega,
          by rw [new_bb_fst, new_bb_len]; omega⟩)
    set s7 : GenSt := set_out (new_bb (new_bb sIn).2).1
      (brIns (new_reg (new_bb (new_bb sIn).2).2).1 (new_bb sIn).1 (new_bb (new_bb sIn).2).1
        (emitIns .EQ (some (new_reg (new_bb (new_bb sIn).2).2).1) (some rg)
          (some (immIns v (new_reg (new_bb (new_bb sIn).2).2).2).1)
          (immIns v (new_reg (new_bb (new_bb sIn).2).2).2).2)) with hs7
    have hlen7 : s7.bbs.length = sIn.bbs.length + 2 := by
      rw [hs7, set_out_len, brIns_len, hlen5]
    have hparam7 : ∀ t, t < sIn.bbs.length + 1 →
        (blkAt s7 t).param = (blkAt (new_bb sIn).2 t).param := by
      intro t htl
      rw [hs7]
      rw [show (blkAt (set_out (new_bb (new_bb sIn).2).1
          (brIns (new_reg (new_bb (new_bb sIn).2).2).1 (new_bb sIn).1 (new_bb (new_bb sIn).2).1
            (emitIns .EQ (some (new_reg (new_bb (new_bb sIn).2).2).1) (some rg)
              (some (immIns v (new_reg (new_bb (new_bb sIn).2).2).2).1)
              (immIns v (new_reg (new_bb (new_bb sIn).2).2).2).2))) t)
        = blkAt (brIns (new_reg (new_bb (new_bb sIn).2).2).1 (new_bb sIn).1
            (new_bb (new_bb sIn).2).1
            (emitIns .EQ (some (new_reg (new_bb (new_bb sIn).2).2).1) (some rg)
              (some (immIns v (new_reg (new_bb (new_bb sIn).2).2).2).1)
              (immIns v (new_reg (new_bb (new_bb sIn).2).2).2).2)) t from rfl]
      rw [blkAt_brIns_param, blkAt_emitIns_param, blkAt_immIns_param]
      rw [show blkAt (new_reg (new_bb (new_bb sIn).2).2).2 t
        = blkAt (new_bb (new_bb sIn).2).2 t from rfl]
      rw [blkAt_new_bb_old _ _ (by rw [new_bb_len]; omega)]
    have a7 := acc_set_out c pend s0 _ (new_bb (new_bb sIn).2).1 hctx0 a6
      (by rw [brIns_len, hlen5, new_bb_fst, new_bb_len]; omega)
      (Or.inr (Or.inl (by rw [new_bb_fst, new_bb_len]; omega)))
    rw [← hs7] at a7
    obtain ⟨b1, b2, b3, b4⟩ := ih rg s7 a7
    refine ⟨b1, ?_, ?_, ?_⟩
    · simp only [gen_cases]
      rw [← hs7]
      omega
    · simp only [gen_cases]
      rw [← hs7]
      intro b hb
      rcases List.mem_cons.mp hb with hb | hb
      · subst hb
        have hlt : (new_bb sIn).1 < s7.bbs.length := by
          rw [hlen7, new_bb_fst]; omega
        refine ⟨by rw [new_bb_fst], lt_of_lt_of_le hlt b2, ?_⟩
        rw [b4 _ hlt]
        rw [hparam7 _ (by rw [new_bb_fst]; omega)]
        rw [show (new_bb sIn).1 = sIn.bbs.length from rfl]
        rw [blkAt_new_bb_new]
      · obtain ⟨hb1, hb2, hb3⟩ := b3 b hb
        rw [hlen7] at hb1
        exact ⟨by omega, hb2, hb3⟩
    · simp only [gen_cases]
      rw [← hs7]
      intro t htl
      have htl2 : t < s7.bbs.length := by rw [hlen7]; omega
      rw [b4 t htl2]
      rw [hparam7 t (by omega)]
      rw [blkAt_new_bb_old _ _ (by omega)]

theorem ifs_case (fuel : Nat) (ihE : ExprMeta fuel) (ihS : StmtMeta fuel)
    (cond thn : Node) (els : Option Node) (c : Ctx) (pend : List Nat)
    (s s' : GenSt) (hi : Inv c pend s)
    (hgen : gen_stmt (fuel + 1) (.ifs cond thn els) c s = some s') :
    Post s.bbs.length c s s' ∧ JmpOk s' pend ∧ OutOk s c s' := by
  have hctx0 : ∀ j ∈ ctxSet c, j < s.bbs.length := hi.ctx_lt
  simp only [gen_stmt] at hgen
  rw [new_bb_fst s] at hgen
  set sA : GenSt := (new_bb s).2 with hsA
  rw [new_bb_fst sA] at hgen
  set sB : GenSt := (new_bb sA).2 with hsB
  rw [new_bb_fst sB] at hgen
  set sC : GenSt := (new_bb sB).2 with hsC
  have hlA : sA.bbs.length = s.bbs.length + 1 := by rw [hsA]; exact new_bb_len s
  have hlB : sB.bbs.length = s.bbs.length + 2 := by rw [hsB, new_bb_len, hlA]
  have hlC : sC.bbs.length = s.bbs.length + 3 := by rw [hsC, new_bb_len, hlB]
  have hpjC : (blkAt sC sB.bbs.length).param = none := by rw [hsC, blkAt_new_bb_new]
  cases h1 : gen_expr fuel cond c sC with
  | none => rw [h1] at hgen; cases hgen
  | some p1 =>
  obtain ⟨rc, t1⟩ := p1
  simp only [h1] at hgen
  set w1 : GenSt := set_out s.bbs.length (brIns rc s.bbs.length sA.bbs.length t1) with hw1
  cases h2 : gen_stmt fuel thn c w1 with
  | none => rw [h2] at hgen; cases hgen
  | some t2 =>
  simp only [h2] at hgen
  set w2 : GenSt := set_out sA.bbs.length (jmpIns sB.bbs.length t2) with hw2
  have a0 : Acc c pend s s := acc_start c pend s hi.out_lt hi.jmp_ok
  have a1 : Acc c pend s sA := by
    rw [hsA]
    exact acc_new_bb c pend s s hctx0 (le_refl _) a0
  have a2 : Acc c pend s sB := by
    rw [hsB]
    exact acc_new_bb c pend s sA hctx0 (by omega) a1
  have a3 : Acc c pend s sC := by
    rw [hsC]
    exact acc_new_bb c pend s sB hctx0 (by omega) a2
  have i3 : Inv c pend sC := inv_mid_same c pend s sC hi a3
  have hsub1 := ihE cond c pend sC rc t1 i3 h1
  have a4 : Acc c pend s t1 := acc_sub c pend s sC t1 hctx0 a3 hsub1
  have hlt1 : s.bbs.length + 3 ≤ t1.bbs.length := by
    have := hsub1.1.len_le; omega
  have a5 : Acc c pend s (brIns rc s.bbs.length sA.bbs.length t1) :=
    acc_push_br c pend s t1 rc _ _ hctx0 a4 (Or.inl ⟨le_refl _, by omega⟩)
      (Or.inl ⟨by omega, by omega⟩)
  have a6 : Acc c pend s w1 := by
    rw [hw1]
    exact acc_set_out c pend s _ (s.bbs.length) hctx0 a5
      (by rw [brIns_len]; omega) (Or.inr (Or.inl (le_refl _)))
  have hw1len : w1.bbs.length = t1.bbs.length := by rw [hw1, set_out_len, brIns_len]
  have i6 : Inv c pend w1 := inv_mid_same c pend s w1 hi a6
  have hsub2 := ihS thn c pend w1 t2 i6 h2
  have a7 : Acc c pend s t2 := acc_sub c pend s w1 t2 hctx0 a6 hsub2
  have hlt2 : s.bbs.length + 3 ≤ t2.bbs.length := by
    have := hsub2.1.len_le; omega
  have hpj1 : (blkAt t1 sB.bbs.length).param = none := by
    rw [hsub1.1.param_eq _ (by omega)]; exact hpjC
  have hpjw1 : (blkAt w1 sB.bbs.length).param = none := by
    rw [hw1, blkAt_set_out, blkAt_brIns_param]; exact hpj1
  have hpj2 : (blkAt t2 sB.bbs.length).param = none := by
    rw [hsub2.1.param_eq _ (by rw [hw1len]; omega)]; exact hpjw1
  have a8 : Acc c pend s (jmpIns sB.bbs.length t2) :=
    acc_push_jmp c pend s t2 _ hctx0 a7 (Or.inl ⟨by omega, by omega⟩) (by omega) hpj2
      (fun hmem => absurd (hi.pend_lt _ hmem) (by omega))
  have a9 : Acc c pend s w2 := by
    rw [hw2]
    exact acc_set_out c pend s _ (sA.bbs.length) hctx0 a8
      (by rw [jmpIns_len]; omega) (Or.inr (Or.inl (by omega)))
  have hw2len : w2.bbs.length = t2.bbs.length := by rw [hw2, set_out_len, jmpIns_len]
  have hpjw2 : (blkAt w2 sB.bbs.length).param = none := by
    rw [hw2, blkAt_set_out, blkAt_jmpIns_param]; exact hpj2
  cases els with
  | none =>
    simp only [Option.some.injEq] at hgen
    have a10 : Acc c pend s (jmpIns sB.bbs.length w2) :=
      acc_push_jmp c pend s w2 _ hctx0 a9 (Or.inl ⟨by omega, by rw [hw2len]; omega⟩)
        (by rw [hw2len]; omega) hpjw2
        (fun hmem => absurd (hi.pend_lt _ hmem) (by omega))
    rw [← hgen]
    exact acc_set_out c pend s _ (sB.bbs.length) hctx0 a10
      (by rw [jmpIns_len, hw2len]; omega) (Or.inr (Or.inl (by omega)))
  | some e =>
    simp only [] at hgen
    cases h3 : gen_stmt fuel e c w2 with
    | none => rw [h3] at hgen; cases hgen
    | some t3 =>
    simp only [h3, Option.some.injEq] at hgen
    have i9 : Inv c pend w2 := inv_mid_same c pend s w2 hi a9
    have hsub3 := ihS e c pend w2 t3 i9 h3
    have a10 : Acc c pend s t3 := acc_sub c pend s w2 t3 hctx0 a9 hsub3
    have hlt3 : w2.bbs.length ≤ t3.bbs.length := hsub3.1.len_le
    have hpj3 : (blkAt t3 sB.bbs.length).param = none := by
      rw [hsub3.1.param_eq _ (by rw [hw2len]; omega)]; exact hpjw2
    have a11 : Acc c pend s (jmpIns sB.bbs.length t3) :=
      acc_push_jmp c pend s t3 _ hctx0 a10 (Or.inl ⟨by omega, by omega⟩) (by omega) hpj3
        (fun hmem => absurd (hi.pend_lt _ hmem) (by omega))
    rw [← hgen]
    exact acc_set_out c pend s _ (sB.bbs.length) hctx0 a11
      (by rw [jmpIns_len]; omega) (Or.inr (Or.inl (by omega)))

theorem doWhile_case (fuel : Nat) (ihE : ExprMeta fuel) (ihS : StmtMeta fuel)
    (body cond : Node) (c : Ctx) (pend : List Nat)
    (s s' : GenSt) (hi : Inv c pend s)
    (hgen : gen_stmt (fuel + 1) (.doWhile body cond) c s = some s') :
    Post s.bbs.length c s s' ∧ JmpOk s' pend ∧ OutOk s c s' := by
  have hctx0 : ∀ j ∈ ctxSet c, j < s.bbs.length := hi.ctx_lt
  simp only [gen_stmt] at hgen
  rw [new_bb_fst s] at hgen
  set sA : GenSt := (new_bb s).2 with hsA
  rw [new_bb_fst sA] at hgen
  set sB : GenSt := (new_bb sA).2 with hsB
  rw [new_bb_fst sB] at hgen
  set sC : GenSt := (new_bb sB).2 with hsC
  have hlA : sA.bbs.length = s.bbs.length + 1 := by rw [hsA]; exact new_bb_len s
  have hlB : sB.bbs.length = s.bbs.length + 2 := by rw [hsB, new_bb_len, hlA]
  have hlC : sC.bbs.length = s.bbs.length + 3 := by rw [hsC, new_bb_len, hlB]
  set c1 : Ctx := ⟨some sB.bbs.length, some s.bbs.length, c.cases⟩ with hc1d
  have hc1mem : ∀ j ∈ ctxSet c1,
      j = sB.bbs.length ∨ j = s.bbs.length ∨ j ∈ c.cases := by
    intro j hj
    rw [hc1d] at hj
    simp only [ctxSet, List.mem_append, Option.toList_some, List.mem_singleton] at hj
    tauto
  have hc1sub : ∀ j ∈ ctxSet c1, j ∈ ctxSet c ∨ s.bbs.length ≤ j := by
    intro j hj
    rcases hc1mem j hj with rfl | rfl | hj
    · exact Or.inr (by omega)
    · exact Or.inr (le_refl _)
    · exact Or.inl (mem_cases_ctxSet c j hj)
  have hppk : (blkAt sC s.bbs.length).param = none := by
    rw [hsC, blkAt_new_bb_old _ _ (by omega), hsB, blkAt_new_bb_old _ _ (by omega),
      hsA, blkAt_new_bb_new]
  have hppb : (blkAt sC sA.bbs.length).param = none := by
    rw [hsC, blkAt_new_bb_old _ _ (by omega), hsB, blkAt_new_bb_new]
  have hppz : (blkAt sC sB.bbs.length).param = none := by
    rw [hsC, blkAt_new_bb_new]
  cases hB : gen_stmt fuel body c1
      (set_out sA.bbs.length (jmpIns sA.bbs.length sC)) with
  | none => rw [hB] at hgen; cases hgen
  | some s2 =>
  simp only [hB] at hgen
  cases hE : gen_expr fuel cond c1
      (set_out s.bbs.length (jmpIns s.bbs.length s2)) with
  | none => rw [hE] at hgen; cases hgen
  | some p4 =>
  obtain ⟨rc, s4⟩ := p4
  simp only [hE, Option.some.injEq] at hgen
  have a0 : Acc c pend s s := acc_start c pend s hi.out_lt hi.jmp_ok
  have a1 : Acc c pend s sA := by
    rw [hsA]
    exact acc_new_bb c pend s s hctx0 (le_refl _) a0
  have a2 : Acc c pend s sB := by
    rw [hsB]
    exact acc_new_bb c pend s sA hctx0 (by omega) a1
  have a3 : Acc c pend s sC := by
    rw [hsC]
    exact acc_new_bb c pend s sB hctx0 (by omega) a2
  have a4 : Acc c pend s (jmpIns sA.bbs.length sC) :=
    acc_push_jmp c pend s sC _ hctx0 a3 (Or.inl ⟨by omega, by omega⟩) (by omega) hppb
      (fun hmem => absurd (hi.pend_lt _ hmem) (by omega))
  set w1 : GenSt := set_out sA.bbs.length (jmpIns sA.bbs.length sC) with hw1
  have a5 : Acc c pend s w1 := by
    rw [hw1]
    exact acc_set_out c pend s _ (sA.bbs.length) hctx0 a4
      (by rw [jmpIns_len]; omega) (Or.inr (Or.inl (by omega)))
  have hw1len : w1.bbs.length = sC.bbs.length := by rw [hw1, set_out_len, jmpIns_len]
  have hQw1 : ∀ t, t < sC.bbs.length → (blkAt w1 t).param = (blkAt sC t).param := by
    intro t _
    rw [hw1, blkAt_set_out, blkAt_jmpIns_param]
  have i5 : Inv c1 pend w1 := by
    refine inv_ctx1 c c1 pend s w1 hi a5 ?_
    intro j hj
    rcases hc1mem j hj with rfl | rfl | hj
    · exact Or.inr ⟨by omega, by omega, by rw [hQw1 _ (by omega)]; exact hppz⟩
    · exact Or.inr ⟨le_refl _, by omega, by rw [hQw1 _ (by omega)]; exact hppk⟩
    · exact Or.inl ⟨mem_cases_ctxSet c j hj, hctx0 j (mem_cases_ctxSet c j hj)⟩
  have hsub1 := ihS body c1 pend w1 s2 i5 hB
  have a6 : Acc c pend s s2 :=
    acc_sub_ctx c c1 pend s w1 s2 hctx0 hc1sub
      (by
        intro j hj
        rcases hc1mem j hj with rfl | rfl | hj
        · omega
        · omega
        · have := hctx0 j (mem_cases_ctxSet c j hj); omega)
      a5 hsub1
  have hlt2 : s.bbs.length + 3 ≤ s2.bbs.length := by
    have := hsub1.1.len_le; omega
  have hQ2 : ∀ t, t < sC.bbs.length → (blkAt s2 t).param = (blkAt sC t).param := by
    intro t ht
    rw [hsub1.1.param_eq t (by omega), hQw1 t ht]
  have a7 : Acc c pend s (jmpIns s.bbs.length s2) :=
    acc_push_jmp c pend s s2 _ hctx0 a6 (Or.inl ⟨le_refl _, by omega⟩) (by omega)
      (by rw [hQ2 _ (by omega)]; exact hppk)
      (fun hmem => absurd (hi.pend_lt _ hmem) (by omega))
  set w2 : GenSt := set_out s.bbs.length (jmpIns s.bbs.length s2) with hw2
  have a8 : Acc c pend s w2 := by
    rw [hw2]
    exact acc_set_out c pend s _ (s.bbs.length) hctx0 a7
      (by rw [jmpIns_len]; omega) (Or.inr (Or.inl (le_refl _)))
  have hw2len : w2.bbs.length = s2.bbs.length := by rw [hw2, set_out_len, jmpIns_len]
  have hQw2 : ∀ t, t < sC.bbs.length → (blkAt w2 t).param = (blkAt sC t).param := by
    intro t ht
    rw [hw2, blkAt_set_out, blkAt_jmpIns_param, hQ2 t ht]
  have i8 : Inv c1 pend w2 := by
    refine inv_ctx1 c c1 pend s w2 hi a8 ?_
    intro j hj
    rcases hc1mem j hj with rfl | rfl | hj
    · exact Or.inr ⟨by omega, by omega, by rw [hQw2 _ (by omega)]; exact hppz⟩
    · exact Or.inr ⟨le_refl _, by omega, by rw [hQw2 _ (by omega)]; exact hppk⟩
    · exact Or.inl ⟨mem_cases_ctxSet c j hj, hctx0 j (mem_cases_ctxSet c j hj)⟩
  have hsub2 := ihE cond c1 pend w2 rc s4 i8 hE
  have a9 : Acc c pend s s4 :=
    acc_sub_ctx c c1 pend s w2 s4 hctx0 hc1sub
      (by
        intro j hj
        rcases hc1mem j hj with rfl | rfl | hj
        · omega
        · omega
        · have := hctx0 j (mem_cases_ctxSet c j hj); omega)
      a8 hsub2
  have hlt4 : s.bbs.length + 3 ≤ s4.bbs.length := by
    have := hsub2.1.len_le; omega
  have a10 : Acc c pend s (brIns rc sA.bbs.length sB.bbs.length s4) :=
    acc_push_br c pend s s4 rc _ _ hctx0 a9 (Or.inl ⟨by omega, by omega⟩)
      (Or.inl ⟨by omega, by omega⟩)
  rw [← hgen]
  exact acc_set_out c pend s _ (sB.bbs.length) hctx0 a10
    (by rw [brIns_len]; omega) (Or.inr (Or.inl (by omega)))

theorem fors_case (fuel : Nat) (ihE : ExprMeta fuel) (ihS : StmtMeta fuel)
    (ini cond inc : Option Node) (body : Node) (c : Ctx) (pend : List Nat)
    (s s' : GenSt) (hi : Inv c pend s)
    (hgen : gen_stmt (fuel + 1) (.fors ini cond inc body) c s = some s') :
    Post s.bbs.length c s s' ∧ JmpOk s' pend ∧ OutOk s c s' := by
  have hctx0 : ∀ j ∈ ctxSet c, j < s.bbs.length := hi.ctx_lt
  simp only [gen_stmt] at hgen
  rw [new_bb_fst s] at hgen
  set sA : GenSt := (new_bb s).2 with hsA
  rw [new_bb_fst sA] at hgen
  set sB : GenSt := (new_bb sA).2 with hsB
  rw [new_bb_fst sB] at hgen
  set sC : GenSt := (new_bb sB).2 with hsC
  rw [new_bb_fst sC] at hgen
  set sD : GenSt := (new_bb sC).2 with hsD
  have hlA : sA.bbs.length = s.bbs.length + 1 := by rw [hsA]; exact new_bb_len s
  have hlB : sB.bbs.length = s.bbs.length + 2 := by rw [hsB, new_bb_len, hlA]
  have hlC : sC.bbs.length = s.bbs.length + 3 := by rw [hsC, new_bb_len, hlB]
  have hlD : sD.bbs.length = s.bbs.length + 4 := by rw [hsD, new_bb_len, hlC]
  set c1 : Ctx := ⟨some sC.bbs.length, some sA.bbs.length, c.cases⟩ with hc1d
  have hc1mem : ∀ j ∈ ctxSet c1,
      j = sC.bbs.length ∨ j = sA.bbs.length ∨ j ∈ c.cases := by
    intro j hj
    rw [hc1d] at hj
    simp only [ctxSet, List.mem_append, Option.toList_some, List.mem_singleton] at hj
    tauto
  have hc1sub : ∀ j ∈ ctxSet c1, j ∈ ctxSet c ∨ s.bbs.length ≤ j := by
    intro j hj
    rcases hc1mem j hj with rfl | rfl | hj
    · exact Or.inr (by omega)
    · exact Or.inr (by omega)
    · exact Or.inl (mem_cases_ctxSet c j hj)
  have hppc : (blkAt sD s.bbs.length).param = none := by
    rw [hsD, blkAt_new_bb_old _ _ (by omega), hsC, blkAt_new_bb_old _ _ (by omega),
      hsB, blkAt_new_bb_old _ _ (by omega), hsA, blkAt_new_bb_new]
  have hppk : (blkAt sD sA.bbs.length).param = none := by
    rw [hsD, blkAt_new_bb_old _ _ (by omega), hsC, blkAt_new_bb_old _ _ (by omega),
      hsB, blkAt_new_bb_new]
  have hppb : (blkAt sD sB.bbs.length).param = none := by
    rw [hsD, blkAt_new_bb_old _ _ (by omega), hsC, blkAt_new_bb_new]
  have hppz : (blkAt sD sC.bbs.length).param = none := by
    rw [hsD, blkAt_new_bb_new]
  have a0 : Acc c pend s s := acc_start c pend s hi.out_lt hi.jmp_ok
  have a1 : Acc c pend s sA := by
    rw [hsA]
    exact acc_new_bb c pend s s hctx0 (le_refl _) a0
  have a2 : Acc c pend s sB := by
    rw [hsB]
    exact acc_new_bb c pend s sA hctx0 (by omega) a1
  have a3 : Acc c pend s sC := by
    rw [hsC]
    exact acc_new_bb c pend s sB hctx0 (by omega) a2
  have a4 : Acc c pend s sD := by
    rw [hsD]
    exact acc_new_bb c pend s sC hctx0 (by omega) a3
  have mkI : ∀ u : GenSt, Acc c pend s u → sD.bbs.length ≤ u.bbs.length →
      (∀ t, t < sD.bbs.length → (blkAt u t).param = (blkAt sD t).param) →
      Inv c1 pend u := by
    intro u hau hul hq
    refine inv_ctx1 c c1 pend s u hi hau ?_
    intro j hj
    rcases hc1mem j hj with rfl | rfl | hj
    · exact Or.inr ⟨by omega, by omega, by rw [hq _ (by omega)]; exact hppz⟩
    · exact Or.inr ⟨by omega, by omega, by rw [hq _ (by omega)]; exact hppk⟩
    · exact Or.inl ⟨mem_cases_ctxSet c j hj, hctx0 j (mem_cases_ctxSet c j hj)⟩
  have mkLt : ∀ u : GenSt, sD.bbs.length ≤ u.bbs.length →
      ∀ j ∈ ctxSet c1, j < u.bbs.length := by
    intro u hul j hj
    rcases hc1mem j hj with rfl | rfl | hj
    · omega
    · omega
    · have := hctx0 j (mem_cases_ctxSet c j hj); omega
  cases hI : (match ini with | some i => gen_stmt fuel i c1 sD | none => some sD) with
  | none => rw [hI] at hgen; cases hgen
  | some s1 =>
  simp only [hI] at hgen
  have st1 : Acc c pend s s1 ∧ sD.bbs.length ≤ s1.bbs.length ∧
      (∀ t, t < sD.bbs.length → (blkAt s1 t).param = (blkAt sD t).param) := by
    cases ini with
    | none =>
      simp only [] at hI
      have h := Option.some.inj hI
      rw [← h]
      exact ⟨a4, le_refl _, fun t _ => rfl⟩
    | some i =>
      simp only [] at hI
      have i4 : Inv c1 pend sD := mkI sD a4 (le_refl _) (fun t _ => rfl)
      have hsub := ihS i c1 pend sD s1 i4 hI
      exact ⟨acc_sub_ctx c c1 pend s sD s1 hctx0 hc1sub (mkLt sD (le_refl _)) a4 hsub,
        hsub.1.len_le, fun t ht => hsub.1.param_eq t ht⟩
  obtain ⟨a5, hL1, hQ1⟩ := st1
  have a6 : Acc c pend s (jmpIns s.bbs.length s1) :=
    acc_push_jmp c pend s s1 _ hctx0 a5 (Or.inl ⟨le_refl _, by omega⟩) (by omega)
      (by rw [hQ1 _ (by omega)]; exact hppc)
      (fun hmem => absurd (hi.pend_lt _ hmem) (by omega))
  set w2 : GenSt := set_out s.bbs.length (jmpIns s.bbs.length s1) with hw2
  have a7 : Acc c pend s w2 := by
    rw [hw2]
    exact acc_set_out c pend s _ (s.bbs.length) hctx0 a6
      (by rw [jmpIns_len]; omega) (Or.inr (Or.inl (le_refl _)))
  have hw2len : w2.bbs.length = s1.bbs.length := by rw [hw2, set_out_len, jmpIns_len]
  have hQw2 : ∀ t, t < sD.bbs.length → (blkAt w2 t).param = (blkAt sD t).param := by
    intro t ht
    rw [hw2, blkAt_set_out, blkAt_jmpIns_param, hQ1 t ht]
  cases hC : (match cond with
      | some ce =>
        match gen_expr fuel ce c1 w2 with
        | none => none
        | some (rc, s3) => some (brIns rc sB.bbs.length sC.bbs.length s3)
      | none => some (jmpIns sB.bbs.length w2)) with
  | none => rw [hC] at hgen; cases hgen
  | some s4 =>
  simp only [hC] at hgen
  have st2 : Acc c pend s s4 ∧ sD.bbs.length ≤ s4.bbs.length ∧
      (∀ t, t < sD.bbs.length → (blkAt s4 t).param = (blkAt sD t).param) := by
    cases cond with
    | none =>
      simp only [] at hC
      have h := Option.some.inj hC
      rw [← h]
      refine ⟨acc_push_jmp c pend s w2 _ hctx0 a7 (Or.inl ⟨by omega, by omega⟩) (by omega)
        (by rw [hQw2 _ (by omega)]; exact hppb)
        (fun hmem => absurd (hi.pend_lt _ hmem) (by omega)), ?_, ?_⟩
      · rw [jmpIns_len]; omega
      · intro t ht
        rw [blkAt_jmpIns_param, hQw2 t ht]
    | some ce =>
      simp only [] at hC
      cases hE : gen_expr fuel ce c1 w2 with
      | none => rw [hE] at hC; cases hC
      | some p3 =>
      obtain ⟨rc, s3⟩ := p3
      rw [hE] at hC
      have h := Option.some.inj hC
      have i7 : Inv c1 pend w2 := mkI w2 a7 (by omega) hQw2
      have hsub := ihE ce c1 pend w2 rc s3 i7 hE
      have a8 : Acc c pend s s3 :=
        acc_sub_ctx c c1 pend s w2 s3 hctx0 hc1sub (mkLt w2 (by omega)) a7 hsub
      have hl3 : w2.bbs.length ≤ s3.bbs.length := hsub.1.len_le
      rw [← h]
      refine ⟨acc_push_br c pend s s3 rc _ _ hctx0 a8 (Or.inl ⟨by omega, by omega⟩)
        (Or.inl ⟨by omega, by omega⟩), ?_, ?_⟩
      · rw [brIns_len]; omega
      · intro t ht
        rw [blkAt_brIns_param, hsub.1.param_eq t (by omega), hQw2 t ht]
  obtain ⟨a9, hL4, hQ4⟩ := st2
  set w5 : GenSt := set_out sB.bbs.length s4 with hw5
  have a10 : Acc c pend s w5 := by
    rw [hw5]
    exact acc_set_out c pend s _ (sB.bbs.length) hctx0 a9 (by omega)
      (Or.inr (Or.inl (by omega)))
  have hw5len : w5.bbs.length = s4.bbs.length := by rw [hw5, set_out_len]
  have hQw5 : ∀ t, t < sD.bbs.length → (blkAt w5 t).param = (blkAt sD t).param := by
    intro t ht
    rw [hw5, blkAt_set_out, hQ4 t ht]
  cases hB : gen_stmt fuel body c1 w5 with
  | none => rw [hB] at hgen; cases hgen
  | some s6 =>
  simp only [hB] at hgen
  have i10 : Inv c1 pend w5 := mkI w5 a10 (by omega) hQw5
  have hsub3 := ihS body c1 pend w5 s6 i10 hB
  have a11 : Acc c pend s s6 :=
    acc_sub_ctx c c1 pend s w5 s6 hctx0 hc1sub (mkLt w5 (by omega)) a10 hsub3
  have hl6 : w5.bbs.length ≤ s6.bbs.length := hsub3.1.len_le
  have hQ6 : ∀ t, t < sD.bbs.length → (blkAt s6 t).param = (blkAt sD t).param := by
    intro t ht
    rw [hsub3.1.param_eq t (by omega), hQw5 t ht]
  have a12 : Acc c pend s (jmpIns sA.bbs.length s6) :=
    acc_push_jmp c pend s s6 _ hctx0 a11 (Or.inl ⟨by omega, by omega⟩) (by omega)
      (by rw [hQ6 _ (by omega)]; exact hppk)
      (fun hmem => absurd (hi.pend_lt _ hmem) (by omega))
  set w7 : GenSt := set_out sA.bbs.length (jmpIns sA.bbs.length s6) with hw7
  have a13 : Acc c pend s w7 := by
    rw [hw7]
    exact acc_set_out c pend s _ (sA.bbs.length) hctx0 a12
      (by rw [jmpIns_len]; omega) (Or.inr (Or.inl (by omega)))
  have hw7len : w7.bbs.length = s6.bbs.length := by rw [hw7, set_out_len, jmpIns_len]
  have hQw7 : ∀ t, t < sD.bbs.length → (blkAt w7 t).param = (blkAt sD t).param := by
    intro t ht
    rw [hw7, blkAt_set_out, blkAt_jmpIns_param, hQ6 t ht]
  cases hN : (match inc with
      | some i =>
        match gen_expr fuel i c1 w7 with
        | none => none
        | some (_, s8) => some s8
      | none => some w7) with
  | none => rw [hN] at hgen; cases hgen
  | some s9 =>
  simp only [hN, Option.some.injEq] at hgen
  have st3 : Acc c pend s s9 ∧ sD.bbs.length ≤ s9.bbs.length ∧
      (∀ t, t < sD.bbs.length → (blkAt s9 t).param = (blkAt sD t).param) := by
    cases inc with
    | none =>
      simp only [] at hN
      have h := Option.some.inj hN
      rw [← h]
      exact ⟨a13, by omega, hQw7⟩
    | some i =>
      simp only [] at hN
      cases hE2 : gen_expr fuel i c1 w7 with
      | none => rw [hE2] at hN; cases hN
      | some p8 =>
      obtain ⟨r8, s8⟩ := p8
      rw [hE2] at hN
      have h := Option.some.inj hN
      have i13 : Inv c1 pend w7 := mkI w7 a13 (by omega) hQw7
      have hsub4 := ihE i c1 pend w7 r8 s8 i13 hE2
      have a14 : Acc c pend s s8 :=
        acc_sub_ctx c c1 pend s w7 s8 hctx0 hc1sub (mkLt w7 (by omega)) a13 hsub4
      rw [← h]
      refine ⟨a14, by have := hsub4.1.len_le; omega, ?_⟩
      intro t ht
      rw [hsub4.1.param_eq t (by omega), hQw7 t ht]
  obtain ⟨a15, hL9, hQ9⟩ := st3
  have a16 : Acc c pend s (jmpIns s.bbs.length s9) :=
    acc_push_jmp c pend s s9 _ hctx0 a15 (Or.inl ⟨le_refl _, by omega⟩) (by omega)
      (by rw [hQ9 _ (by omega)]; exact hppc)
      (fun hmem => absurd (hi.pend_lt _ hmem) (by omega))
  rw [← hgen]
  exact acc_set_out c pend s _ (sC.bbs.length) hctx0 a16
    (by rw [jmpIns_len]; omega) (Or.inr (Or.inl (by omega)))

theorem switch_case (fuel : Nat) (ihE : ExprMeta fuel) (ihS : StmtMeta fuel)
    (cond : Node) (caseVals : List Int) (body : Node) (c : Ctx) (pend : List Nat)
    (s s' : GenSt) (hi : Inv c pend s)
    (hgen : gen_stmt (fuel + 1) (.switch cond caseVals body) c s = some s') :
    Post s.bbs.length c s s' ∧ JmpOk s' pend ∧ OutOk s c s' := by
  have hctx0 : ∀ j ∈ ctxSet c, j < s.bbs.length := hi.ctx_lt
  simp only [gen_stmt] at hgen
  rw [new_bb_fst s] at hgen
  set sA : GenSt := (new_bb s).2 with hsA
  rw [new_bb_fst sA] at hgen
  set sB : GenSt := (new_bb sA).2 with hsB
  have hlA : sA.bbs.length = s.bbs.length + 1 := by rw [hsA]; exact new_bb_len s
  have hlB : sB.bbs.length = s.bbs.length + 2 := by rw [hsB, new_bb_len, hlA]
  have hppz : (blkAt sB s.bbs.length).param = none := by
    rw [hsB, blkAt_new_bb_old _ _ (by omega), hsA, blkAt_new_bb_new]
  have hppk : (blkAt sB sA.bbs.length).param = none := by
    rw [hsB, blkAt_new_bb_new]
  have a0 : Acc c pend s s := acc_start c pend s hi.out_lt hi.jmp_ok
  have a1 : Acc c pend s sA := by
    rw [hsA]
    exact acc_new_bb c pend s s hctx0 (le_refl _) a0
  have a2 : Acc c pend s sB := by
    rw [hsB]
    exact acc_new_bb c pend s sA hctx0 (by omega) a1
  cases hE : gen_expr fuel cond c sB with
  | none => rw [hE] at hgen; cases hgen
  | some p1 =>
  obtain ⟨rc, s1⟩ := p1
  simp only [hE] at hgen
  have i2 : Inv c pend sB := inv_mid_same c pend s sB hi a2
  have hsub1 := ihE cond c pend sB rc s1 i2 hE
  have a3 : Acc c pend s s1 := acc_sub c pend s sB s1 hctx0 a2 hsub1
  have hL1 : sB.bbs.length ≤ s1.bbs.length := hsub1.1.len_le
  obtain ⟨b1, b2, b3, b4⟩ := gen_cases_acc c pend s hctx0 caseVals rc s1 a3
  set cb := gen_cases caseVals rc s1 with hcb
  have hpz1 : (blkAt cb.2 s.bbs.length).param = none := by
    rw [b4 _ (by omega), hsub1.1.param_eq _ (by omega)]
    exact hppz
  have hpk1 : (blkAt cb.2 sA.bbs.length).param = none := by
    rw [b4 _ (by omega), hsub1.1.param_eq _ (by omega)]
    exact hppk
  have a4 : Acc c pend s (jmpIns s.bbs.length cb.2) :=
    acc_push_jmp c pend s cb.2 _ hctx0 b1 (Or.inl ⟨le_refl _, by omega⟩) (by omega) hpz1
      (fun hmem => absurd (hi.pend_lt _ hmem) (by omega))
  set w2 : GenSt := jmpIns s.bbs.length cb.2 with hw2
  have hw2len : w2.bbs.length = cb.2.bbs.length := by rw [hw2, jmpIns_len]
  set c1 : Ctx := ⟨some s.bbs.length, some sA.bbs.length, cb.1⟩ with hc1d
  have hc1mem : ∀ j ∈ ctxSet c1,
      j = s.bbs.length ∨ j = sA.bbs.length ∨ j ∈ cb.1 := by
    intro j hj
    rw [hc1d] at hj
    simp only [ctxSet, List.mem_append, Option.toList_some, List.mem_singleton] at hj
    tauto
  have hc1sub : ∀ j ∈ ctxSet c1, j ∈ ctxSet c ∨ s.bbs.length ≤ j := by
    intro j hj
    rcases hc1mem j hj with rfl | rfl | hj
    · exact Or.inr (le_refl _)
    · exact Or.inr (by omega)
    · have := (b3 j hj).1; exact Or.inr (by omega)
  have hc1lt : ∀ j ∈ ctxSet c1, j < w2.bbs.length := by
    intro j hj
    rcases hc1mem j hj with rfl | rfl | hj
    · omega
    · omega
    · have := (b3 j hj).2.1; omega
  have i4 : Inv c1 pend w2 := by
    refine inv_ctx1 c c1 pend s w2 hi a4 ?_
    intro j hj
    rcases hc1mem j hj with rfl | rfl | hj
    · exact Or.inr ⟨le_refl _, by omega,
        by rw [hw2, blkAt_jmpIns_param]; exact hpz1⟩
    · exact Or.inr ⟨by omega, by omega,
        by rw [hw2, blkAt_jmpIns_param]; exact hpk1⟩
    · obtain ⟨hj1, hj2, hj3⟩ := b3 j hj
      exact Or.inr ⟨by omega, by omega,
        by rw [hw2, blkAt_jmpIns_param]; exact hj3⟩
  cases hBo : gen_stmt fuel body c1 w2 with
  | none => rw [hBo] at hgen; cases hgen
  | some s3 =>
  simp only [hBo, Option.some.injEq] at hgen
  have hsub2 := ihS body c1 pend w2 s3 i4 hBo
  have a5 : Acc c pend s s3 :=
    acc_sub_ctx c c1 pend s w2 s3 hctx0 hc1sub hc1lt a4 hsub2
  have hL3 : w2.bbs.length ≤ s3.bbs.length := hsub2.1.len_le
  have hpz3 : (blkAt s3 s.bbs.length).param = none := by
    rw [hsub2.1.param_eq _ (by omega), hw2, blkAt_jmpIns_param]
    exact hpz1
  have a6 : Acc c pend s (jmpIns s.bbs.length s3) :=
    acc_push_jmp c pend s s3 _ hctx0 a5 (Or.inl ⟨le_refl _, by omega⟩) (by omega) hpz3
      (fun hmem => absurd (hi.pend_lt _ hmem) (by omega))
  rw [← hgen]
  exact acc_set_out c pend s _ (s.bbs.length) hctx0 a6
    (by rw [jmpIns_len]; omega) (Or.inr (Or.inl (le_refl _)))

theorem step_stmt (fuel : Nat) (IH : AllMeta fuel) : StmtMeta (fuel + 1) := by
  obtain ⟨ihL, ihB, ihE, ihEL, ihS, ihSL⟩ := IH
  intro n c pend s s' hi hgen
  have hctx0 : ∀ j ∈ ctxSet c, j < s.bbs.length := hi.ctx_lt
  have a0 : Acc c pend s s := acc_start c pend s hi.out_lt hi.jmp_ok
  match n with
  | .nullStmt =>
    simp only [gen_stmt, Option.some.injEq] at hgen
    rw [← hgen]
    exact a0
  | .ifs cond thn els => exact ifs_case fuel ihE ihS cond thn els c pend s s' hi hgen
  | .fors ini cond inc body =>
    exact fors_case fuel ihE ihS ini cond inc body c pend s s' hi hgen
  | .doWhile body cond => exact doWhile_case fuel ihE ihS body cond c pend s s' hi hgen
  | .switch cond caseVals body =>
    exact switch_case fuel ihE ihS cond caseVals body c pend s s' hi hgen
  | .cas idx body =>
    simp only [gen_stmt] at hgen
    cases hB : c.cases[idx]? with
    | none => rw [hB] at hgen; cases hgen
    | some bb =>
    simp only [hB] at hgen
    have hmem : bb ∈ c.cases := by
      obtain ⟨hlt, hget⟩ := List.getElem?_eq_some.mp hB
      rw [← hget]
      exact List.getElem_mem hlt
    have hmemc : bb ∈ ctxSet c := mem_cases_ctxSet c bb hmem
    have a1 : Acc c pend s (jmpIns bb s) :=
      acc_push_jmp c pend s s bb hctx0 a0 (Or.inr hmemc) (hctx0 bb hmemc)
        (hi.ctx_param bb hmemc) (fun hp => (hi.pend_ctx bb hp) hmemc)
    have a2 : Acc c pend s (set_out bb (jmpIns bb s)) :=
      acc_set_out c pend s _ bb hctx0 a1
        (by rw [jmpIns_len]; exact hctx0 bb hmemc) (Or.inr (Or.inr hmemc))
    have i2 : Inv c pend (set_out bb (jmpIns bb s)) := inv_mid_same c pend s _ hi a2
    exact acc_sub c pend s _ s' hctx0 a2 (ihS body c pend _ s' i2 hgen)
  | .brkStmt =>
    simp only [gen_stmt] at hgen
    cases hB : c.brk with
    | none => rw [hB] at hgen; cases hgen
    | some b =>
    simp only [hB, Option.some.injEq] at hgen
    have hmemc : b ∈ ctxSet c := by simp [ctxSet, hB]
    have a1 : Acc c pend s (jmpIns b s) :=
      acc_push_jmp c pend s s b hctx0 a0 (Or.inr hmemc) (hctx0 b hmemc)
        (hi.ctx_param b hmemc) (fun hp => (hi.pend_ctx b hp) hmemc)
    have a2 : Acc c pend s (new_bb (jmpIns b s)).2 :=
      acc_new_bb c pend s _ hctx0 (by rw [jmpIns_len]) a1
    rw [← hgen]
    exact acc_set_out c pend s _ _ hctx0 a2
      (by rw [new_bb_fst, new_bb_len, jmpIns_len]; omega)
      (Or.inr (Or.inl (by rw [new_bb_fst, jmpIns_len])))
  | .contStmt =>
    simp only [gen_stmt] at hgen
    cases hB : c.cont with
    | none => rw [hB] at hgen; cases hgen
    | some b =>
    simp only [hB, Option.some.injEq] at hgen
    have hmemc : b ∈ ctxSet c := by simp [ctxSet, hB]
    have a1 : Acc c pend s (jmpIns b s) :=
      acc_push_jmp c pend s s b hctx0 a0 (Or.inr hmemc) (hctx0 b hmemc)
        (hi.ctx_param b hmemc) (fun hp => (hi.pend_ctx b hp) hmemc)
    have a2 : Acc c pend s (new_bb (jmpIns b s)).2 :=
      acc_new_bb c pend s _ hctx0 (by rw [jmpIns_len]) a1
    rw [← hgen]
    exact acc_set_out c pend s _ _ hctx0 a2
      (by rw [new_bb_fst, new_bb_len, jmpIns_len]; omega)
      (Or.inr (Or.inl (by rw [new_bb_fst, jmpIns_len])))
  | .ret e =>
    simp only [gen_stmt] at hgen
    cases hE : gen_expr fuel e c s with
    | none => rw [hE] at hgen; cases hgen
    | some p =>
    obtain ⟨r1, s1⟩ := p
    simp only [hE, Option.some.injEq] at hgen
    have hsub := ihE e c pend s r1 s1 hi hE
    have a1 : Acc c pend s s1 := acc_sub c pend s s s1 hctx0 a0 hsub
    have a2 : Acc c pend s (push_ir { op := .RETURN, r2 := some r1 } s1) :=
      acc_push_nt c pend s s1 _ hctx0 a1 rfl rfl (by intro hx; cases hx)
    have a3 : Acc c pend s (new_bb (push_ir { op := .RETURN, r2 := some r1 } s1)).2 :=
      acc_new_bb c pend s _ hctx0 (by rw [push_ir_len]; exact hsub.1.len_le) a2
    rw [← hgen]
    exact acc_set_out c pend s _ _ hctx0 a3
      (by rw [new_bb_fst, new_bb_len]; omega)
      (Or.inr (Or.inl (by rw [new_bb_fst, push_ir_len]; exact hsub.1.len_le)))
  | .exprStmt e =>
    simp only [gen_stmt] at hgen
    cases hE : gen_expr fuel e c s with
    | none => rw [hE] at hgen; cases hgen
    | some p =>
    obtain ⟨r1, s1⟩ := p
    simp only [hE, Option.some.injEq] at hgen
    rw [← hgen]
    exact acc_sub c pend s s s1 hctx0 a0 (ihE e c pend s r1 s1 hi hE)
  | .compStmt stmts =>
    simp only [gen_stmt] at hgen
    exact ihSL stmts c pend s s' hi hgen
  | .num v => cases hgen
  | .varref v sz => cases hgen
  | .dot e off sz => cases hgen
  | .addr e => cases hgen
  | .deref e sz => cases hgen
  | .cast e tb => cases hgen
  | .call nm args => cases hgen
  | .stmtExpr stmts e => cases hgen
  | .bin k lhs rhs => cases hgen
  | .eql lhs rhs sz => cases hgen
  | .logand lhs rhs => cases hgen
  | .logor lhs rhs => cases hgen
  | .bnot e => cases hgen
  | .exclam e => cases hgen
  | .comma lhs rhs => cases hgen
  | .quest cond thn els => cases hgen

theorem genMeta : ∀ fuel, AllMeta fuel := by
  intro fuel
  induction fuel with
  | zero =>
    refine ⟨?_, ?_, ?_, ?_, ?_, ?_⟩
    · intro n c pend s r s' _ hgen; cases hgen
    · intro op lhs rhs c pend s r s' _ _ hgen; cases hgen
    · intro n c pend s r s' _ hgen; cases hgen
    · intro ns c pend s rs s' _ hgen; cases hgen
    · intro n c pend s s' _ hgen; cases hgen
    · intro ns c pend s s' _ hgen; cases hgen
  | succ f ih =>
    exact ⟨step_lval f ih, step_binop f ih, step_expr f ih, step_expr_list f ih,
      step_stmt f ih, step_stmt_list f ih⟩

/-- The JMP/block-parameter coherence of a finished block list: every JMP
has an in-range target; with a bbarg the target block's param is set, and
without a bbarg it is not. -/
def jmpTargetsWf (bbs : List BBlk) : Prop :=
  ∀ j, j < bbs.length → ∀ i ∈ (bbs.getD j dfltBB).ir, i.op = IRType.JMP →
    ∃ t, i.bb1 = some t ∧ t < bbs.length ∧
      ((i.bbarg ≠ none ∧ (bbs.getD t dfltBB).param ≠ none) ∨
       (i.bbarg = none ∧ (bbs.getD t dfltBB).param = none))

theorem jmpok_to_wf (s : GenSt) (h : JmpOk s []) : jmpTargetsWf s.bbs := by
  intro j hj i hi hop
  obtain ⟨t, h1, h2, h3⟩ := h j hj i hi hop
  refine ⟨t, h1, h2, ?_⟩
  rcases h3 with ⟨hb, hp | hmem⟩ | ⟨hb, hp, _⟩
  · exact Or.inl ⟨hb, hp⟩
  · cases hmem
  · exact Or.inr ⟨hb, hp⟩

/-- The state after gen_ir's first entry block: one empty block, out = 0. -/
theorem inv_fn_base (nr nl : Nat) :
    Inv ⟨none, none, []⟩ []
      (set_out 0 (new_bb { bbs := [], out := 0, nreg := nr, nlabel := nl }).2) := by
  refine ⟨?_, ?_, ?_, ?_, ?_, ?_, ?_⟩
  · show (0 : Nat) < 1
    exact Nat.one_pos
  · intro j hj
    cases hj
  · intro j hj
    cases hj
  · intro j hj
    cases hj
  · intro j hj
    cases hj
  · intro j hj i hi t ht
    have hj1 : j < 1 := hj
    have hj0 : j = 0 := by omega
    subst hj0
    have hir : (blkAt (set_out 0
        (new_bb { bbs := ([] : List BBlk), out := 0, nreg := nr, nlabel := nl }).2) 0).ir
        = [] := rfl
    rw [hir] at hi
    cases hi
  · intro j hj i hi hop
    have hj1 : j < 1 := hj
    have hj0 : j = 0 := by omega
    subst hj0
    have hir : (blkAt (set_out 0
        (new_bb { bbs := ([] : List BBlk), out := 0, nreg := nr, nlabel := nl }).2) 0).ir
        = [] := rfl
    rw [hir] at hi
    cases hi

/-- gen_params only appends STORE_ARG instructions to the output block. -/
theorem gen_params_acc (c : Ctx) (pend : List Nat) (s0 : GenSt)
    (hctx0 : ∀ j ∈ ctxSet c, j < s0.bbs.length) :
    ∀ (vs : List Var) (i : Nat) (s : GenSt), Acc c pend s0 s →
      Acc c pend s0 (gen_params vs i s).2 := by
  intro vs
  induction vs with
  | nil =>
    intro i s ha
    exact ha
  | cons v rest ih =>
    intro i s ha
    simp only [gen_params, gen_param]
    exact ih (i + 1) _ (acc_push_nt c pend s0 s _ hctx0 ha rfl rfl
      (by intro hx; cases hx))

/-- Every function gen_fn builds satisfies the JMP/param coherence. -/
theorem gen_fn_jmpok (fuel : Nat) (f : FnAst) (nr nl : Nat) (cf : CompiledFn)
    (nr1 nl1 : Nat) (h : gen_fn fuel f nr nl = some (cf, nr1, nl1)) :
    jmpTargetsWf cf.bbs := by
  simp only [gen_fn] at h
  set s0 : GenSt := { bbs := [], out := 0, nreg := nr, nlabel := nl } with hs0
  set s1 : GenSt := set_out (new_bb s0).1 (new_bb s0).2 with hs1
  set s2 : GenSt := set_out (new_bb s1).1 (jmpIns (new_bb s1).1 (new_bb s1).2) with hs2
  cases hS : gen_stmt fuel f.body ⟨none, none, []⟩ (gen_params f.params 0 s2).2 with
  | none => rw [hS] at h; cases h
  | some s3 =>
  simp only [hS, Option.some.injEq, Prod.mk.injEq] at h
  obtain ⟨hcf, -⟩ := h
  have hinv1 : Inv ⟨none, none, []⟩ [] s1 := by
    rw [hs1, show (new_bb s0).1 = 0 from rfl, hs0]
    exact inv_fn_base nr nl
  have hctx0 : ∀ j ∈ ctxSet (⟨none, none, []⟩ : Ctx), j < s1.bbs.length := hinv1.ctx_lt
  have hl1 : s1.bbs.length = 1 := by rw [hs1, hs0]; rfl
  have a1 : Acc ⟨none, none, []⟩ [] s1 s1 :=
    acc_start _ _ s1 hinv1.out_lt hinv1.jmp_ok
  have a2 : Acc ⟨none, none, []⟩ [] s1 (new_bb s1).2 :=
    acc_new_bb _ _ s1 s1 hctx0 (le_refl _) a1
  have a3 : Acc ⟨none, none, []⟩ [] s1 (jmpIns (new_bb s1).1 (new_bb s1).2) := by
    rw [show (new_bb s1).1 = s1.bbs.length from rfl]
    exact acc_push_jmp _ [] s1 _ (s1.bbs.length) hctx0 a2
      (Or.inl ⟨le_refl _, by rw [new_bb_len]; omega⟩)
      (by rw [new_bb_len]; omega)
      (by rw [blkAt_new_bb_new])
      (fun hmem => by cases hmem)
  have a4 : Acc ⟨none, none, []⟩ [] s1 s2 := by
    rw [hs2, show (new_bb s1).1 = s1.bbs.length from rfl]
    exact acc_set_out _ [] s1 _ (s1.bbs.length) hctx0 a3
      (by rw [jmpIns_len, new_bb_len]; omega)
      (Or.inr (Or.inl (le_refl _)))
  have a5 : Acc ⟨none, none, []⟩ [] s1 (gen_params f.params 0 s2).2 :=
    gen_params_acc _ [] s1 hctx0 f.params 0 s2 a4
  have hinv2 : Inv ⟨none, none, []⟩ [] (gen_params f.params 0 s2).2 :=
    inv_mid_same _ [] s1 _ hinv1 a5
  have hsub := (genMeta fuel).2.2.2.2.1 f.body ⟨none, none, []⟩ [] _ s3 hinv2 hS
  have hjk3 : JmpOk s3 [] := hsub.2.1
  have hjk4 : JmpOk (push_ir { op := .RETURN, r2 := some s3.nreg } s3) [] :=
    jmpok_push_nonjmp s3 [] _ hjk3 (by intro hx; cases hx)
  have hjk5 : JmpOk (immIns 0 (push_ir { op := .RETURN, r2 := some s3.nreg } s3)).2 [] :=
    jmpok_push_nonjmp _ [] _ (jmpok_new_reg _ [] hjk4) (by intro hx; cases hx)
  have hbbs : cf.bbs
      = (immIns 0 (push_ir { op := .RETURN, r2 := some s3.nreg } s3)).2.bbs := by
    rw [← hcf]
  rw [hbbs]
  exact jmpok_to_wf _ hjk5

theorem gen_ir_core_jmpok (fuel : Nat) :
    ∀ (fs : List FnAst) (nr nl : Nat) (out : List CompiledFn × Nat × Nat),
      gen_ir_core fuel fs nr nl = some out →
      ∀ cf ∈ out.1, jmpTargetsWf cf.bbs := by
  intro fs
  induction fs with
  | nil =>
    intro nr nl out h cf hcf
    simp only [gen_ir_core, Option.some.injEq] at h
    rw [← h] at hcf
    cases hcf
  | cons f rest ih =>
    intro nr nl out h cf hcf
    simp only [gen_ir_core] at h
    cases h1 : gen_fn fuel f nr nl with
    | none => rw [h1] at h; cases h
    | some y =>
    obtain ⟨cf1, nr1, nl1⟩ := y
    simp only [h1] at h
    cases h2 : gen_ir_core fuel rest nr1 nl1 with
    | none => rw [h2] at h; cases h
    | some z =>
    obtain ⟨cfs2, nr2, nl2⟩ := z
    simp only [h2, Option.some.injEq] at h
    rw [← h] at hcf
    rcases List.mem_cons.mp hcf with rfl | hcf2
    · exact gen_fn_jmpok fuel f nr nl cf nr1 nl1 h1
    · exact ih nr1 nl1 (cfs2, nr2, nl2) h2 cf hcf2

end Rcc

/-- C8: in every function's IR as built by gen_ir, every JMP instruction
carrying a bbarg targets a block whose param register is non-null, and
every JMP instruction without a bbarg targets a block whose param is null
(with the target index always in range of the function's block list). -/
theorem c8_jmp_param (fuel : Nat) (prog : List Rcc.FnAst) (cfs : List Rcc.CompiledFn)
    (h : Rcc.gen_ir fuel prog = some cfs) :
    ∀ cf ∈ cfs, Rcc.jmpTargetsWf cf.bbs := by
  intro cf hcf
  obtain ⟨a, ha, hfa⟩ := Option.map_eq_some'.mp h
  rw [← hfa] at hcf
  exact Rcc.gen_ir_core_jmpok fuel prog 1 1 a ha cf hcf

/-- C8 witness: the switch program compiles, and its compiled function
satisfies the JMP/param coherence. -/
theorem c8_witness :
    Rcc.gen_ir 30 [Rcc.switchAst] = some ((Rcc.gen_ir 30 [Rcc.switchAst]).getD []) ∧
    Rcc.jmpTargetsWf (((Rcc.gen_ir 30 [Rcc.switchAst]).getD []).getD 0 default).bbs := by
  refine ⟨by decide, ?_⟩
  exact c8_jmp_param 30 [Rcc.switchAst] ((Rcc.gen_ir 30 [Rcc.switchAst]).getD [])
    (by decide) (((Rcc.gen_ir 30 [Rcc.switchAst]).getD []).getD 0 default) (by decide)

namespace Rcc

/-- The STORE_ARG instruction gen_param emits for parameter v at index i:
the var reference carries address_taken = true. -/
def storeArgIns (v : Var) (i : Nat) : IRIns :=
  { op := .STORE_ARG, var := some { v with address_taken := true },
    imm := (i : Int), size := v.size }

/-- The prologue instruction list gen_params emits. -/
def storeArgList : List Var → Nat → List IRIns
  | [], _ => []
  | v :: vs, i => storeArgIns v i :: storeArgList vs (i + 1)

/-- No instruction of the block list targets block 0 (the entry block is
predecessor-free). -/
def noEntryPreds (bbs : List BBlk) : Prop :=
  ∀ j, j < bbs.length → ∀ i ∈ (bbs.getD j dfltBB).ir, ∀ t ∈ insTargs i, t ≠ 0

theorem gen_param_eq (v : Var) (i : Nat) (s : GenSt) :
    gen_param v i s = ({ v with address_taken := true }, push_ir (storeArgIns v i) s) := rfl

theorem targp_push_nt (s : GenSt) (P : Nat → Prop) (i : IRIns)
    (h : TargP s P) (hb1 : i.bb1 = none) (hb2 : i.bb2 = none) :
    TargP (push_ir i s) P := by
  intro j hj ins hins t ht
  rw [push_ir_len] at hj
  by_cases hjo : j = s.out
  · subst hjo
    by_cases hl : s.out < s.bbs.length
    · rw [blkAt_push_ir_self i s hl] at hins
      simp only [List.mem_append, List.mem_singleton] at hins
      rcases hins with hins | hins
      · exact h s.out hl ins hins t ht
      · subst hins
        simp [insTargs, hb1, hb2] at ht
    · rw [push_ir_oob i s hl] at hins
      exact h s.out hj ins hins t ht
  · rw [blkAt_push_ir_ne i s j hjo] at hins
    exact h j hj ins hins t ht

theorem gen_params_out (vs : List Var) : ∀ (i : Nat) (s : GenSt),
    (gen_params vs i s).2.out = s.out := by
  induction vs with
  | nil => intro i s; rfl
  | cons v rest ih =>
    intro i s
    simp only [gen_params, gen_param]
    rw [ih (i + 1) _, push_ir_out]

theorem gen_params_len (vs : List Var) : ∀ (i : Nat) (s : GenSt),
    (gen_params vs i s).2.bbs.length = s.bbs.length := by
  induction vs with
  | nil => intro i s; rfl
  | cons v rest ih =>
    intro i s
    simp only [gen_params, gen_param]
    rw [ih (i + 1) _, push_ir_len]

theorem gen_params_fst (vs : List Var) : ∀ (i : Nat) (s : GenSt),
    (gen_params vs i s).1 = vs.map (fun v => { v with address_taken := true }) := by
  induction vs with
  | nil => intro i s; rfl
  | cons v rest ih =>
    intro i s
    simp only [gen_params, gen_param, List.map_cons]
    rw [ih (i + 1) _]

theorem gen_params_blkAt_ne (vs : List Var) : ∀ (i : Nat) (s : GenSt) (j : Nat),
    j ≠ s.out → blkAt (gen_params vs i s).2 j = blkAt s j := by
  induction vs with
  | nil => intro i s j _; rfl
  | cons v rest ih =>
    intro i s j hj
    simp only [gen_params, gen_param]
    rw [ih (i + 1) _ j (by rw [push_ir_out]; exact hj), blkAt_push_ir_ne _ _ _ hj]

theorem gen_params_out_ir (vs : List Var) : ∀ (i : Nat) (s : GenSt),
    s.out < s.bbs.length →
    (blkAt (gen_params vs i s).2 s.out).ir
      = (blkAt s s.out).ir ++ storeArgList vs i := by
  induction vs with
  | nil =>
    intro i s _
    simp [gen_params, storeArgList]
  | cons v rest ih =>
    intro i s h
    simp only [gen_params, gen_param_eq, storeArgList]
    have h2 : (push_ir (storeArgIns v i) s).out < (push_ir (storeArgIns v i) s).bbs.length := by
      rw [push_ir_out, push_ir_len]; exact h
    have h3 := ih (i + 1) (push_ir (storeArgIns v i) s) h2
    rw [push_ir_out] at h3
    rw [h3, blkAt_push_ir_self _ _ h]
    simp

theorem gen_params_targp (vs : List Var) (P : Nat → Prop) : ∀ (i : Nat) (s : GenSt),
    TargP s P → TargP (gen_params vs i s).2 P := by
  induction vs with
  | nil => intro i s h; exact h
  | cons v rest ih =>
    intro i s h
    simp only [gen_params, gen_param]
    exact ih (i + 1) _ (targp_push_nt s P _ h rfl rfl)

/-- The compiled function, final register counter and final label counter of
`int f(){ return 0; }` from the initial counters. -/
def c7fn : CompiledFn := ((gen_fn 30 retZeroFn 1 1).getD default).1

def c7nr : Nat := ((gen_fn 30 retZeroFn 1 1).getD default).2.1

def c7nl : Nat := ((gen_fn 30 retZeroFn 1 1).getD default).2.2

end Rcc

namespace Rcc

theorem blkAt_push_ir_self_ir (i : IRIns) (s : GenSt) (j : Nat) (hj : j = s.out)
    (h : s.out < s.bbs.length) :
    (blkAt (push_ir i s) j).ir = (blkAt s j).ir ++ [i] := by
  subst hj
  rw [blkAt_push_ir_self _ _ h]

end Rcc

/-- C7, counterexample: for `int f(){ return 0; }` the built IR's final
block holds RETURN followed by IMM: the synthesized RETURN is pushed before
the IMM 0 that materializes its operand, so the last instruction of the
function's IR is the IMM, not a return. -/
theorem c7_counterexample :
    (Rcc.gen_ir 30 [Rcc.retZeroFn]).map (fun l => (l.getD 0 default).bbs.map
      (fun b => b.ir.map (fun i => i.op))) =
      some [[.JMP], [.IMM, .RETURN], [.RETURN, .IMM]] ∧
    (Rcc.gen_ir 30 [Rcc.retZeroFn]).map (fun l =>
      ((l.getD 0 default).bbs.getD 2 Rcc.dfltBB).ir.getLast?.map (fun i => i.op)) =
      some (some .IMM) := by
  refine ⟨by decide, by decide⟩

/-- C7, amended: for every function gen_fn builds, at least two blocks are
emitted; the first block holds exactly one instruction, a JMP to block 1;
no instruction anywhere in the function targets block 0 (the entry is
predecessor-free); the recorded parameter list is the source parameters
with address_taken set; block 1 begins with one STORE_ARG per parameter
whose var reference carries address_taken = true; and the epilogue block
ends with the synthesized RETURN of register r followed by the IMM 0 that
defines r, so the function's IR ends in that IMM rather than in the
return. -/
theorem c7_amended (fuel : Nat) (f : Rcc.FnAst) (nr nl : Nat)
    (cf : Rcc.CompiledFn) (nr1 nl1 : Nat)
    (h : Rcc.gen_fn fuel f nr nl = some (cf, nr1, nl1)) :
    2 ≤ cf.bbs.length ∧
    (cf.bbs.getD 0 Rcc.dfltBB).ir = [{ op := Rcc.IRType.JMP, bb1 := some 1 }] ∧
    Rcc.noEntryPreds cf.bbs ∧
    cf.params = f.params.map (fun v => { v with address_taken := true }) ∧
    (∃ rest, (cf.bbs.getD 1 Rcc.dfltBB).ir
      = Rcc.storeArgList f.params 0 ++ rest) ∧
    (∃ j, j < cf.bbs.length ∧ ∃ pre r, (cf.bbs.getD j Rcc.dfltBB).ir
      = pre ++ [{ op := Rcc.IRType.RETURN, r2 := some r },
                { op := Rcc.IRType.IMM, r0 := some r, imm := 0 }]) := by
  simp only [Rcc.gen_fn] at h
  set s0 : Rcc.GenSt := { bbs := [], out := 0, nreg := nr, nlabel := nl } with hs0
  set s1 : Rcc.GenSt := Rcc.set_out (Rcc.new_bb s0).1 (Rcc.new_bb s0).2 with hs1
  set s2 : Rcc.GenSt := Rcc.set_out (Rcc.new_bb s1).1
    (Rcc.jmpIns (Rcc.new_bb s1).1 (Rcc.new_bb s1).2) with hs2
  cases hS : Rcc.gen_stmt fuel f.body ⟨none, none, []⟩ (Rcc.gen_params f.params 0 s2).2 with
  | none => rw [hS] at h; cases h
  | some s3 =>
  simp only [hS, Option.some.injEq, Prod.mk.injEq] at h
  obtain ⟨hcf, -⟩ := h
  set s4 : Rcc.GenSt := Rcc.push_ir { op := Rcc.IRType.RETURN, r2 := some s3.nreg } s3 with hs4
  set s5 : Rcc.GenSt := (Rcc.immIns 0 s4).2 with hs5
  have hinv1 : Rcc.Inv ⟨none, none, []⟩ [] s1 := by
    rw [hs1, show (Rcc.new_bb s0).1 = 0 from rfl, hs0]
    exact Rcc.inv_fn_base nr nl
  have hctx0 : ∀ j ∈ Rcc.ctxSet (⟨none, none, []⟩ : Rcc.Ctx), j < s1.bbs.length :=
    hinv1.ctx_lt
  have hl1 : s1.bbs.length = 1 := by rw [hs1, hs0]; rfl
  have a1 := Rcc.acc_start (⟨none, none, []⟩ : Rcc.Ctx) [] s1 hinv1.out_lt hinv1.jmp_ok
  have a2 := Rcc.acc_new_bb (⟨none, none, []⟩ : Rcc.Ctx) [] s1 s1 hctx0 (le_refl _) a1
  have a3 : Rcc.Acc ⟨none, none, []⟩ [] s1
      (Rcc.jmpIns (Rcc.new_bb s1).1 (Rcc.new_bb s1).2) := by
    rw [show (Rcc.new_bb s1).1 = s1.bbs.length from rfl]
    exact Rcc.acc_push_jmp _ [] s1 _ (s1.bbs.length) hctx0 a2
      (Or.inl ⟨le_refl _, by rw [Rcc.new_bb_len]; omega⟩)
      (by rw [Rcc.new_bb_len]; omega)
      (by rw [Rcc.blkAt_new_bb_new])
      (fun hmem => by cases hmem)
  have a4 : Rcc.Acc ⟨none, none, []⟩ [] s1 s2 := by
    rw [hs2, show (Rcc.new_bb s1).1 = s1.bbs.length from rfl]
    exact Rcc.acc_set_out _ [] s1 _ (s1.bbs.length) hctx0 a3
      (by rw [Rcc.jmpIns_len, Rcc.new_bb_len]; omega)
      (Or.inr (Or.inl (le_refl _)))
  have a5 : Rcc.Acc ⟨none, none, []⟩ [] s1 (Rcc.gen_params f.params 0 s2).2 :=
    Rcc.gen_params_acc _ [] s1 hctx0 f.params 0 s2 a4
  have hinv2 := Rcc.inv_mid_same (⟨none, none, []⟩ : Rcc.Ctx) [] s1 _ hinv1 a5
  have hsub := (Rcc.genMeta fuel).2.2.2.2.1 f.body ⟨none, none, []⟩ [] _ s3 hinv2 hS
  have hl2 : s2.bbs.length = 2 := by rw [hs2, hs1, hs0]; rfl
  have ho2 : s2.out = 1 := by rw [hs2, hs1, hs0]; rfl
  have hppl : (Rcc.gen_params f.params 0 s2).2.bbs.length = 2 := by
    rw [Rcc.gen_params_len, hl2]
  have hppo : (Rcc.gen_params f.params 0 s2).2.out = 1 := by
    rw [Rcc.gen_params_out, ho2]
  have hl3 : 2 ≤ s3.bbs.length := by
    have := hsub.1.len_le; omega
  have hout3 : s3.out < s3.bbs.length := hsub.1.out_lt
  have ho3 : s3.out = 1 ∨ 2 ≤ s3.out := by
    rcases hsub.2.2 with h | h | h
    · left; rw [h, hppo]
    · right; omega
    · cases h
  have ho3ne : s3.out ≠ 0 := by rcases ho3 with h | h <;> omega
  have ho4 : s4.out = s3.out := by rw [hs4]; rfl
  have hl4 : s4.bbs.length = s3.bbs.length := by rw [hs4]; exact Rcc.push_ir_len _ _
  have hl5 : s5.bbs.length = s3.bbs.length := by
    rw [hs5, Rcc.immIns_len, hl4]
  have hbbs : cf.bbs = s5.bbs := by rw [← hcf]
  have e1 : Rcc.blkAt (Rcc.gen_params f.params 0 s2).2 0 = Rcc.blkAt s2 0 :=
    Rcc.gen_params_blkAt_ne f.params 0 s2 0 (by rw [ho2]; omega)
  have e2 : Rcc.blkAt s3 0 = Rcc.blkAt (Rcc.gen_params f.params 0 s2).2 0 :=
    hsub.1.untouched 0 (by omega) (by intro hmem; cases hmem) (by rw [hppo]; omega)
  have e3 : Rcc.blkAt s4 0 = Rcc.blkAt s3 0 := by
    rw [hs4]
    exact Rcc.blkAt_push_ir_ne _ _ _ (by omega)
  have e4 : Rcc.blkAt s5 0 = Rcc.blkAt s4 0 := by
    rw [hs5]
    exact Rcc.blkAt_push_ir_ne _ _ _
      (by rw [show (Rcc.new_reg s4).2.out = s4.out from rfl, ho4]; omega)
  refine ⟨?_, ?_, ?_, ?_, ?_, ?_⟩
  · rw [hbbs]
    omega
  · rw [hbbs]
    show (Rcc.blkAt s5 0).ir = _
    rw [e4, e3, e2, e1]
    rfl
  · rw [hbbs]
    have htg2 : Rcc.TargP s2 (fun t => t ≠ 0) := by
      intro j hj i hi t ht
      have hj2 : j < 2 := by rw [hl2] at hj; exact hj
      have hj01 : j = 0 ∨ j = 1 := by omega
      rcases hj01 with rfl | rfl
      · have hir : (Rcc.blkAt s2 0).ir = [{ op := Rcc.IRType.JMP, bb1 := some 1 }] := rfl
        rw [hir] at hi
        rcases List.mem_singleton.mp hi with rfl
        simp only [Rcc.insTargs, Option.toList_some, Option.toList_none,
          List.append_nil, List.mem_singleton] at ht
        omega
      · have hir : (Rcc.blkAt s2 1).ir = [] := rfl
        rw [hir] at hi
        cases hi
    have htgpp := Rcc.gen_params_targp f.params (fun t => t ≠ 0) 0 s2 htg2
    have htg3 : Rcc.TargP s3 (fun t => t ≠ 0) :=
      hsub.1.targ _ htgpp (fun j hj => by cases hj) (fun t ht _ => by omega)
    have htg4 : Rcc.TargP s4 (fun t => t ≠ 0) := by
      rw [hs4]
      exact Rcc.targp_push_nt s3 _ _ htg3 rfl rfl
    have htg5 : Rcc.TargP s5 (fun t => t ≠ 0) := by
      rw [hs5]
      exact Rcc.targp_push_nt (Rcc.new_reg s4).2 _ _ htg4 rfl rfl
    exact fun j hj i hi t ht => htg5 j hj i hi t ht
  · rw [← hcf]
    exact Rcc.gen_params_fst f.params 0 s2
  · have hpp1 : (Rcc.blkAt (Rcc.gen_params f.params 0 s2).2 1).ir
        = Rcc.storeArgList f.params 0 := by
      have h1 := Rcc.gen_params_out_ir f.params 0 s2 (by rw [ho2, hl2]; omega)
      rw [ho2] at h1
      rw [show (Rcc.blkAt s2 1).ir = [] from rfl] at h1
      rw [List.nil_append] at h1
      exact h1
    obtain ⟨tl3, htl3⟩ := hsub.1.ir_pfx 1 (by omega)
    have htl3' : (Rcc.blkAt s3 1).ir = Rcc.storeArgList f.params 0 ++ tl3 := by
      rw [htl3, hpp1]
    obtain ⟨tl4, htl4⟩ :=
      Rcc.blkAt_push_ir_ir { op := Rcc.IRType.RETURN, r2 := some s3.nreg } s3 1
    have htl4' : (Rcc.blkAt s4 1).ir = (Rcc.blkAt s3 1).ir ++ tl4 := by
      rw [hs4]
      exact htl4
    obtain ⟨tl5, htl5⟩ :=
      Rcc.blkAt_push_ir_ir { op := Rcc.IRType.IMM, r0 := some (Rcc.new_reg s4).1, imm := 0 }
        (Rcc.new_reg s4).2 1
    have htl5' : (Rcc.blkAt s5 1).ir = (Rcc.blkAt s4 1).ir ++ tl5 := by
      rw [hs5]
      exact htl5
    refine ⟨tl3 ++ tl4 ++ tl5, ?_⟩
    rw [hbbs]
    show (Rcc.blkAt s5 1).ir = _
    rw [htl5', htl4', htl3']
    simp [List.append_assoc]
  · have hA : (Rcc.blkAt s4 s3.out).ir
        = (Rcc.blkAt s3 s3.out).ir ++ [{ op := Rcc.IRType.RETURN, r2 := some s3.nreg }] := by
      rw [hs4, Rcc.blkAt_push_ir_self _ _ hout3]
    have hB : (Rcc.blkAt s5 s3.out).ir
        = (Rcc.blkAt s4 s3.out).ir
          ++ [{ op := Rcc.IRType.IMM, r0 := some s3.nreg, imm := 0 }] := by
      rw [hs5]
      exact Rcc.blkAt_push_ir_self_ir _ (Rcc.new_reg s4).2 s3.out
        (by rw [Rcc.new_reg_out, hs4, Rcc.push_ir_out])
        (by rw [Rcc.new_reg_out, Rcc.new_reg_bbs, hs4, Rcc.push_ir_out, Rcc.push_ir_len]
            exact hout3)
    refine ⟨s3.out, by rw [hbbs]; omega, (Rcc.blkAt s3 s3.out).ir, s3.nreg, ?_⟩
    rw [hbbs]
    show (Rcc.blkAt s5 s3.out).ir = _
    rw [hB, hA, List.append_assoc]
    rfl

/-- C7 witness: the shape facts at `int f(){ return 0; }` from the initial
counters. -/
theorem c7_witness :
    Rcc.gen_fn 30 Rcc.retZeroFn 1 1 = some (Rcc.c7fn, Rcc.c7nr, Rcc.c7nl) ∧
    (2 ≤ Rcc.c7fn.bbs.length ∧
     (Rcc.c7fn.bbs.getD 0 Rcc.dfltBB).ir = [{ op := Rcc.IRType.JMP, bb1 := some 1 }] ∧
     Rcc.noEntryPreds Rcc.c7fn.bbs ∧
     Rcc.c7fn.params = Rcc.retZeroFn.params.map (fun v => { v with address_taken := true }) ∧
     (∃ rest, (Rcc.c7fn.bbs.getD 1 Rcc.dfltBB).ir
        = Rcc.storeArgList Rcc.retZeroFn.params 0 ++ rest) ∧
     (∃ j, j < Rcc.c7fn.bbs.length ∧ ∃ pre r, (Rcc.c7fn.bbs.getD j Rcc.dfltBB).ir
        = pre ++ [{ op := Rcc.IRType.RETURN, r2 := some r },
                  { op := Rcc.IRType.IMM, r0 := some r, imm := 0 }])) :=
  ⟨by decide, c7_amended 30 Rcc.retZeroFn 1 1 Rcc.c7fn Rcc.c7nr Rcc.c7nl (by decide)⟩

namespace Rcc

theorem blkAt_out_param_set_param_self (r : Nat) (s : GenSt) (j : Nat) (hj : j = s.out)
    (h : s.out < s.bbs.length) : (blkAt (out_param_set r s) j).param = some r := by
  subst hj
  rw [blkAt_out_param_set_self r s h]

/-- The diamond shape built for `&&`: four fresh blocks (the rhs block, the
0-setting block, the 1-setting block and the join), the 0/1-setting blocks
each holding exactly an IMM and a JMP to the join carrying the IMM's
register as block argument, and the join holding the block parameter
returned as the expression's result. -/
theorem logand_shape (fuel : Nat) (lhs rhs : Node) (c : Ctx) (pend : List Nat)
    (s : GenSt) (r : Nat) (s' : GenSt) (hi : Inv c pend s)
    (hgen : gen_expr (fuel + 1) (.logand lhs rhs) c s = some (r, s')) :
    s.bbs.length + 4 ≤ s'.bbs.length ∧
    s'.out = s.bbs.length + 3 ∧
    (blkAt s' (s.bbs.length + 3)).param = some r ∧
    (∃ a, (blkAt s' (s.bbs.length + 1)).ir
      = [{ op := IRType.IMM, r0 := some a, imm := 0 },
         { op := IRType.JMP, bb1 := some (s.bbs.length + 3), bbarg := some a }]) ∧
    (∃ b, (blkAt s' (s.bbs.length + 2)).ir
      = [{ op := IRType.IMM, r0 := some b, imm := 1 },
         { op := IRType.JMP, bb1 := some (s.bbs.length + 3), bbarg := some b }]) := by
  have ihE : ExprMeta fuel := (genMeta fuel).2.2.1
  have hctx0 : ∀ j ∈ ctxSet c, j < s.bbs.length := hi.ctx_lt
  simp only [gen_expr] at hgen
  rw [new_bb_fst s] at hgen
  set sA : GenSt := (new_bb s).2 with hsA
  rw [new_bb_fst sA] at hgen
  set sB : GenSt := (new_bb sA).2 with hsB
  rw [new_bb_fst sB] at hgen
  set sC : GenSt := (new_bb sB).2 with hsC
  rw [new_bb_fst sC] at hgen
  set sD : GenSt := (new_bb sC).2 with hsD
  have hlA : sA.bbs.length = s.bbs.length + 1 := by rw [hsA]; exact new_bb_len s
  have hlB : sB.bbs.length = s.bbs.length + 2 := by rw [hsB, new_bb_len, hlA]
  have hlC : sC.bbs.length = s.bbs.length + 3 := by rw [hsC, new_bb_len, hlB]
  have hlD : sD.bbs.length = s.bbs.length + 4 := by rw [hsD, new_bb_len, hlC]
  cases h1 : gen_expr fuel lhs c sD with
  | none => rw [h1] at hgen; cases hgen
  | some p1 =>
  obtain ⟨rl, t1⟩ := p1
  simp only [h1] at hgen
  set w1 : GenSt := set_out s.bbs.length (brIns rl s.bbs.length sA.bbs.length t1) with hw1
  cases h2 : gen_expr fuel rhs c w1 with
  | none => rw [h2] at hgen; cases hgen
  | some p2 =>
  obtain ⟨rr, t2⟩ := p2
  simp only [h2, Option.some.injEq, Prod.mk.injEq] at hgen
  obtain ⟨hr, hs'⟩ := hgen
  have aP : Acc c (sC.bbs.length :: pend) s s :=
    acc_extend_pend c pend s s (sC.bbs.length) (by omega)
      (acc_start c pend s hi.out_lt hi.jmp_ok)
  have a1 : Acc c (sC.bbs.length :: pend) s sA := by
    rw [hsA]
    exact acc_new_bb c _ s s hctx0 (le_refl _) aP
  have a2 : Acc c (sC.bbs.length :: pend) s sB := by
    rw [hsB]
    exact acc_new_bb c _ s sA hctx0 (by omega) a1
  have a3 : Acc c (sC.bbs.length :: pend) s sC := by
    rw [hsC]
    exact acc_new_bb c _ s sB hctx0 (by omega) a2
  have a4 : Acc c (sC.bbs.length :: pend) s sD := by
    rw [hsD]
    exact acc_new_bb c _ s sC hctx0 (by omega) a3
  have hpl' : ∀ j ∈ sC.bbs.length :: pend, j < sD.bbs.length := by
    intro j hj
    rcases List.mem_cons.mp hj with h | h
    · omega
    · have := hi.pend_lt j h; omega
  have hpc' : ∀ j ∈ sC.bbs.length :: pend, j ∉ ctxSet c := by
    intro j hj
    rcases List.mem_cons.mp hj with h | h
    · subst h; intro hm; have := hctx0 _ hm; omega
    · exact hi.pend_ctx j h
  have i4 : Inv c (sC.bbs.length :: pend) sD := inv_mid c pend _ s sD hi a4 hpl' hpc'
  have hsub1 := ihE lhs c _ sD rl t1 i4 h1
  have a5 : Acc c (sC.bbs.length :: pend) s t1 := acc_sub c _ s sD t1 hctx0 a4 hsub1
  have hlt1 : s.bbs.length + 4 ≤ t1.bbs.length := by
    have := hsub1.1.len_le; omega
  have a6 : Acc c (sC.bbs.length :: pend) s (brIns rl s.bbs.length sA.bbs.length t1) :=
    acc_push_br c _ s t1 rl _ _ hctx0 a5 (Or.inl ⟨le_refl _, by omega⟩)
      (Or.inl ⟨by omega, by omega⟩)
  have a7 : Acc c (sC.bbs.length :: pend) s w1 := by
    rw [hw1]
    exact acc_set_out c _ s _ (s.bbs.length) hctx0 a6
      (by rw [brIns_len]; omega) (Or.inr (Or.inl (le_refl _)))
  have hw1len : w1.bbs.length = t1.bbs.length := by rw [hw1, set_out_len, brIns_len]
  have hw1out : w1.out = s.bbs.length := by rw [hw1]; rfl
  have i7 : Inv c (sC.bbs.length :: pend) w1 :=
    inv_mid c pend _ s w1 hi a7
      (fun j hj => by have := hpl' j hj; omega)
      hpc'
  have hsub2 := ihE rhs c _ w1 rr t2 i7 h2
  have hlt2 : s.bbs.length + 4 ≤ t2.bbs.length := by
    have := hsub2.1.len_le; omega
  set u1 : GenSt := set_out sA.bbs.length (brIns rr sB.bbs.length sA.bbs.length t2) with hu1
  set u2 : GenSt := set_out sB.bbs.length
    (jmpArgIns sC.bbs.length (immIns 0 u1).1 ((immIns 0 u1).2)) with hu2
  set u3 : GenSt := set_out sC.bbs.length
    (jmpArgIns sC.bbs.length (immIns 1 u2).1 ((immIns 1 u2).2)) with hu3
  have hDout : sD.out = s.out := by rw [hsD, hsC, hsB, hsA]; rfl
  have hu1out : u1.out = sA.bbs.length := by rw [hu1]; rfl
  have hu1len : u1.bbs.length = t2.bbs.length := by rw [hu1, set_out_len, brIns_len]
  have hu2out : u2.out = sB.bbs.length := by rw [hu2]; rfl
  have hu2len : u2.bbs.length = t2.bbs.length := by
    rw [hu2, set_out_len, jmpArgIns_len, immIns_len, hu1len]
  have hu3out : u3.out = sC.bbs.length := by rw [hu3]; rfl
  have hu3len : u3.bbs.length = t2.bbs.length := by
    rw [hu3, set_out_len, jmpArgIns_len, immIns_len, hu2len]
  have hto1 : t1.out = s.out ∨ s.bbs.length + 4 ≤ t1.out ∨ t1.out < s.bbs.length := by
    rcases hsub1.2.2 with h | h | h
    · left; rw [h, hDout]
    · right; left; omega
    · right; right; exact hctx0 _ h
  have hto2 : t2.out = s.bbs.length ∨ s.bbs.length + 4 ≤ t2.out ∨ t2.out < s.bbs.length := by
    rcases hsub2.2.2 with h | h | h
    · left; rw [h, hw1out]
    · right; left; omega
    · right; right; exact hctx0 _ h
  have hiout : s.out < s.bbs.length := hi.out_lt
  have hA_D : (blkAt sD sA.bbs.length).ir = [] := by
    rw [hsD, blkAt_new_bb_old _ _ (by omega), hsC, blkAt_new_bb_old _ _ (by omega),
      hsB, blkAt_new_bb_new]
  have hB_D : (blkAt sD sB.bbs.length).ir = [] := by
    rw [hsD, blkAt_new_bb_old _ _ (by omega), hsC, blkAt_new_bb_new]
  have hA_t1 : blkAt t1 sA.bbs.length = blkAt sD sA.bbs.length :=
    hsub1.1.untouched _ (by omega) (by intro hm; have := hctx0 _ hm; omega)
      (by rw [hDout]; omega)
  have hB_t1 : blkAt t1 sB.bbs.length = blkAt sD sB.bbs.length :=
    hsub1.1.untouched _ (by omega) (by intro hm; have := hctx0 _ hm; omega)
      (by rw [hDout]; omega)
  have hA_w1 : blkAt w1 sA.bbs.length = blkAt t1 sA.bbs.length := by
    rw [hw1, blkAt_set_out]
    exact blkAt_push_ir_ne _ _ _ (by rcases hto1 with h | h | h <;> omega)
  have hB_w1 : blkAt w1 sB.bbs.length = blkAt t1 sB.bbs.length := by
    rw [hw1, blkAt_set_out]
    exact blkAt_push_ir_ne _ _ _ (by rcases hto1 with h | h | h <;> omega)
  have hA_t2 : blkAt t2 sA.bbs.length = blkAt w1 sA.bbs.length :=
    hsub2.1.untouched _ (by omega) (by intro hm; have := hctx0 _ hm; omega)
      (by rw [hw1out]; omega)
  have hB_t2 : blkAt t2 sB.bbs.length = blkAt w1 sB.bbs.length :=
    hsub2.1.untouched _ (by omega) (by intro hm; have := hctx0 _ hm; omega)
      (by rw [hw1out]; omega)
  have hA_u1 : blkAt u1 sA.bbs.length = blkAt t2 sA.bbs.length := by
    rw [hu1, blkAt_set_out]
    exact blkAt_push_ir_ne _ _ _ (by rcases hto2 with h | h | h <;> omega)
  have hB_u1 : blkAt u1 sB.bbs.length = blkAt t2 sB.bbs.length := by
    rw [hu1, blkAt_set_out]
    exact blkAt_push_ir_ne _ _ _ (by rcases hto2 with h | h | h <;> omega)
  have hpz : (blkAt ((immIns 0 u1).2) sA.bbs.length).ir
      = (blkAt u1 sA.bbs.length).ir
        ++ [{ op := IRType.IMM, r0 := some (immIns 0 u1).1, imm := 0 }] :=
    blkAt_push_ir_self_ir _ (new_reg u1).2 _ (by rw [new_reg_out, hu1out])
      (by rw [new_reg_out, new_reg_bbs, hu1out, hu1len]; omega)
  have hjmp0 : (blkAt (jmpArgIns sC.bbs.length (immIns 0 u1).1 ((immIns 0 u1).2))
        sA.bbs.length).ir
      = (blkAt ((immIns 0 u1).2) sA.bbs.length).ir
        ++ [{ op := IRType.JMP, bb1 := some sC.bbs.length,
              bbarg := some (immIns 0 u1).1 }] :=
    blkAt_push_ir_self_ir _ ((immIns 0 u1).2) _
      (by rw [show (immIns 0 u1).2.out = u1.out from rfl, hu1out])
      (by rw [show (immIns 0 u1).2.out = u1.out from rfl,
          show (immIns 0 u1).2.bbs.length = u1.bbs.length from immIns_len 0 u1,
          hu1out, hu1len]; omega)
  have hA_u2 : (blkAt u2 sA.bbs.length).ir
      = [{ op := IRType.IMM, r0 := some (immIns 0 u1).1, imm := 0 },
         { op := IRType.JMP, bb1 := some sC.bbs.length, bbarg := some (immIns 0 u1).1 }] := by
    rw [hu2, blkAt_set_out, hjmp0, hpz, hA_u1, hA_t2, hA_w1, hA_t1, hA_D]
    rfl
  have hB_u2 : (blkAt u2 sB.bbs.length).ir = [] := by
    rw [hu2, blkAt_set_out]
    rw [show blkAt (jmpArgIns sC.bbs.length (immIns 0 u1).1 ((immIns 0 u1).2)) sB.bbs.length
      = blkAt ((immIns 0 u1).2) sB.bbs.length from blkAt_push_ir_ne _ _ _
        (by rw [show (immIns 0 u1).2.out = u1.out from rfl, hu1out]; omega)]
    rw [show blkAt ((immIns 0 u1).2) sB.bbs.length = blkAt u1 sB.bbs.length from
      blkAt_push_ir_ne _ _ _
        (by rw [show (new_reg u1).2.out = u1.out from rfl, hu1out]; omega)]
    rw [hB_u1, hB_t2, hB_w1, hB_t1, hB_D]
  have hpo : (blkAt ((immIns 1 u2).2) sB.bbs.length).ir
      = (blkAt u2 sB.bbs.length).ir
        ++ [{ op := IRType.IMM, r0 := some (immIns 1 u2).1, imm := 1 }] :=
    blkAt_push_ir_self_ir _ (new_reg u2).2 _ (by rw [new_reg_out, hu2out])
      (by rw [new_reg_out, new_reg_bbs, hu2out, hu2len]; omega)
  have hjmp1 : (blkAt (jmpArgIns sC.bbs.length (immIns 1 u2).1 ((immIns 1 u2).2))
        sB.bbs.length).ir
      = (blkAt ((immIns 1 u2).2) sB.bbs.length).ir
        ++ [{ op := IRType.JMP, bb1 := some sC.bbs.length,
              bbarg := some (immIns 1 u2).1 }] :=
    blkAt_push_ir_self_ir _ ((immIns 1 u2).2) _
      (by rw [show (immIns 1 u2).2.out = u2.out from rfl, hu2out])
      (by rw [show (immIns 1 u2).2.out = u2.out from rfl,
          show (immIns 1 u2).2.bbs.length = u2.bbs.length from immIns_len 1 u2,
          hu2out, hu2len]; omega)
  have hB_u3 : (blkAt u3 sB.bbs.length).ir
      = [{ op := IRType.IMM, r0 := some (immIns 1 u2).1, imm := 1 },
         { op := IRType.JMP, bb1 := some sC.bbs.length, bbarg := some (immIns 1 u2).1 }] := by
    rw [hu3, blkAt_set_out, hjmp1, hpo, hB_u2]
    rfl
  have hA_u3 : blkAt u3 sA.bbs.length = blkAt u2 sA.bbs.length := by
    rw [hu3, blkAt_set_out]
    rw [show blkAt (jmpArgIns sC.bbs.length (immIns 1 u2).1 ((immIns 1 u2).2)) sA.bbs.length
      = blkAt ((immIns 1 u2).2) sA.bbs.length from blkAt_push_ir_ne _ _ _
        (by rw [show (immIns 1 u2).2.out = u2.out from rfl, hu2out]; omega)]
    exact blkAt_push_ir_ne _ _ _
      (by rw [show (new_reg u2).2.out = u2.out from rfl, hu2out]; omega)
  have hA_s' : blkAt s' sA.bbs.length = blkAt u2 sA.bbs.length := by
    rw [← hs']
    rw [show blkAt (out_param_set (new_reg u3).1 ((new_reg u3).2)) sA.bbs.length
      = blkAt ((new_reg u3).2) sA.bbs.length from blkAt_out_param_set_ne _ _ _
        (by rw [show (new_reg u3).2.out = u3.out from rfl, hu3out]; omega)]
    exact hA_u3
  have hB_s' : blkAt s' sB.bbs.length = blkAt u3 sB.bbs.length := by
    rw [← hs']
    exact blkAt_out_param_set_ne _ _ _
      (by rw [show (new_reg u3).2.out = u3.out from rfl, hu3out]; omega)
  have hslen : s'.bbs.length = t2.bbs.length := by
    rw [← hs', out_param_set_len, show (new_reg u3).2.bbs.length = u3.bbs.length from rfl,
      hu3len]
  have hsout : s'.out = sC.bbs.length := by
    rw [← hs', out_param_set_out, show (new_reg u3).2.out = u3.out from rfl, hu3out]
  have hjoin : (blkAt s' sC.bbs.length).param = some r := by
    rw [← hs', ← hr]
    exact blkAt_out_param_set_param_self (new_reg u3).1 ((new_reg u3).2) _
      (by rw [show (new_reg u3).2.out = u3.out from rfl, hu3out])
      (by rw [show (new_reg u3).2.out = u3.out from rfl,
          show (new_reg u3).2.bbs.length = u3.bbs.length from rfl, hu3out, hu3len]; omega)
  refine ⟨by omega, by rw [hsout, hlC], ?_, ?_, ?_⟩
  · rw [← hlC]
    exact hjoin
  · refine ⟨(immIns 0 u1).1, ?_⟩
    rw [← hlA, ← hlC, hA_s']
    exact hA_u2
  · refine ⟨(immIns 1 u2).1, ?_⟩
    rw [← hlB, ← hlC, hB_s']
    exact hB_u3

end Rcc

namespace Rcc

/-- The diamond shape built for `||`: four fresh blocks (the rhs block, the
0-setting block, the 1-setting block and the join), the 0/1-setting blocks
each holding exactly an IMM and a JMP to the join carrying the IMM's
register as block argument, and the join holding the block parameter
returned as the expression's result. -/
theorem logor_shape (fuel : Nat) (lhs rhs : Node) (c : Ctx) (pend : List Nat)
    (s : GenSt) (r : Nat) (s' : GenSt) (hi : Inv c pend s)
    (hgen : gen_expr (fuel + 1) (.logor lhs rhs) c s = some (r, s')) :
    s.bbs.length + 4 ≤ s'.bbs.length ∧
    s'.out = s.bbs.length + 3 ∧
    (blkAt s' (s.bbs.length + 3)).param = some r ∧
    (∃ a, (blkAt s' (s.bbs.length + 1)).ir
      = [{ op := IRType.IMM, r0 := some a, imm := 0 },
         { op := IRType.JMP, bb1 := some (s.bbs.length + 3), bbarg := some a }]) ∧
    (∃ b, (blkAt s' (s.bbs.length + 2)).ir
      = [{ op := IRType.IMM, r0 := some b, imm := 1 },
         { op := IRType.JMP, bb1 := some (s.bbs.length + 3), bbarg := some b }]) := by
  have ihE : ExprMeta fuel := (genMeta fuel).2.2.1
  have hctx0 : ∀ j ∈ ctxSet c, j < s.bbs.length := hi.ctx_lt
  simp only [gen_expr] at hgen
  rw [new_bb_fst s] at hgen
  set sA : GenSt := (new_bb s).2 with hsA
  rw [new_bb_fst sA] at hgen
  set sB : GenSt := (new_bb sA).2 with hsB
  rw [new_bb_fst sB] at hgen
  set sC : GenSt := (new_bb sB).2 with hsC
  rw [new_bb_fst sC] at hgen
  set sD : GenSt := (new_bb sC).2 with hsD
  have hlA : sA.bbs.length = s.bbs.length + 1 := by rw [hsA]; exact new_bb_len s
  have hlB : sB.bbs.length = s.bbs.length + 2 := by rw [hsB, new_bb_len, hlA]
  have hlC : sC.bbs.length = s.bbs.length + 3 := by rw [hsC, new_bb_len, hlB]
  have hlD : sD.bbs.length = s.bbs.length + 4 := by rw [hsD, new_bb_len, hlC]
  cases h1 : gen_expr fuel lhs c sD with
  | none => rw [h1] at hgen; cases hgen
  | some p1 =>
  obtain ⟨rl, t1⟩ := p1
  simp only [h1] at hgen
  set w1 : GenSt := set_out s.bbs.length (brIns rl sB.bbs.length s.bbs.length t1) with hw1
  cases h2 : gen_expr fuel rhs c w1 with
  | none => rw [h2] at hgen; cases hgen
  | some p2 =>
  obtain ⟨rr, t2⟩ := p2
  simp only [h2, Option.some.injEq, Prod.mk.injEq] at hgen
  obtain ⟨hr, hs'⟩ := hgen
  have aP : Acc c (sC.bbs.length :: pend) s s :=
    acc_extend_pend c pend s s (sC.bbs.length) (by omega)
      (acc_start c pend s hi.out_lt hi.jmp_ok)
  have a1 : Acc c (sC.bbs.length :: pend) s sA := by
    rw [hsA]
    exact acc_new_bb c _ s s hctx0 (le_refl _) aP
  have a2 : Acc c (sC.bbs.length :: pend) s sB := by
    rw [hsB]
    exact acc_new_bb c _ s sA hctx0 (by omega) a1
  have a3 : Acc c (sC.bbs.length :: pend) s sC := by
    rw [hsC]
    exact acc_new_bb c _ s sB hctx0 (by omega) a2
  have a4 : Acc c (sC.bbs.length :: pend) s sD := by
    rw [hsD]
    exact acc_new_bb c _ s sC hctx0 (by omega) a3
  have hpl' : ∀ j ∈ sC.bbs.length :: pend, j < sD.bbs.length := by
    intro j hj
    rcases List.mem_cons.mp hj with h | h
    · omega
    · have := hi.pend_lt j h; omega
  have hpc' : ∀ j ∈ sC.bbs.length :: pend, j ∉ ctxSet c := by
    intro j hj
    rcases List.mem_cons.mp hj with h | h
    · subst h; intro hm; have := hctx0 _ hm; omega
    · exact hi.pend_ctx j h
  have i4 : Inv c (sC.bbs.length :: pend) sD := inv_mid c pend _ s sD hi a4 hpl' hpc'
  have hsub1 := ihE lhs c _ sD rl t1 i4 h1
  have a5 : Acc c (sC.bbs.length :: pend) s t1 := acc_sub c _ s sD t1 hctx0 a4 hsub1
  have hlt1 : s.bbs.length + 4 ≤ t1.bbs.length := by
    have := hsub1.1.len_le; omega
  have a6 : Acc c (sC.bbs.length :: pend) s (brIns rl sB.bbs.length s.bbs.length t1) :=
    acc_push_br c _ s t1 rl _ _ hctx0 a5 (Or.inl ⟨by omega, by omega⟩)
      (Or.inl ⟨le_refl _, by omega⟩)
  have a7 : Acc c (sC.bbs.length :: pend) s w1 := by
    rw [hw1]
    exact acc_set_out c _ s _ (s.bbs.length) hctx0 a6
      (by rw [brIns_len]; omega) (Or.inr (Or.inl (le_refl _)))
  have hw1len : w1.bbs.length = t1.bbs.length := by rw [hw1, set_out_len, brIns_len]
  have hw1out : w1.out = s.bbs.length := by rw [hw1]; rfl
  have i7 : Inv c (sC.bbs.length :: pend) w1 :=
    inv_mid c pend _ s w1 hi a7
      (fun j hj => by have := hpl' j hj; omega)
      hpc'
  have hsub2 := ihE rhs c _ w1 rr t2 i7 h2
  have hlt2 : s.bbs.length + 4 ≤ t2.bbs.length := by
    have := hsub2.1.len_le; omega
  set u1 : GenSt := set_out sA.bbs.length (brIns rr sB.bbs.length sA.bbs.length t2) with hu1
  set u2 : GenSt := set_out sB.bbs.length
    (jmpArgIns sC.bbs.length (immIns 0 u1).1 ((immIns 0 u1).2)) with hu2
  set u3 : GenSt := set_out sC.bbs.length
    (jmpArgIns sC.bbs.length (immIns 1 u2).1 ((immIns 1 u2).2)) with hu3
  have hDout : sD.out = s.out := by rw [hsD, hsC, hsB, hsA]; rfl
  have hu1out : u1.out = sA.bbs.length := by rw [hu1]; rfl
  have hu1len : u1.bbs.length = t2.bbs.length := by rw [hu1, set_out_len, brIns_len]
  have hu2out : u2.out = sB.bbs.length := by rw [hu2]; rfl
  have hu2len : u2.bbs.length = t2.bbs.length := by
    rw [hu2, set_out_len, jmpArgIns_len, immIns_len, hu1len]
  have hu3out : u3.out = sC.bbs.length := by rw [hu3]; rfl
  have hu3len : u3.bbs.length = t2.bbs.length := by
    rw [hu3, set_out_len, jmpArgIns_len, immIns_len, hu2len]
  have hto1 : t1.out = s.out ∨ s.bbs.length + 4 ≤ t1.out ∨ t1.out < s.bbs.length := by
    rcases hsub1.2.2 with h | h | h
    · left; rw [h, hDout]
    · right; left; omega
    · right; right; exact hctx0 _ h
  have hto2 : t2.out = s.bbs.length ∨ s.bbs.length + 4 ≤ t2.out ∨ t2.out < s.bbs.length := by
    rcases hsub2.2.2 with h | h | h
    · left; rw [h, hw1out]
    · right; left; omega
    · right; right; exact hctx0 _ h
  have hiout : s.out < s.bbs.length := hi.out_lt
  have hA_D : (blkAt sD sA.bbs.length).ir = [] := by
    rw [hsD, blkAt_new_bb_old _ _ (by omega), hsC, blkAt_new_bb_old _ _ (by omega),
      hsB, blkAt_new_bb_new]
  have hB_D : (blkAt sD sB.bbs.length).ir = [] := by
    rw [hsD, blkAt_new_bb_old _ _ (by omega), hsC, blkAt_new_bb_new]
  have hA_t1 : blkAt t1 sA.bbs.length = blkAt sD sA.bbs.length :=
    hsub1.1.untouched _ (by omega) (by intro hm; have := hctx0 _ hm; omega)
      (by rw [hDout]; omega)
  have hB_t1 : blkAt t1 sB.bbs.length = blkAt sD sB.bbs.length :=
    hsub1.1.untouched _ (by omega) (by intro hm; have := hctx0 _ hm; omega)
      (by rw [hDout]; omega)
  have hA_w1 : blkAt w1 sA.bbs.length = blkAt t1 sA.bbs.length := by
    rw [hw1, blkAt_set_out]
    exact blkAt_push_ir_ne _ _ _ (by rcases hto1 with h | h | h <;> omega)
  have hB_w1 : blkAt w1 sB.bbs.length = blkAt t1 sB.bbs.length := by
    rw [hw1, blkAt_set_out]
    exact blkAt_push_ir_ne _ _ _ (by rcases hto1 with h | h | h <;> omega)
  have hA_t2 : blkAt t2 sA.bbs.length = blkAt w1 sA.bbs.length :=
    hsub2.1.untouched _ (by omega) (by intro hm; have := hctx0 _ hm; omega)
      (by rw [hw1out]; omega)
  have hB_t2 : blkAt t2 sB.bbs.length = blkAt w1 sB.bbs.length :=
    hsub2.1.untouched _ (by omega) (by intro hm; have := hctx0 _ hm; omega)
      (by rw [hw1out]; omega)
  have hA_u1 : blkAt u1 sA.bbs.length = blkAt t2 sA.bbs.length := by
    rw [hu1, blkAt_set_out]
    exact blkAt_push_ir_ne _ _ _ (by rcases hto2 with h | h | h <;> omega)
  have hB_u1 : blkAt u1 sB.bbs.length = blkAt t2 sB.bbs.length := by
    rw [hu1, blkAt_set_out]
    exact blkAt_push_ir_ne _ _ _ (by rcases hto2 with h | h | h <;> omega)
  have hpz : (blkAt ((immIns 0 u1).2) sA.bbs.length).ir
      = (blkAt u1 sA.bbs.length).ir
        ++ [{ op := IRType.IMM, r0 := some (immIns 0 u1).1, imm := 0 }] :=
    blkAt_push_ir_self_ir _ (new_reg u1).2 _ (by rw [new_reg_out, hu1out])
      (by rw [new_reg_out, new_reg_bbs, hu1out, hu1len]; omega)
  have hjmp0 : (blkAt (jmpArgIns sC.bbs.length (immIns 0 u1).1 ((immIns 0 u1).2))
        sA.bbs.length).ir
      = (blkAt ((immIns 0 u1).2) sA.bbs.length).ir
        ++ [{ op := IRType.JMP, bb1 := some sC.bbs.length,
              bbarg := some (immIns 0 u1).1 }] :=
    blkAt_push_ir_self_ir _ ((immIns 0 u1).2) _
      (by rw [show (immIns 0 u1).2.out = u1.out from rfl, hu1out])
      (by rw [show (immIns 0 u1).2.out = u1.out from rfl,
          show (immIns 0 u1).2.bbs.length = u1.bbs.length from immIns_len 0 u1,
          hu1out, hu1len]; omega)
  have hA_u2 : (blkAt u2 sA.bbs.length).ir
      = [{ op := IRType.IMM, r0 := some (immIns 0 u1).1, imm := 0 },
         { op := IRType.JMP, bb1 := some sC.bbs.length, bbarg := some (immIns 0 u1).1 }] := by
    rw [hu2, blkAt_set_out, hjmp0, hpz, hA_u1, hA_t2, hA_w1, hA_t1, hA_D]
    rfl
  have hB_u2 : (blkAt u2 sB.bbs.length).ir = [] := by
    rw [hu2, blkAt_set_out]
    rw [show blkAt (jmpArgIns sC.bbs.length (immIns 0 u1).1 ((immIns 0 u1).2)) sB.bbs.length
      = blkAt ((immIns 0 u1).2) sB.bbs.length from blkAt_push_ir_ne _ _ _
        (by rw [show (immIns 0 u1).2.out = u1.out from rfl, hu1out]; omega)]
    rw [show blkAt ((immIns 0 u1).2) sB.bbs.length = blkAt u1 sB.bbs.length from
      blkAt_push_ir_ne _ _ _
        (by rw [show (new_reg u1).2.out = u1.out from rfl, hu1out]; omega)]
    rw [hB_u1, hB_t2, hB_w1, hB_t1, hB_D]
  have hpo : (blkAt ((immIns 1 u2).2) sB.bbs.length).ir
      = (blkAt u2 sB.bbs.length).ir
        ++ [{ op := IRType.IMM, r0 := some (immIns 1 u2).1, imm := 1 }] :=
    blkAt_push_ir_self_ir _ (new_reg u2).2 _ (by rw [new_reg_out, hu2out])
      (by rw [new_reg_out, new_reg_bbs, hu2out, hu2len]; omega)
  have hjmp1 : (blkAt (jmpArgIns sC.bbs.length (immIns 1 u2).1 ((immIns 1 u2).2))
        sB.bbs.length).ir
      = (blkAt ((immIns 1 u2).2) sB.bbs.length).ir
        ++ [{ op := IRType.JMP, bb1 := some sC.bbs.length,
              bbarg := some (immIns 1 u2).1 }] :=
    blkAt_push_ir_self_ir _ ((immIns 1 u2).2) _
      (by rw [show (immIns 1 u2).2.out = u2.out from rfl, hu2out])
      (by rw [show (immIns 1 u2).2.out = u2.out from rfl,
          show (immIns 1 u2).2.bbs.length = u2.bbs.length from immIns_len 1 u2,
          hu2out, hu2len]; omega)
  have hB_u3 : (blkAt u3 sB.bbs.length).ir
      = [{ op := IRType.IMM, r0 := some (immIns 1 u2).1, imm := 1 },
         { op := IRType.JMP, bb1 := some sC.bbs.length, bbarg := some (immIns 1 u2).1 }] := by
    rw [hu3, blkAt_set_out, hjmp1, hpo, hB_u2]
    rfl
  have hA_u3 : blkAt u3 sA.bbs.length = blkAt u2 sA.bbs.length := by
    rw [hu3, blkAt_set_out]
    rw [show blkAt (jmpArgIns sC.bbs.length (immIns 1 u2).1 ((immIns 1 u2).2)) sA.bbs.length
      = blkAt ((immIns 1 u2).2) sA.bbs.length from blkAt_push_ir_ne _ _ _
        (by rw [show (immIns 1 u2).2.out = u2.out from rfl, hu2out]; omega)]
    exact blkAt_push_ir_ne _ _ _
      (by rw [show (new_reg u2).2.out = u2.out from rfl, hu2out]; omega)
  have hA_s' : blkAt s' sA.bbs.length = blkAt u2 sA.bbs.length := by
    rw [← hs']
    rw [show blkAt (out_param_set (new_reg u3).1 ((new_reg u3).2)) sA.bbs.length
      = blkAt ((new_reg u3).2) sA.bbs.length from blkAt_out_param_set_ne _ _ _
        (by rw [show (new_reg u3).2.out = u3.out from rfl, hu3out]; omega)]
    exact hA_u3
  have hB_s' : blkAt s' sB.bbs.length = blkAt u3 sB.bbs.length := by
    rw [← hs']
    exact blkAt_out_param_set_ne _ _ _
      (by rw [show (new_reg u3).2.out = u3.out from rfl, hu3out]; omega)
  have hslen : s'.bbs.length = t2.bbs.length := by
    rw [← hs', out_param_set_len, show (new_reg u3).2.bbs.length = u3.bbs.length from rfl,
      hu3len]
  have hsout : s'.out = sC.bbs.length := by
    rw [← hs', out_param_set_out, show (new_reg u3).2.out = u3.out from rfl, hu3out]
  have hjoin : (blkAt s' sC.bbs.length).param = some r := by
    rw [← hs', ← hr]
    exact blkAt_out_param_set_param_self (new_reg u3).1 ((new_reg u3).2) _
      (by rw [show (new_reg u3).2.out = u3.out from rfl, hu3out])
      (by rw [show (new_reg u3).2.out = u3.out from rfl,
          show (new_reg u3).2.bbs.length = u3.bbs.length from rfl, hu3out, hu3len]; omega)
  refine ⟨by omega, by rw [hsout, hlC], ?_, ?_, ?_⟩
  · rw [← hlC]
    exact hjoin
  · refine ⟨(immIns 0 u1).1, ?_⟩
    rw [← hlA, ← hlC, hA_s']
    exact hA_u2
  · refine ⟨(immIns 1 u2).1, ?_⟩
    rw [← hlB, ← hlC, hB_s']
    exact hB_u3


end Rcc

namespace Rcc

/-- The shape built for `?:`: three fresh blocks (then, else, join); the
then-arm's exit block holds a JMP to the join carrying the then value as
block argument (possibly followed by later-arm instructions when the arm
escaped to a shared block), the else-arm's exit block ends with a JMP to
the join carrying the else value, and the join holds the block parameter
returned as the expression's result. -/
theorem quest_shape (fuel : Nat) (cond thn els : Node) (c : Ctx) (pend : List Nat)
    (s : GenSt) (r : Nat) (s' : GenSt) (hi : Inv c pend s)
    (hgen : gen_expr (fuel + 1) (.quest cond thn els) c s = some (r, s')) :
    s.bbs.length + 3 ≤ s'.bbs.length ∧
    s'.out = s.bbs.length + 2 ∧
    (blkAt s' (s.bbs.length + 2)).param = some r ∧
    (∃ bt, bt < s'.bbs.length ∧ ∃ pre rt2 post, (blkAt s' bt).ir
      = pre ++ [{ op := IRType.JMP, bb1 := some (s.bbs.length + 2),
                  bbarg := some rt2 }] ++ post) ∧
    (∃ be, be < s'.bbs.length ∧ ∃ pre re2, (blkAt s' be).ir
      = pre ++ [{ op := IRType.JMP, bb1 := some (s.bbs.length + 2),
                  bbarg := some re2 }]) := by
  have ihE : ExprMeta fuel := (genMeta fuel).2.2.1
  have hctx0 : ∀ j ∈ ctxSet c, j < s.bbs.length := hi.ctx_lt
  simp only [gen_expr] at hgen
  rw [new_bb_fst s] at hgen
  set sA : GenSt := (new_bb s).2 with hsA
  rw [new_bb_fst sA] at hgen
  set sB : GenSt := (new_bb sA).2 with hsB
  rw [new_bb_fst sB] at hgen
  set sC : GenSt := (new_bb sB).2 with hsC
  have hlA : sA.bbs.length = s.bbs.length + 1 := by rw [hsA]; exact new_bb_len s
  have hlB : sB.bbs.length = s.bbs.length + 2 := by rw [hsB, new_bb_len, hlA]
  have hlC : sC.bbs.length = s.bbs.length + 3 := by rw [hsC, new_bb_len, hlB]
  cases h1 : gen_expr fuel cond c sC with
  | none => rw [h1] at hgen; cases hgen
  | some p1 =>
  obtain ⟨rc, t1⟩ := p1
  simp only [h1] at hgen
  set w1 : GenSt := set_out s.bbs.length (brIns rc s.bbs.length sA.bbs.length t1) with hw1
  cases h2 : gen_expr fuel thn c w1 with
  | none => rw [h2] at hgen; cases hgen
  | some p2 =>
  obtain ⟨rt, t2⟩ := p2
  simp only [h2] at hgen
  set u1 : GenSt := set_out sA.bbs.length (jmpArgIns sB.bbs.length rt t2) with hu1
  cases h3 : gen_expr fuel els c u1 with
  | none => rw [h3] at hgen; cases hgen
  | some p3 =>
  obtain ⟨re, t3⟩ := p3
  simp only [h3, Option.some.injEq, Prod.mk.injEq] at hgen
  obtain ⟨hr, hs'⟩ := hgen
  have aP : Acc c (sB.bbs.length :: pend) s s :=
    acc_extend_pend c pend s s (sB.bbs.length) (by omega)
      (acc_start c pend s hi.out_lt hi.jmp_ok)
  have a1 : Acc c (sB.bbs.length :: pend) s sA := by
    rw [hsA]
    exact acc_new_bb c _ s s hctx0 (le_refl _) aP
  have a2 : Acc c (sB.bbs.length :: pend) s sB := by
    rw [hsB]
    exact acc_new_bb c _ s sA hctx0 (by omega) a1
  have a3 : Acc c (sB.bbs.length :: pend) s sC := by
    rw [hsC]
    exact acc_new_bb c _ s sB hctx0 (by omega) a2
  have hpl' : ∀ j ∈ sB.bbs.length :: pend, j < sC.bbs.length := by
    intro j hj
    rcases List.mem_cons.mp hj with h | h
    · omega
    · have := hi.pend_lt j h; omega
  have hpc' : ∀ j ∈ sB.bbs.length :: pend, j ∉ ctxSet c := by
    intro j hj
    rcases List.mem_cons.mp hj with h | h
    · subst h; intro hm; have := hctx0 _ hm; omega
    · exact hi.pend_ctx j h
  have i3 : Inv c (sB.bbs.length :: pend) sC := inv_mid c pend _ s sC hi a3 hpl' hpc'
  have hsub1 := ihE cond c _ sC rc t1 i3 h1
  have a4 : Acc c (sB.bbs.length :: pend) s t1 := acc_sub c _ s sC t1 hctx0 a3 hsub1
  have hlt1 : s.bbs.length + 3 ≤ t1.bbs.length := by
    have := hsub1.1.len_le; omega
  have a5 : Acc c (sB.bbs.length :: pend) s (brIns rc s.bbs.length sA.bbs.length t1) :=
    acc_push_br c _ s t1 rc _ _ hctx0 a4 (Or.inl ⟨le_refl _, by omega⟩)
      (Or.inl ⟨by omega, by omega⟩)
  have a6 : Acc c (sB.bbs.length :: pend) s w1 := by
    rw [hw1]
    exact acc_set_out c _ s _ (s.bbs.length) hctx0 a5
      (by rw [brIns_len]; omega) (Or.inr (Or.inl (le_refl _)))
  have hw1len : w1.bbs.length = t1.bbs.length := by rw [hw1, set_out_len, brIns_len]
  have i6 : Inv c (sB.bbs.length :: pend) w1 :=
    inv_mid c pend _ s w1 hi a6
      (fun j hj => by have := hpl' j hj; omega)
      hpc'
  have hsub2 := ihE thn c _ w1 rt t2 i6 h2
  have a7 : Acc c (sB.bbs.length :: pend) s t2 := acc_sub c _ s w1 t2 hctx0 a6 hsub2
  have hlt2 : s.bbs.length + 3 ≤ t2.bbs.length := by
    have := hsub2.1.len_le; omega
  have a8 : Acc c (sB.bbs.length :: pend) s (jmpArgIns sB.bbs.length rt t2) := by
    refine acc_push_jmp_arg c _ s t2 (sB.bbs.length) rt hctx0 a7
      (Or.inl ⟨by omega, by omega⟩) (by omega) (Or.inr (List.mem_cons_self _ _))
  have a9 : Acc c (sB.bbs.length :: pend) s u1 := by
    rw [hu1]
    exact acc_set_out c _ s _ (sA.bbs.length) hctx0 a8
      (by rw [jmpArgIns_len]; omega) (Or.inr (Or.inl (by omega)))
  have hu1len : u1.bbs.length = t2.bbs.length := by rw [hu1, set_out_len, jmpArgIns_len]
  have i9 : Inv c (sB.bbs.length :: pend) u1 :=
    inv_mid c pend _ s u1 hi a9
      (fun j hj => by have := hpl' j hj; omega)
      hpc'
  have hsub3 := ihE els c _ u1 re t3 i9 h3
  have hlt3 : s.bbs.length + 3 ≤ t3.bbs.length := by
    have := hsub3.1.len_le; omega
  set u2 : GenSt := set_out sB.bbs.length (jmpArgIns sB.bbs.length re t3) with hu2
  have hu2out : u2.out = sB.bbs.length := by rw [hu2]; rfl
  have hu2len : u2.bbs.length = t3.bbs.length := by rw [hu2, set_out_len, jmpArgIns_len]
  have hslen : s'.bbs.length = t3.bbs.length := by
    rw [← hs', out_param_set_len, show (new_reg u2).2.bbs.length = u2.bbs.length from rfl,
      hu2len]
  have hsout : s'.out = sB.bbs.length := by
    rw [← hs', out_param_set_out, show (new_reg u2).2.out = u2.out from rfl, hu2out]
  have hjoin : (blkAt s' sB.bbs.length).param = some r := by
    rw [← hs', ← hr]
    exact blkAt_out_param_set_param_self (new_reg u2).1 ((new_reg u2).2) _
      (by rw [show (new_reg u2).2.out = u2.out from rfl, hu2out])
      (by rw [show (new_reg u2).2.out = u2.out from rfl,
          show (new_reg u2).2.bbs.length = u2.bbs.length from rfl, hu2out, hu2len]; omega)
  have hthen1 : (blkAt (jmpArgIns sB.bbs.length rt t2) t2.out).ir
      = (blkAt t2 t2.out).ir
        ++ [{ op := IRType.JMP, bb1 := some sB.bbs.length, bbarg := some rt }] :=
    blkAt_push_ir_self_ir _ t2 _ rfl hsub2.1.out_lt
  have hthen2 : (blkAt u1 t2.out).ir
      = (blkAt t2 t2.out).ir
        ++ [{ op := IRType.JMP, bb1 := some sB.bbs.length, bbarg := some rt }] := by
    rw [hu1, blkAt_set_out]
    exact hthen1
  obtain ⟨tl3, htl3⟩ := hsub3.1.ir_pfx t2.out (by rw [hu1len]; exact hsub2.1.out_lt)
  obtain ⟨tl4, htl4⟩ := blkAt_push_ir_ir
    { op := IRType.JMP, bb1 := some sB.bbs.length, bbarg := some re } t3 t2.out
  have hthen3 : (blkAt s' t2.out).ir
      = (blkAt t2 t2.out).ir
        ++ [{ op := IRType.JMP, bb1 := some sB.bbs.length, bbarg := some rt }]
        ++ (tl3 ++ tl4) := by
    rw [← hs', blkAt_out_param_set_ir]
    rw [show (blkAt ((new_reg u2).2) t2.out).ir = (blkAt u2 t2.out).ir from rfl]
    rw [hu2, blkAt_set_out]
    rw [show (blkAt (jmpArgIns sB.bbs.length re t3) t2.out).ir
      = (blkAt t3 t2.out).ir ++ tl4 from htl4]
    rw [htl3, hthen2]
    simp [List.append_assoc]
  have hels1 : (blkAt (jmpArgIns sB.bbs.length re t3) t3.out).ir
      = (blkAt t3 t3.out).ir
        ++ [{ op := IRType.JMP, bb1 := some sB.bbs.length, bbarg := some re }] :=
    blkAt_push_ir_self_ir _ t3 _ rfl hsub3.1.out_lt
  have hels2 : (blkAt s' t3.out).ir
      = (blkAt t3 t3.out).ir
        ++ [{ op := IRType.JMP, bb1 := some sB.bbs.length, bbarg := some re }] := by
    rw [← hs', blkAt_out_param_set_ir]
    rw [show (blkAt ((new_reg u2).2) t3.out).ir = (blkAt u2 t3.out).ir from rfl]
    rw [hu2, blkAt_set_out]
    exact hels1
  have hbt : t2.out < s'.bbs.length := by
    have h1' := hsub2.1.out_lt
    have h2' := hsub3.1.len_le
    omega
  have hbe : t3.out < s'.bbs.length := by
    have := hsub3.1.out_lt
    omega
  refine ⟨by omega, by rw [hsout, hlB], by rw [← hlB]; exact hjoin, ?_, ?_⟩
  · exact ⟨t2.out, hbt, (blkAt t2 t2.out).ir, rt, tl3 ++ tl4,
      by rw [← hlB]; exact hthen3⟩
  · exact ⟨t3.out, hbe, (blkAt t3 t3.out).ir, re, by rw [← hlB]; exact hels2⟩

end Rcc

namespace Rcc

/-- The state after the standard two-step prologue start: one fresh empty
block, output 0, register counter 1, label counter 2. -/
def c6st : GenSt := set_out 0 (new_bb { bbs := [], out := 0, nreg := 1, nlabel := 1 }).2

def c6res : Nat × GenSt :=
  (gen_expr 30 (.quest (.num 0) (.num 1) (.num 2)) ⟨none, none, []⟩ c6st).getD (0, c6st)

end Rcc

/-- C6, counterexample: lowering the ternary `0 ? 1 : 2` from a one-block
state yields a four-block function, i.e. exactly three fresh blocks (then,
else, join), not the four-block diamond the claim states for `?:` (the
condition is evaluated in the current block, and no separate cond_true
block is allocated). -/
theorem c6_counterexample :
    (Rcc.gen_expr 30 (.quest (.num 0) (.num 1) (.num 2)) ⟨none, none, []⟩ Rcc.c6st).map
      (fun p => p.2.bbs.length) = some 4 ∧
    Rcc.c6st.bbs.length = 1 := by
  refine ⟨by decide, by decide⟩

/-- C6, amended: `&&` and `||` are lowered into a four-block diamond (rhs
block, 0-setting block, 1-setting block, join): the 0/1-setting blocks hold
exactly an IMM of 0/1 and a JMP to the join carrying that register as block
argument, and the join block carries a block parameter returned as the
expression's result.  The ternary `?:` is lowered into three fresh blocks
(then, else, join): the condition is evaluated in the current block, each
arm's exit block emits a JMP to the join carrying the arm's value register
as block argument, and the join's block parameter is the expression's
result. -/
theorem c6_amended :
    (∀ (fuel : Nat) (lhs rhs : Rcc.Node) (c : Rcc.Ctx) (pend : List Nat)
      (s : Rcc.GenSt) (r : Nat) (s' : Rcc.GenSt), Rcc.Inv c pend s →
      Rcc.gen_expr (fuel + 1) (.logand lhs rhs) c s = some (r, s') →
      s.bbs.length + 4 ≤ s'.bbs.length ∧
      s'.out = s.bbs.length + 3 ∧
      (Rcc.blkAt s' (s.bbs.length + 3)).param = some r ∧
      (∃ a, (Rcc.blkAt s' (s.bbs.length + 1)).ir
        = [{ op := Rcc.IRType.IMM, r0 := some a, imm := 0 },
           { op := Rcc.IRType.JMP, bb1 := some (s.bbs.length + 3), bbarg := some a }]) ∧
      (∃ b, (Rcc.blkAt s' (s.bbs.length + 2)).ir
        = [{ op := Rcc.IRType.IMM, r0 := some b, imm := 1 },
           { op := Rcc.IRType.JMP, bb1 := some (s.bbs.length + 3), bbarg := some b }])) ∧
    (∀ (fuel : Nat) (lhs rhs : Rcc.Node) (c : Rcc.Ctx) (pend : List Nat)
      (s : Rcc.GenSt) (r : Nat) (s' : Rcc.GenSt), Rcc.Inv c pend s →
      Rcc.gen_expr (fuel + 1) (.logor lhs rhs) c s = some (r, s') →
      s.bbs.length + 4 ≤ s'.bbs.length ∧
      s'.out = s.bbs.length + 3 ∧
      (Rcc.blkAt s' (s.bbs.length + 3)).param = some r ∧
      (∃ a, (Rcc.blkAt s' (s.bbs.length + 1)).ir
        = [{ op := Rcc.IRType.IMM, r0 := some a, imm := 0 },
           { op := Rcc.IRType.JMP, bb1 := some (s.bbs.length + 3), bbarg := some a }]) ∧
      (∃ b, (Rcc.blkAt s' (s.bbs.length + 2)).ir
        = [{ op := Rcc.IRType.IMM, r0 := some b, imm := 1 },
           { op := Rcc.IRType.JMP, bb1 := some (s.bbs.length + 3), bbarg := some b }])) ∧
    (∀ (fuel : Nat) (cond thn els : Rcc.Node) (c : Rcc.Ctx) (pend : List Nat)
      (s : Rcc.GenSt) (r : Nat) (s' : Rcc.GenSt), Rcc.Inv c pend s →
      Rcc.gen_expr (fuel + 1) (.quest cond thn els) c s = some (r, s') →
      s.bbs.length + 3 ≤ s'.bbs.length ∧
      s'.out = s.bbs.length + 2 ∧
      (Rcc.blkAt s' (s.bbs.length + 2)).param = some r ∧
      (∃ bt, bt < s'.bbs.length ∧ ∃ pre rt2 post, (Rcc.blkAt s' bt).ir
        = pre ++ [{ op := Rcc.IRType.JMP, bb1 := some (s.bbs.length + 2),
                    bbarg := some rt2 }] ++ post) ∧
      (∃ be, be < s'.bbs.length ∧ ∃ pre re2, (Rcc.blkAt s' be).ir
        = pre ++ [{ op := Rcc.IRType.JMP, bb1 := some (s.bbs.length + 2),
                    bbarg := some re2 }])) := by
  refine ⟨?_, ?_, ?_⟩
  · intro fuel lhs rhs c pend s r s' hi hgen
    exact Rcc.logand_shape fuel lhs rhs c pend s r s' hi hgen
  · intro fuel lhs rhs c pend s r s' hi hgen
    exact Rcc.logor_shape fuel lhs rhs c pend s r s' hi hgen
  · intro fuel cond thn els c pend s r s' hi hgen
    exact Rcc.quest_shape fuel cond thn els c pend s r s' hi hgen

/-- C6 witness: the ternary shape facts at `0 ? 1 : 2` from a one-block
state. -/
theorem c6_witness :
    Rcc.gen_expr (29 + 1) (.quest (.num 0) (.num 1) (.num 2)) ⟨none, none, []⟩ Rcc.c6st
      = some (Rcc.c6res.1, Rcc.c6res.2) ∧
    (Rcc.c6st.bbs.length + 3 ≤ Rcc.c6res.2.bbs.length ∧
     Rcc.c6res.2.out = Rcc.c6st.bbs.length + 2 ∧
     (Rcc.blkAt Rcc.c6res.2 (Rcc.c6st.bbs.length + 2)).param = some Rcc.c6res.1 ∧
     (∃ bt, bt < Rcc.c6res.2.bbs.length ∧ ∃ pre rt2 post, (Rcc.blkAt Rcc.c6res.2 bt).ir
       = pre ++ [{ op := Rcc.IRType.JMP, bb1 := some (Rcc.c6st.bbs.length + 2),
                   bbarg := some rt2 }] ++ post) ∧
     (∃ be, be < Rcc.c6res.2.bbs.length ∧ ∃ pre re2, (Rcc.blkAt Rcc.c6res.2 be).ir
       = pre ++ [{ op := Rcc.IRType.JMP, bb1 := some (Rcc.c6st.bbs.length + 2),
                   bbarg := some re2 }])) :=
  ⟨by decide, c6_amended.2.2 29 (.num 0) (.num 1) (.num 2) ⟨none, none, []⟩ []
    Rcc.c6st Rcc.c6res.1 Rcc.c6res.2 (Rcc.inv_fn_base 1 1) (by decide)⟩
